import Mathlib

/-!
# Kurve round engine: a shallow embedding

The definitions below follow `src/core/Player.js`, `src/core/Round.js`,
`src/class/PowerUp.js`, `src/class/ParticleSystem.js` and the handlers of
`server.js` that keep the scores.

Conventions of the embedding.

* JavaScript numbers are rationals (`ℚ`); wall-clock times and delays are
  natural numbers of milliseconds.
* `Math.sin`, `Math.cos`, `Math.sqrt`, `Math.PI` and the `Curve` class are not
  part of the sources at hand; they are fields of the environment `Env`.
* An object that emits events carries the list of events it has emitted.
  The particle system of a player is purely visual and is represented by the
  list of calls made on it.
* `setTimeout` callbacks are data (`PlayerTimeout`, `TimerAction`) kept in the
  list of pending timers of the round; firing a timer runs its callback.
* Random draws (`int`, `Math.random`) are arguments of the operation that
  makes them.
-/

namespace Kurve

/-! ## Geometry and environment -/

/-- Class `Point`: a pair of coordinates. -/
structure Point where
  x : ℚ
  y : ℚ
deriving DecidableEq, Repr

/-- Class `Curve`: the trail of a player. Only the field `weight` is read and
written by the sources at hand; the rest of the object is the value `geom`. -/
structure Curve (G : Type) where
  weight : ℚ
  geom : G
deriving DecidableEq, Repr

/-- What the engine uses and does not define: the `Math` functions and the
methods of `Curve`. -/
structure Env (G : Type) where
  /-- The constant `Math.PI`. -/
  pi : ℚ
  /-- The function `Math.sin`. -/
  sin : ℚ → ℚ
  /-- The function `Math.cos`. -/
  cos : ℚ → ℚ
  /-- The function `Math.sqrt`. -/
  sqrt : ℚ → ℚ
  /-- The constructor `new Curve(position, weight)`. -/
  curveNew : Point → ℚ → Curve G
  /-- The method `curve.update(point)`. -/
  curveUpdate : Curve G → Point → Curve G
  /-- The method `curve.updatePosition()`. -/
  curveUpdatePosition : Curve G → Curve G
  /-- The method `curve.interfere(point, radius, self)`. -/
  interfere : Curve G → Point → ℚ → Bool → Bool

/-- The expression `Math.sqrt(Math.pow(a.x - b.x, 2) + Math.pow(a.y - b.y, 2))`. -/
def distance {G : Type} (E : Env G) (a b : Point) : ℚ :=
  E.sqrt ((a.x - b.x) ^ 2 + (a.y - b.y) ^ 2)

/-! ## Power-ups -/

/-- The enumeration `PowerUpType`. -/
inductive PowerUpType where
  | SPEED
  | SLOW
  | THICK
  | THIN
  | GHOST
  | CLEAR
  | REVERSE
deriving DecidableEq, Repr

/-- Method `PowerUp.getColor`, the colour part. -/
def PowerUpType.color : PowerUpType → String
  | .SPEED => "#ff5722"
  | .SLOW => "#2196f3"
  | .THICK => "#9c27b0"
  | .THIN => "#4caf50"
  | .GHOST => "#607d8b"
  | .CLEAR => "#ffeb3b"
  | .REVERSE => "#e91e63"

/-- Class `PowerUp`. The animation counters, read by drawing only, are left out. -/
structure PowerUp where
  position : Point
  type : PowerUpType
  radius : ℚ
  active : Bool
  color : String
  duration : Nat
deriving DecidableEq, Repr

/-- Constructor `new PowerUp(x, y, type)`. -/
def PowerUp.new (x y : ℚ) (type : PowerUpType) : PowerUp :=
  { position := ⟨x, y⟩, type := type, radius := 12, active := true,
    color := type.color, duration := 5000 }

/-- Method `PowerUp.checkCollision`. -/
def PowerUp.checkCollision {G : Type} (E : Env G) (pu : PowerUp) (point : Point) : Bool :=
  if !pu.active then false
  else decide (distance E pu.position point ≤ pu.radius)

/-! ## Players -/

/-- An entry of `player.activeEffects`. -/
structure ActiveEffect where
  type : PowerUpType
  endTime : Nat
deriving DecidableEq, Repr

/-- Events emitted by a player. -/
inductive PlayerEvent where
  | preUpdate
  | update
  | crash
  | powerUpCollected (type : PowerUpType) (duration : Nat)
  | effectExpired (type : PowerUpType) (endTime : Nat)
  | destroy
deriving DecidableEq, Repr

/-- Calls made on the particle system of a player. -/
inductive ParticleCall where
  | update (deltaTime : ℚ)
  | createExplosion (x y : ℚ) (count : Nat) (color : String) (size speed : ℚ)
  | createTrail (x y : ℚ) (color : String) (count : Nat)
deriving DecidableEq, Repr

/-- The variables `data` and `limits` captured by the listener of `initBonuses`. -/
structure BonusData where
  distanceTraveled : ℚ
  distance : ℚ
  pause : Bool
  pauseDistance : ℚ
  limit0 : ℚ
  limit1 : ℚ
deriving DecidableEq, Repr

/-- Class `Player`. `listening` is false once `destroy` has emptied the table
of listeners; `emitted` is the list of events emitted so far. -/
structure Player (G : Type) where
  name : String
  position : Point
  curve : Curve G
  stop : Bool
  speed : ℚ
  agility : ℚ
  active : Bool
  immune : Bool
  angle : ℚ
  vector : ℚ
  distanceTraveled : ℚ
  crashed : Bool
  powerUps : List PowerUp
  score : ℚ
  color : String
  glowEffect : Bool
  trailEffect : Bool
  particleSystem : List ParticleCall
  activeEffects : List ActiveEffect
  bonus : BonusData
  listening : Bool
  emitted : List PlayerEvent
deriving DecidableEq, Repr

variable {G : Type}

/-- Call of `this.emit(e)` on a player, as far as the record of events goes. -/
def Player.emit (p : Player G) (e : PlayerEvent) : Player G :=
  { p with emitted := p.emitted ++ [e] }

/-- Method `Player.addAngle`. -/
def Player.addAngle (p : Player G) (va : ℚ) : Player G :=
  { p with angle := p.angle - (va * 3.6) * p.agility }

/-- Result of `Player.getMovement`. -/
structure Movement where
  vx : ℚ
  vy : ℚ
  movement : ℚ
deriving DecidableEq, Repr

/-- Method `Player.getMovement`. -/
def Player.getMovement (E : Env G) (p : Player G) (diff : ℚ) : Movement :=
  let radians := p.angle * (E.pi / 180)
  let movement := p.speed * diff
  { vx := movement * E.sin radians, vy := movement * E.cos radians, movement := movement }

/-- Values drawn when a player is created: the position of `generatrePosition`,
the angle `int(0, 360)` and the first gap limit `int(200, 400)`. -/
structure PlayerInit where
  x : ℚ
  y : ℚ
  angle : ℚ
  limit : ℚ
deriving DecidableEq, Repr

/-- Constructor `new Player(ctx, options)`, with `initBonuses`. -/
def Player.new (E : Env G) (name color : String) (o : PlayerInit) : Player G :=
  let p0 : Player G :=
    { name := name, position := ⟨o.x, o.y⟩, curve := E.curveNew ⟨o.x, o.y⟩ 5,
      stop := true, speed := 80, agility := 1, active := true, immune := false,
      angle := o.angle, vector := 0, distanceTraveled := 0, crashed := false,
      powerUps := [], score := 0, color := color, glowEffect := false,
      trailEffect := false, particleSystem := [], activeEffects := [],
      bonus := { distanceTraveled := 0, distance := 0, pause := false,
                 pauseDistance := 0, limit0 := o.limit, limit1 := 4 },
      listening := true, emitted := [] }
  let m := p0.getMovement E 0.1
  let newPos : Point := ⟨p0.position.x + m.vx, p0.position.y + m.vy⟩
  { p0 with curve := E.curveUpdate p0.curve newPos, position := newPos }

/-- The listener that `initBonuses` attaches to `pre/update`; `limit` is the
value of `int(200, 400)` drawn when a gap ends. -/
def Player.bonusListener (E : Env G) (limit : ℚ) (p : Player G) : Player G :=
  let d := p.bonus
  let movement := p.distanceTraveled - d.distanceTraveled
  let d := { d with distanceTraveled := p.distanceTraveled }
  if d.pause then
    let d := { d with pauseDistance := d.pauseDistance + movement }
    if d.pauseDistance > p.curve.weight * d.limit1 then
      { p with
        bonus := { d with pauseDistance := 0, pause := false, limit0 := limit },
        immune := false, active := true, curve := E.curveUpdatePosition p.curve }
    else { p with bonus := d }
  else
    let d := { d with distance := d.distance + movement }
    if d.distance > d.limit0 then
      { p with bonus := { d with distance := 0, pause := true },
               immune := true, active := false }
    else { p with bonus := d }

/-- Callbacks that the engine passes to `setTimeout` and that act on one player. -/
inductive PlayerTimeout where
  | restoreSpeed (v : ℚ)
  | restoreWeight (w : ℚ)
  | ghostOff (color : String)
  | restoreVector (v : ℚ)
  | glowOff
  | clearImmunity
deriving DecidableEq, Repr

/-- Body of the callback `a`, run on the player it captured. -/
def PlayerTimeout.run (E : Env G) (a : PlayerTimeout) (p : Player G) : Player G :=
  match a with
  | .restoreSpeed v => { p with speed := v }
  | .restoreWeight w => { p with curve := { p.curve with weight := w } }
  | .ghostOff color =>
      { p with immune := false, active := true, color := color,
               curve := E.curveUpdatePosition p.curve }
  | .restoreVector v => { p with vector := v }
  | .glowOff => { p with glowEffect := false }
  | .clearImmunity => if !p.crashed then { p with immune := false } else p

/-- What `applyEffect` and `applyPowerUp` leave behind: the power-up, the
player, the `setTimeout` calls made (delay and callback, in order). -/
structure Applied (G : Type) where
  powerUp : PowerUp
  player : Player G
  timeouts : List (Nat × PlayerTimeout)

/-- Method `PowerUp.applyEffect`. The returned effect is `(pu.type, pu.duration)`. -/
def PowerUp.applyEffect (pu : PowerUp) (p : Player G) : Applied G :=
  let pu1 := { pu with active := false }
  match pu.type with
  | .SPEED =>
      { powerUp := pu1, player := { p with speed := p.speed * 1.5 },
        timeouts := [(pu.duration, .restoreSpeed p.speed)] }
  | .SLOW =>
      { powerUp := pu1, player := { p with speed := p.speed * 0.6 },
        timeouts := [(pu.duration, .restoreSpeed p.speed)] }
  | .THICK =>
      { powerUp := pu1,
        player := { p with curve := { p.curve with weight := p.curve.weight * 1.8 } },
        timeouts := [(pu.duration, .restoreWeight p.curve.weight)] }
  | .THIN =>
      { powerUp := pu1,
        player := { p with curve := { p.curve with weight := max 1 (p.curve.weight * 0.5) } },
        timeouts := [(pu.duration, .restoreWeight p.curve.weight)] }
  | .GHOST =>
      { powerUp := pu1,
        player := { p with immune := true, active := false, color := p.color ++ "40" },
        timeouts := [(pu.duration, .ghostOff p.color)] }
  | .CLEAR => { powerUp := pu1, player := p, timeouts := [] }
  | .REVERSE =>
      { powerUp := pu1, player := { p with vector := p.vector * (-1) },
        timeouts := [(pu.duration, .restoreVector p.vector)] }

/-- Method `Player.applyPowerUp`, up to and including the emission of
`powerUpCollected`; `now` is `Date.now()`. -/
def Player.applyPowerUp (now : Nat) (pu : PowerUp) (p : Player G) : Applied G :=
  let a := pu.applyEffect p
  let p : Player G := a.player
  let p : Player G := { p with activeEffects := p.activeEffects ++ [⟨pu.type, now + pu.duration⟩] }
  let p : Player G := { p with particleSystem :=
    p.particleSystem ++ [.createExplosion p.position.x p.position.y 30 pu.color 5 100] }
  let p : Player G := { p with glowEffect := true }
  { powerUp := a.powerUp, player := p.emit (.powerUpCollected pu.type pu.duration),
    timeouts := a.timeouts ++ [(1000, .glowOff)] }

/-- Method `Player.updateEffects`; `now` is `Date.now()`. -/
def Player.updateEffects (now : Nat) (p : Player G) : Player G :=
  let expiredEffects := p.activeEffects.filter (fun e => decide (e.endTime ≤ now))
  if expiredEffects.length > 0 then
    let p : Player G := { p with activeEffects := p.activeEffects.filter (fun e => decide (e.endTime > now)) }
    { p with emitted := p.emitted ++ expiredEffects.map (fun e => .effectExpired e.type e.endTime) }
  else p

/-- Method `Player.update`, from the particle update to the end (what runs
after the listeners of `pre/update` have returned). -/
def Player.updateBody (E : Env G) (now : Nat) (diff : ℚ) (p : Player G) : Player G :=
  let p : Player G := { p with particleSystem := p.particleSystem ++ [.update diff] }
  let p : Player G := p.updateEffects now
  let p : Player G := if p.vector ≠ 0 then p.addAngle p.vector else p
  let m := p.getMovement E diff
  let p : Player G := { p with distanceTraveled := p.distanceTraveled + m.movement }
  let newPos : Point := ⟨p.position.x + m.vx, p.position.y + m.vy⟩
  let p : Player G := { p with position := newPos }
  let p : Player G := if p.active then { p with curve := E.curveUpdate p.curve newPos } else p
  let p : Player G :=
    if p.trailEffect || p.glowEffect then
      { p with particleSystem := p.particleSystem ++
          [.createTrail p.position.x p.position.y p.color (if p.glowEffect then 3 else 1)] }
    else p
  p.emit .update

/-- Method `Player.update`. `pre` is what the listeners of `pre/update` do to
the player; `now` is `Date.now()`. -/
def Player.update (E : Env G) (now : Nat) (pre : Player G → Player G) (diff : ℚ)
    (p : Player G) : Player G :=
  if p.stop then p
  else Player.updateBody E now diff (pre (p.emit .preUpdate))

/-- Method `Player.crash`. -/
def Player.crash (p : Player G) (collisionPoint : Point) : Player G :=
  if p.crashed || p.immune then p
  else
    let p : Player G := { p with crashed := true, stop := true }
    let p : Player G := { p with particleSystem := p.particleSystem ++
      [.createExplosion collisionPoint.x collisionPoint.y 60 p.color 8 200] }
    p.emit .crash

/-- The test `powerUp.active && powerUp.checkCollision(this.position)` of
`Player.checkPowerUpCollisions`. -/
def Player.touches (E : Env G) (p : Player G) (pu : PowerUp) : Bool :=
  pu.active && pu.checkCollision E p.position

/-- Method `Player.checkPowerUpCollisions`. -/
def Player.checkPowerUpCollisions (E : Env G) (p : Player G) (powerUps : List PowerUp) :
    Option PowerUp :=
  powerUps.find? (p.touches E)

/-- Method `Player.destroy`. -/
def Player.destroy (p : Player G) : Player G :=
  { p.emit .destroy with listening := false }

/-! ## Rounds -/

/-- A participant (`User`): its name and colour, and whether the `input`
listener that `newPlayer` installs on it is attached. -/
structure User where
  name : String
  color : String
  inputOn : Bool
deriving DecidableEq, Repr

/-- An entry of `round.specialEffects`. -/
structure SpecialEffect where
  type : String
  duration : Nat
  endTime : Nat
deriving DecidableEq, Repr

/-- Events emitted by a round; `crash` carries the position of the user in the
table of players. -/
inductive RoundEvent where
  | crash (user : Nat)
  | prepareToEnd
  | start
  | finish
deriving DecidableEq, Repr

/-- Objects registered with `game.renderer`. -/
inductive Drawable where
  | player (i : Nat)
  | border
  | msgBox
deriving DecidableEq, Repr

/-- Callbacks that the engine passes to `setTimeout`. -/
inductive TimerAction where
  | startGame
  | spawnPowerUp
  | player (i : Nat) (a : PlayerTimeout)
deriving DecidableEq, Repr

/-- A pending `setTimeout`: its identifier, the time from which it may fire and
its callback. -/
structure Timer where
  id : Nat
  due : Nat
  action : TimerAction
deriving DecidableEq, Repr

/-- Class `Round`, with the parts of its surroundings it acts on: the map size
and the renderer of the game, the one-shot listener of `keydown/32`, the clock
`Date.now()` and the pending timers. `players` lists the entries of the map of
players in insertion order; a player is named by its position in that list. -/
structure Round (G : Type) where
  mapSize : Point
  renderer : List Drawable
  continueArmed : Bool
  started : Bool
  ended : Bool
  paused : Bool
  preparedToEnd : Bool
  powerUps : List PowerUp
  maxPowerUps : Nat
  powerUpTimer : Option Nat
  specialEffects : List SpecialEffect
  players : List (User × Player G)
  now : Nat
  timers : List Timer
  nextTimerId : Nat
  emitted : List RoundEvent
deriving DecidableEq, Repr

/-- Call of `this.emit(e)` on a round, as far as the record of events goes. -/
def Round.emit (r : Round G) (e : RoundEvent) : Round G :=
  { r with emitted := r.emitted ++ [e] }

/-- Call of `setTimeout(callback, delay)`: the timer is appended to the pending
ones under a fresh identifier, which is returned. Identifiers are positive, so
that `if (this.powerUpTimer)` tests whether a timer was stored. -/
def Round.setTimeout (r : Round G) (delay : Nat) (action : TimerAction) : Round G × Nat :=
  ({ r with timers := r.timers ++ [⟨r.nextTimerId, r.now + delay, action⟩],
            nextTimerId := r.nextTimerId + 1 }, r.nextTimerId)

/-- Call of `clearTimeout(id)`. -/
def Round.clearTimeout (r : Round G) (id : Nat) : Round G :=
  { r with timers := r.timers.filter (fun t => t.id ≠ id) }

/-- A sequence of `setTimeout` calls (delay and callback), in order. -/
def Round.setTimeouts (r : Round G) : List (Nat × TimerAction) → Round G
  | [] => r
  | (delay, a) :: rest => Round.setTimeouts (r.setTimeout delay a).1 rest

/-- Replaces the player at position `i`. -/
def Round.setPlayer (r : Round G) (i : Nat) (p : Player G) : Round G :=
  { r with players := r.players.modify (fun up => (up.1, p)) i }

/-- The player at position `i`, if there is one. -/
def Round.player? (r : Round G) (i : Nat) : Option (Player G) :=
  (r.players[i]?).map Prod.snd

/-- The expression `[...this.players.values()].filter(p => !p.crashed).length`. -/
def Round.aliveCount (r : Round G) : Nat :=
  (r.players.filter (fun up => !up.2.crashed)).length

/-- Method `Round.newPlayer`, up to the installation of the listeners; the
listeners themselves are `Round.input` and `Round.collisionListener`. -/
def Round.newPlayer (E : Env G) (r : Round G) (user : User) (o : PlayerInit) : Round G :=
  let name := if user.name ≠ "" then user.name
    else "Player " ++ toString (r.players.length + 1)
  let player : Player G := Player.new E name user.color o
  { r with players := r.players ++ [({ user with inputOn := true }, player)],
           renderer := r.renderer ++ [.player r.players.length] }

/-- Constructor `new Round(game)`: `users` pairs each user of the game with the
values drawn for its player; `now` is the clock at construction. -/
def Round.new (E : Env G) (mapSize : Point) (now : Nat) (users : List (User × PlayerInit)) :
    Round G :=
  let r0 : Round G :=
    { mapSize := mapSize, renderer := [], continueArmed := false, started := false,
      ended := false, paused := false, preparedToEnd := false, powerUps := [],
      maxPowerUps := 5, powerUpTimer := none, specialEffects := [], players := [],
      now := now, timers := [], nextTimerId := 1, emitted := [] }
  let r1 := users.foldl (fun r uo => Round.newPlayer E r uo.1 uo.2) r0
  { r1 with renderer := r1.renderer ++ [.border] }

/-- Method `Round.addSpecialEffect`. -/
def Round.addSpecialEffect (r : Round G) (type : String) (duration : Nat) : Round G :=
  { r with specialEffects := r.specialEffects ++ [⟨type, duration, r.now + duration⟩] }

/-- Method `Round.handleClearEffect`. The loop over the players makes every
player that is not crashed immune and sets one timer of 1500 ms for each of
them, in the order of the players. -/
def Round.handleClearEffect (r : Round G) : Round G :=
  let r := r.addSpecialEffect "clear" 500
  let timeouts : List (Nat × TimerAction) := r.players.enum.filterMap (fun ip =>
    if !ip.2.2.crashed then some (1500, .player ip.1 .clearImmunity) else none)
  let r : Round G :=
    { r with players := r.players.map (fun up =>
        if !up.2.crashed then (up.1, { up.2 with immune := true }) else up) }
  let r := r.setTimeouts timeouts
  r.addSpecialEffect "lightning" 800

/-- Method `Round.isOutOfMap`. -/
def Round.isOutOfMap (r : Round G) (player : Player G) : Bool :=
  let padding : ℚ := 10
  decide (player.position.x < padding)
  || decide (player.position.y < padding)
  || decide (player.position.x > r.mapSize.x - padding)
  || decide (player.position.y > r.mapSize.y - padding)

/-- Method `Round.prepareToEnd`. -/
def Round.prepareToEnd (r : Round G) : Round G :=
  if r.preparedToEnd then r
  else
    let r : Round G := { r with preparedToEnd := true }
    let r : Round G :=
      match r.powerUpTimer with
      | some id => { r.clearTimeout id with powerUpTimer := none }
      | none => r
    let r : Round G := { r with ended := true }
    let r : Round G :=
      { r with players := r.players.map (fun up => (up.1, { up.2 with stop := true })) }
    let r := r.emit .prepareToEnd
    { r with continueArmed := true }

/-- The statements that both crash branches of the collision listener run:
crash the player at its position, emit `crash` for the user and prepare the
end of the round when fewer than two players are left. -/
def Round.crashPlayer (r : Round G) (i : Nat) (player : Player G) : Round G :=
  let collisionPoint : Point := ⟨player.position.x, player.position.y⟩
  let r := r.setPlayer i (player.crash collisionPoint)
  let r := r.emit (.crash i)
  if r.aliveCount < 2 then r.prepareToEnd else r

/-- The listener of `pre/update` that `newPlayer` installs on the player at
position `i`: collision detection and power-up pickup. The power-ups of the
list are distinct objects, so the filter `p !== collidedPowerUp` removes the
element at the position where the search found it. The listener of
`powerUpCollected` runs when `applyPowerUp` emits that event. -/
def Round.collisionListener (E : Env G) (r : Round G) (i : Nat) : Round G :=
  match r.players[i]? with
  | none => r
  | some (_, player) =>
    if player.crashed then r
    else if r.isOutOfMap player && !player.immune then r.crashPlayer i player
    else if !player.immune
        && r.players.enum.any (fun jp =>
          E.interfere jp.2.2.curve player.position (player.curve.weight / 2) (jp.1 == i))
      then r.crashPlayer i player
    else
      match player.checkPowerUpCollisions E r.powerUps with
      | some collidedPowerUp =>
          let a := player.applyPowerUp r.now collidedPowerUp
          let r := r.setPlayer i a.player
          let r := r.setTimeouts (a.timeouts.map (fun da => (da.1, .player i da.2)))
          let r := if collidedPowerUp.type = .CLEAR then r.handleClearEffect else r
          { r with powerUps := r.powerUps.eraseIdx (r.powerUps.findIdx (player.touches E)) }
      | none => r

/-- The listener of `input` that `newPlayer` installs on the user at position
`i`. A direction other than `left` and `right` is taken to give 0 (names that
every JavaScript object inherits are not considered). -/
def Round.input (r : Round G) (i : Nat) (dir : String) : Round G :=
  match r.players[i]? with
  | none => r
  | some (user, player) =>
    if !user.inputOn then r
    else if !r.started || r.ended then r
    else r.setPlayer i
      { player with vector := if dir = "left" then -1 else if dir = "right" then 1 else 0 }

/-- The call `player.update(diff)` made when the renderer draws the player at
position `i`, with the listeners of `pre/update` in the order of their
installation; `limit` is the value the listener of `initBonuses` draws. -/
def Round.updatePlayer (E : Env G) (i : Nat) (diff limit : ℚ) (r : Round G) : Round G :=
  match r.players[i]? with
  | none => r
  | some (_, p) =>
    if p.stop then r
    else
      let p := p.emit .preUpdate
      let r1 :=
        if p.listening then
          (r.setPlayer i (p.bonusListener E limit)).collisionListener E i
        else r.setPlayer i p
      match r1.players[i]? with
      | none => r1
      | some (_, q) => r1.setPlayer i (Player.updateBody E r1.now diff q)

/-- What the listeners of `pre/update` installed in a round (the one of
`initBonuses`, then the collision listener) do to the player at position `i`,
as a function of the state `q` of that player when the event is emitted. -/
def Round.listeners (E : Env G) (r : Round G) (i : Nat) (limit : ℚ) (q : Player G) :
    Player G :=
  (((if q.listening then (r.setPlayer i (q.bonusListener E limit)).collisionListener E i
      else r.setPlayer i q).player? i).getD q)

/-- Values drawn by one call of `spawnPowerUp`: the candidate positions of the
placement loop in the order of the attempts, the type of `getRandomType` and
the delay `int(3000, 8000)`. -/
structure SpawnDraw where
  candidate : Nat → Point
  type : PowerUpType
  delay : Nat

/-- The test the placement loop of `spawnPowerUp` makes on a candidate. -/
def Round.validPosition (E : Env G) (r : Round G) (c : Point) : Bool :=
  r.players.all (fun up =>
    up.2.crashed ||
      (!decide (distance E up.2.position c < 100) && !E.interfere up.2.curve c 20 false))
  && r.powerUps.all (fun pu => !decide (distance E pu.position c < 80))

/-- The placement loop of `spawnPowerUp`, entered with `attempts` attempts made
and `fuel = 20 - attempts` left: the accepted candidate, if any, and the number
of attempts made. -/
def Round.placementLoop (E : Env G) (r : Round G) (candidate : Nat → Point) :
    Nat → Nat → Option Point × Nat
  | 0, attempts => (none, attempts)
  | fuel + 1, attempts =>
      if r.validPosition E (candidate attempts) then (some (candidate attempts), attempts + 1)
      else Round.placementLoop E r candidate fuel (attempts + 1)

/-- Method `Round.spawnPowerUp`. -/
def Round.spawnPowerUp (E : Env G) (d : SpawnDraw) (r : Round G) : Round G :=
  if r.ended || decide (r.powerUps.length ≥ r.maxPowerUps) then r
  else
    let r : Round G :=
      match (Round.placementLoop E r d.candidate 20 0).1 with
      | some c => { r with powerUps := r.powerUps ++ [PowerUp.new c.x c.y d.type] }
      | none => r
    let (r, id) := r.setTimeout d.delay .spawnPowerUp
    { r with powerUpTimer := some id }

/-- Method `Round.start`. -/
def Round.start (r : Round G) : Round G :=
  if r.started then r
  else
    let r : Round G := { r with started := true }
    let r : Round G := { r with renderer := r.renderer ++ [.msgBox] }
    (r.setTimeout 3000 .startGame).1

/-- The callback that `Round.start` passes to `setTimeout`. -/
def Round.startGame (E : Env G) (d : SpawnDraw) (r : Round G) : Round G :=
  let r : Round G :=
    { r with players := r.players.map (fun up => (up.1, { up.2 with stop := false })) }
  let r := r.spawnPowerUp E d
  let r := r.emit .start
  { r with renderer := r.renderer.filter (fun o => o ≠ .msgBox) }

/-- Method `Round.end`. -/
def Round.end (r : Round G) : Round G :=
  if r.ended then r
  else
    let r : Round G :=
      match r.powerUpTimer with
      | some id => { r.clearTimeout id with powerUpTimer := none }
      | none => r
    let r : Round G :=
      { r with players := r.players.map (fun up => ({ up.1 with inputOn := false }, up.2)) }
    let r : Round G :=
      { r with
        renderer := r.renderer.filter (fun o =>
          match o with
          | .player i => decide (r.players.length ≤ i)
          | _ => true),
        players := r.players.map (fun up => (up.1, up.2.destroy)) }
    let r : Round G := { r with ended := true }
    let r : Round G := { r with renderer := r.renderer.filter (fun o => o ≠ .border) }
    r.emit .finish

/-- The one-shot listener of `keydown/32` that `prepareToEnd` installs. -/
def Round.continue (r : Round G) : Round G :=
  if r.continueArmed then Round.end { r with continueArmed := false } else r

/-- Runs the callback of a timer. -/
def Round.runTimer (E : Env G) (d : SpawnDraw) (r : Round G) : TimerAction → Round G
  | .startGame => r.startGame E d
  | .spawnPowerUp => r.spawnPowerUp E d
  | .player i a =>
      match r.players[i]? with
      | some (_, p) => r.setPlayer i (a.run E p)
      | none => r

/-- The pending timer `id` fires, if it is due: it leaves the pending timers
and its callback runs. `d` holds the values the callback draws. -/
def Round.fire (E : Env G) (id : Nat) (d : SpawnDraw) (r : Round G) : Round G :=
  match r.timers.find? (fun t => t.id = id) with
  | none => r
  | some t =>
    if t.due ≤ r.now then
      Round.runTimer E d { r with timers := r.timers.filter (fun t => t.id ≠ id) } t.action
    else r

/-- What can happen to a round. -/
inductive Event where
  /-- The method `round.start()` is called. -/
  | start
  /-- the clock advances by `ms` milliseconds -/
  | clock (ms : Nat)
  /-- the pending timer `id` fires -/
  | fire (id : Nat) (d : SpawnDraw)
  /-- the user at position `i` emits `input` -/
  | input (i : Nat) (dir : String)
  /-- the renderer draws the player at position `i` -/
  | draw (i : Nat) (diff limit : ℚ)
  /-- the key of `keydown/32` is pressed -/
  | keydown32
  /-- The method `round.end()` is called. -/
  | endRound

/-- One event on a round. -/
def Round.step (E : Env G) (r : Round G) : Event → Round G
  | .start => r.start
  | .clock ms => { r with now := r.now + ms }
  | .fire id d => r.fire E id d
  | .input i dir => r.input i dir
  | .draw i diff limit =>
      if Drawable.player i ∈ r.renderer then r.updatePlayer E i diff limit else r
  | .keydown32 => r.continue
  | .endRound => Round.end r

/-- A sequence of events on a round. -/
def Round.run (E : Env G) (r : Round G) (es : List Event) : Round G :=
  es.foldl (Round.step E) r

/-- Between `r1` and `r2` the method `prepareToEnd` ran for the first time,
after a crash that left fewer than two players: the flags `preparedToEnd` and
`ended` are set, every player is stopped, the spawn timer stored in
`powerUpTimer` is cleared and the listener of the continue key is installed. -/
def Round.EntersPause (r1 r2 : Round G) : Prop :=
  r1.preparedToEnd = false ∧ r2.preparedToEnd = true ∧
  r2.aliveCount + 1 = r1.aliveCount ∧ r2.aliveCount < 2 ∧ r2.ended = true ∧
  (∀ up ∈ r2.players, up.2.stop = true) ∧ r2.powerUpTimer = none ∧
  (∀ id, r1.powerUpTimer = some id → ∀ t ∈ r2.timers, t.id ≠ id) ∧
  r2.continueArmed = true

/-- Between `r1` and `r2` the flag `preparedToEnd` kept its value: either
nobody crashed, or somebody crashed and two players or more are left, or
somebody crashed in a round that had prepared its end before. -/
def Round.KeepsPause (r1 r2 : Round G) : Prop :=
  r2.preparedToEnd = r1.preparedToEnd ∧
  (r2.aliveCount = r1.aliveCount ∨
    (r2.aliveCount + 1 = r1.aliveCount ∧ (2 ≤ r2.aliveCount ∨ r1.preparedToEnd = true)))

/-- Whether the event is the firing of the timer `id`. -/
def Event.fires (e : Event) (id : Nat) : Bool :=
  match e with
  | .fire j _ => j == id
  | _ => false

/-- The identifiers of the pending timers are distinct and below the next
identifier, and so is the identifier stored in `powerUpTimer`. -/
def Round.TimersOk (r : Round G) : Prop :=
  (r.timers.map Timer.id).Nodup ∧ (∀ t ∈ r.timers, t.id < r.nextTimerId) ∧
  (∀ id ∈ r.powerUpTimer, id < r.nextTimerId)

/-- The timer `T` is pending, under an identifier that no other pending timer
has and that is not the one stored in `powerUpTimer`. -/
def Round.Pending (r : Round G) (T : Timer) : Prop :=
  (r.timers.map Timer.id).Nodup ∧ (∀ t ∈ r.timers, t.id < r.nextTimerId) ∧
  T ∈ r.timers ∧ r.powerUpTimer ≠ some T.id

/-- The two attributes of a player that power-ups change and restore by a
timer: the speed (speed boost, slow-down) and the trail weight (thicken,
thin). -/
inductive Attribute where
  | speed
  | weight
deriving DecidableEq, Repr

/-- The value the constructor of `Player` gives the attribute. -/
def Attribute.base : Attribute → ℚ
  | .speed => 80
  | .weight => 5

/-- The fields of a player that the motion of a tick starts from and that no
listener of `pre/update` writes: position, heading, agility and distance. -/
def Player.kin (p : Player G) : Point × ℚ × ℚ × ℚ :=
  (p.position, p.angle, p.agility, p.distanceTraveled)

/-- The current value of the attribute. -/
def Player.attr (a : Attribute) (p : Player G) : ℚ :=
  match a with
  | .speed => p.speed
  | .weight => p.curve.weight

/-- The value a callback writes to the attribute, if it writes to it. -/
def PlayerTimeout.restores (a : Attribute) : PlayerTimeout → Option ℚ
  | .restoreSpeed v => if a = .speed then some v else none
  | .restoreWeight v => if a = .weight then some v else none
  | _ => none

/-- Whether the callback of the timer restores attribute `a` of player `i`. -/
def Timer.reverses (a : Attribute) (i : Nat) (t : Timer) : Bool :=
  match t.action with
  | .player j c => j == i && (c.restores a).isSome
  | _ => false

/-- The pending reversals of attribute `a` of player `i`. -/
def Round.reversals (r : Round G) (a : Attribute) (i : Nat) : List Timer :=
  r.timers.filter (Timer.reverses a i)

/-- The value of attribute `a` of the player at position `i`, if there is one. -/
def Round.attr? (r : Round G) (a : Attribute) (i : Nat) : Option ℚ :=
  (r.player? i).map (Player.attr a)

/-- The methods of `Curve` leave the weight they are given alone. -/
def Env.KeepsWeight (E : Env G) : Prop :=
  (∀ c pt, (E.curveUpdate c pt).weight = c.weight) ∧
  (∀ c, (E.curveUpdatePosition c).weight = c.weight) ∧
  (∀ pt w, (E.curveNew pt w).weight = w)

/-- The value the callback of the timer writes to attribute `a`, if any. -/
def Timer.restored (a : Attribute) (t : Timer) : Option ℚ :=
  match t.action with
  | .player _ c => c.restores a
  | _ => none

/-- Between `r` and `r2` neither the pending reversals of attribute `a` of
player `i` nor the value of the attribute changed. -/
def Round.AttrSame (a : Attribute) (i : Nat) (r r2 : Round G) : Prop :=
  r2.reversals a i = r.reversals a i ∧ r2.attr? a i = r.attr? a i

/-- What can happen between `r` and `r2` to attribute `a` of player `i` and
its pending reversals: nothing; or a pending reversal fired, and the attribute
has the value it restores; or the player picked up a power-up that changes
the attribute, and a reversal to the value it had is pending in addition. -/
def Round.AttrStep (a : Attribute) (i : Nat) (r r2 : Round G) : Prop :=
  Round.AttrSame a i r r2 ∨
  (∃ t ∈ r.reversals a i, ∃ v, t.restored a = some v ∧
    (∀ x ∈ r2.reversals a i, x ∈ r.reversals a i) ∧ (∀ w ∈ r2.attr? a i, w = v)) ∨
  (∃ t v, r.attr? a i = some v ∧ r2.reversals a i = r.reversals a i ++ [t] ∧
    t.restored a = some v)

/-- The states a sequence of events goes through, the first one included. -/
def Round.trace (E : Env G) (r : Round G) : List Event → List (Round G)
  | [] => [r]
  | e :: es => r :: Round.trace E (r.step E e) es

/-- The timers are in order (`TimersOk`) and a pending timer whose identifier
is stored in `powerUpTimer` is a spawn timer. -/
def Round.TimersWf (r : Round G) : Prop :=
  r.TimersOk ∧ (∀ t ∈ r.timers, r.powerUpTimer = some t.id → t.action = .spawnPowerUp)

/-! ## Motion and crash of a single player -/

/-- The environment used in examples: curves without geometry, with which
nothing interferes; the trigonometric functions of angle zero; and for the
square root a step function that agrees with it on the three comparisons the
engine makes (`≤ 12`, `< 80`, `< 100`). -/
def exampleEnv : Env Unit :=
  { pi := 355 / 113, sin := fun _ => 0, cos := fun _ => 1,
    sqrt := fun a =>
      if a ≤ 144 then 12 else if a < 6400 then 13 else if a < 10000 then 80 else 100,
    curveNew := fun _ w => ⟨w, ()⟩, curveUpdate := fun c _ => c,
    curveUpdatePosition := fun c => c, interfere := fun _ _ _ _ => false }

/-- A player as the constructor makes it, at (100, 100) with heading 0. -/
def examplePlayer : Player Unit :=
  Player.new exampleEnv "A" "#1abc9c" ⟨100, 100, 0, 300⟩

/-- The example player once the round runs, steering to the left. -/
def movingPlayer : Player Unit :=
  { examplePlayer with stop := false, vector := 1 }

/-- Example values for one call of `spawnPowerUp`. -/
def exampleDraw : SpawnDraw :=
  { candidate := fun _ => ⟨600, 100⟩, type := .SPEED, delay := 4000 }

/-- A round of two players on a map of 800 by 600, as constructed. -/
def exampleRound : Round Unit :=
  Round.new exampleEnv ⟨800, 600⟩ 0
    [(⟨"A", "#1abc9c", false⟩, ⟨100, 560, 0, 300⟩),
     (⟨"B", "#2ecc71", false⟩, ⟨400, 300, 0, 250⟩)]

/-- The example round after its start, the countdown and one tick of half a
second, which takes the first player beyond the lower edge of the map. -/
def edgeRound : Round Unit :=
  Round.run exampleEnv exampleRound
    [.start, .clock 3000, .fire 1 exampleDraw, .draw 0 (1 / 2) 300]

/-- A round with a single player, after its start, the countdown and one tick
of half a second, which takes the player beyond the lower edge of the map. -/
def soloEdgeRound : Round Unit :=
  Round.run exampleEnv
    (Round.new exampleEnv ⟨800, 600⟩ 0 [(⟨"A", "#1abc9c", false⟩, ⟨100, 560, 0, 300⟩)])
    [.start, .clock 3000, .fire 1 exampleDraw, .draw 0 (1 / 2) 300]

/-- The round `edgeRound` after the next tick of its first player: that player
has crashed, one player is left and the round has paused for continue. -/
def pausedRound : Round Unit :=
  edgeRound.step exampleEnv (.draw 0 (1 / 60) 300)

/-- Five spawn cycles of the example round, none followed by a pickup: the
countdown ends at 3000 ms and each later cycle runs when its timer is due. The
candidates lie far from both players and from each other. -/
def fullRound : Round Unit :=
  Round.run exampleEnv exampleRound
    [.start, .clock 3000, .fire 1 ⟨fun _ => ⟨600, 100⟩, .SPEED, 4000⟩,
     .clock 4000, .fire 2 ⟨fun _ => ⟨700, 100⟩, .SLOW, 4000⟩,
     .clock 4000, .fire 3 ⟨fun _ => ⟨600, 200⟩, .THICK, 4000⟩,
     .clock 4000, .fire 4 ⟨fun _ => ⟨700, 200⟩, .THIN, 4000⟩,
     .clock 4000, .fire 5 ⟨fun _ => ⟨600, 300⟩, .GHOST, 4000⟩,
     .clock 4000]

/-- A round of two players in which the first player picks up a speed boost
at 6000 ms and a slow-down at 7000 ms, the two reversals fire when they are
due (11000 ms and 12000 ms) and both players are drawn once more. -/
def overlapRound : Round Unit :=
  Round.run exampleEnv
    (Round.new exampleEnv ⟨800, 600⟩ 0
      [(⟨"A", "#1abc9c", false⟩, ⟨100, 100, 0, 300⟩),
       (⟨"B", "#2ecc71", false⟩, ⟨400, 100, 0, 250⟩)])
    [.start, .clock 3000, .fire 1 ⟨fun _ => ⟨100, 300⟩, .SPEED, 3000⟩,
     .clock 3000, .fire 2 ⟨fun _ => ⟨100, 400⟩, .SLOW, 7000⟩,
     .draw 0 (12 / 5) 300, .draw 1 (12 / 5) 300,
     .draw 0 (5 / 6) 300, .draw 1 (5 / 6) 300,
     .clock 1000, .fire 5 exampleDraw,
     .draw 0 (1 / 72) 300, .draw 1 (1 / 72) 300,
     .clock 1000, .fire 7 exampleDraw,
     .clock 3000, .fire 4 exampleDraw,
     .clock 1000, .fire 6 exampleDraw,
     .draw 0 (1 / 60) 300, .draw 1 (1 / 60) 300]

/-- The example round after its start, the countdown with a spawn cycle that
places a speed boost at (100, 300), and a tick that takes the first player
onto it: the next collision check of that player picks it up. -/
def boostRound : Round Unit :=
  Round.run exampleEnv
    (Round.new exampleEnv ⟨800, 600⟩ 0
      [(⟨"A", "#1abc9c", false⟩, ⟨100, 100, 0, 300⟩),
       (⟨"B", "#2ecc71", false⟩, ⟨400, 100, 0, 250⟩)])
    [.start, .clock 3000, .fire 1 ⟨fun _ => ⟨100, 300⟩, .SPEED, 3000⟩,
     .clock 3000, .fire 2 ⟨fun _ => ⟨100, 400⟩, .SLOW, 7000⟩,
     .draw 0 (12 / 5) 300, .draw 1 (12 / 5) 300]

/-- The first player of `boostRound`. -/
def boostPlayer : Player Unit :=
  (boostRound.player? 0).getD examplePlayer

/-- What follows the pickup of the speed boost in `boostRound`: the rest of
the tick, a pickup of the slow-down by the same player one second later, the
expiry of the two glow timers, and time passing until the boost is due. -/
def boostInterleaving : List Event :=
  [.draw 1 (5 / 6) 300, .clock 1000, .fire 5 exampleDraw,
   .draw 0 (5 / 6) 300, .draw 0 (1 / 72) 300, .draw 1 (1 / 72) 300,
   .clock 1000, .fire 7 exampleDraw, .clock 3000]

/-- The events of a round of two players in which the first player picks up a
speed boost at 6000 ms, its glow ends, the reversal of the speed fires when
it is due (11000 ms) and both players are drawn once more. The second
power-up lies away from both players. -/
def calmEvents : List Event :=
  [.start, .clock 3000, .fire 1 ⟨fun _ => ⟨100, 300⟩, .SPEED, 3000⟩,
   .clock 3000, .fire 2 ⟨fun _ => ⟨600, 100⟩, .THICK, 7000⟩,
   .draw 0 (12 / 5) 300, .draw 1 (12 / 5) 300,
   .draw 0 (5 / 6) 300, .draw 1 (5 / 6) 300,
   .clock 1000, .fire 5 exampleDraw,
   .clock 4000, .fire 4 exampleDraw,
   .draw 0 (1 / 60) 300, .draw 1 (1 / 60) 300]

/-- The users of the round of `calmEvents`, with the values drawn for them. -/
def calmUsers : List (User × PlayerInit) :=
  [(⟨"A", "#1abc9c", false⟩, ⟨100, 100, 0, 300⟩),
   (⟨"B", "#2ecc71", false⟩, ⟨400, 100, 0, 250⟩)]

/-- The round of `calmUsers` after `calmEvents`. -/
def calmRound : Round Unit :=
  (Round.new exampleEnv ⟨800, 600⟩ 0 calmUsers).run exampleEnv calmEvents

/-- The first player of `calmRound`. -/
def calmPlayer : Player Unit :=
  (calmRound.player? 0).getD examplePlayer

/-- The first player of `edgeRound`. -/
def edgePlayer : Player Unit :=
  (edgeRound.player? 0).getD examplePlayer

/-! ## Further examples and notions -/

/-- A speed boost as `spawnPowerUp` creates it. -/
def exampleBoost : PowerUp :=
  PowerUp.new 100 300 .SPEED

/-- The speed boost `exampleBoost` once the example player has picked it up. -/
def usedBoost : PowerUp :=
  (exampleBoost.applyEffect examplePlayer).powerUp

/-- The example player after `applyEffect` of `exampleBoost`. -/
def boostedPlayer : Player Unit :=
  (exampleBoost.applyEffect examplePlayer).player

/-- The fields of a player that the effects of power-ups write: speed, trail
weight, immunity, drawing flag and steering value. -/
def Player.traits (p : Player G) : ℚ × ℚ × Bool × Bool × ℚ :=
  (p.speed, p.curve.weight, p.immune, p.active, p.vector)

/-! ## Particles

The classes `Particle` and `ParticleSystem` of `src/class/ParticleSystem.js`.
The values of `Math.random` are arguments; the colour string that
`createExplosion` composes for a particle from the base colour and three
random values is the drawn function `colour`. -/

/-- Class `Particle`; `velocity` is the object `{x, y}`. -/
structure Particle where
  position : Point
  initialSize : ℚ
  size : ℚ
  color : String
  initialLifetime : ℚ
  lifetime : ℚ
  velocity : Point
  alpha : ℚ
  dead : Bool
deriving DecidableEq, Repr

/-- Constructor `new Particle(x, y, size, color, lifetime, velocity)`. -/
def Particle.new (x y size : ℚ) (color : String) (lifetime : ℚ) (velocity : Point) : Particle :=
  { position := ⟨x, y⟩, initialSize := size, size := size, color := color,
    initialLifetime := lifetime, lifetime := lifetime, velocity := velocity, alpha := 1,
    dead := false }

/-- Method `Particle.update`. -/
def Particle.update (q : Particle) (deltaTime : ℚ) : Particle :=
  if q.dead then q
  else
    let q : Particle := { q with lifetime := q.lifetime - deltaTime }
    if q.lifetime ≤ 0 then { q with dead := true }
    else
      let progress := 1 - q.lifetime / q.initialLifetime
      let q : Particle := { q with position :=
        ⟨q.position.x + q.velocity.x * deltaTime, q.position.y + q.velocity.y * deltaTime⟩ }
      let q : Particle := { q with velocity := ⟨q.velocity.x * 0.95, q.velocity.y * 0.95⟩ }
      let q : Particle := { q with size := q.initialSize * (1 - progress) }
      { q with alpha := 1 - progress }

/-- Class `ParticleSystem`. -/
structure ParticleSystem where
  particles : List Particle
  maxParticles : Nat
deriving DecidableEq, Repr

/-- Constructor `new ParticleSystem()`. -/
def ParticleSystem.new : ParticleSystem :=
  { particles := [], maxParticles := 500 }

/-- The statement `if (this.particles.length >= this.maxParticles)
this.particles.shift()` that opens the body of the loop of both emitters. -/
def ParticleSystem.shiftIfFull (ps : ParticleSystem) : ParticleSystem :=
  if ps.particles.length ≥ ps.maxParticles then { ps with particles := ps.particles.tail }
  else ps

/-- The call `this.particles.push(particle)`. -/
def ParticleSystem.push (ps : ParticleSystem) (q : Particle) : ParticleSystem :=
  { ps with particles := ps.particles ++ [q] }

/-- The values drawn by one iteration of the loop of `createExplosion`: the
values of `Math.random()` for the angle, the magnitude, the size and the
lifetime, and the colour composed from the base colour. -/
structure ExplosionDraw where
  angle : ℚ
  magnitude : ℚ
  colour : String → String
  size : ℚ
  lifetime : ℚ

/-- The particle one iteration of the loop of `createExplosion` creates. -/
def ParticleSystem.explosionParticle (E : Env G) (x y : ℚ) (color : String) (size speed : ℚ)
    (d : ExplosionDraw) : Particle :=
  let angle := d.angle * E.pi * 2
  let magnitude := d.magnitude * speed
  let velocity : Point := ⟨E.cos angle * magnitude, E.sin angle * magnitude⟩
  Particle.new x y (d.size * size + 1) (d.colour color) (d.lifetime * 0.8 + 0.2) velocity

/-- Method `ParticleSystem.createExplosion`; `draw i` holds the values drawn by
iteration `i` of the loop. The callers pass `size` and `speed` or leave them
to their defaults 5 and 100. -/
def ParticleSystem.createExplosion (E : Env G) (ps : ParticleSystem) (x y : ℚ) (count : Nat)
    (color : String) (size speed : ℚ) (draw : Nat → ExplosionDraw) : ParticleSystem :=
  (List.range count).foldl (fun ps i =>
    ps.shiftIfFull.push (ParticleSystem.explosionParticle E x y color size speed (draw i))) ps

/-- The values of `Math.random()` drawn by one iteration of the loop of
`createTrail`, in the order of their evaluation. -/
structure TrailDraw where
  vx : ℚ
  vy : ℚ
  dx : ℚ
  dy : ℚ
  size : ℚ
  lifetime : ℚ
deriving DecidableEq, Repr

/-- The particle one iteration of the loop of `createTrail` creates. -/
def ParticleSystem.trailParticle (x y : ℚ) (color : String) (d : TrailDraw) : Particle :=
  let velocity : Point := ⟨(d.vx - 0.5) * 20, (d.vy - 0.5) * 20⟩
  Particle.new (x + (d.dx - 0.5) * 4) (y + (d.dy - 0.5) * 4) (d.size * 3 + 1) color
    (d.lifetime * 0.4 + 0.1) velocity

/-- Method `ParticleSystem.createTrail`; `draw i` holds the values drawn by
iteration `i` of the loop. -/
def ParticleSystem.createTrail (ps : ParticleSystem) (x y : ℚ) (color : String) (count : Nat)
    (draw : Nat → TrailDraw) : ParticleSystem :=
  (List.range count).foldl (fun ps i =>
    ps.shiftIfFull.push (ParticleSystem.trailParticle x y color (draw i))) ps

/-- The loop of `ParticleSystem.update`, entered with `i + 1` as first
argument when the loop variable is `i`: the particle at `i` is updated and,
if it is dead, spliced out; the loop goes on with `i - 1`. -/
def ParticleSystem.updateLoop (deltaTime : ℚ) : Nat → List Particle → List Particle
  | 0, l => l
  | i + 1, l =>
      match l[i]? with
      | none => ParticleSystem.updateLoop deltaTime i l
      | some q =>
          let l := l.set i (q.update deltaTime)
          let l := if (q.update deltaTime).dead then l.eraseIdx i else l
          ParticleSystem.updateLoop deltaTime i l

/-- Method `ParticleSystem.update`. -/
def ParticleSystem.update (ps : ParticleSystem) (deltaTime : ℚ) : ParticleSystem :=
  { ps with particles :=
      ParticleSystem.updateLoop deltaTime ps.particles.length ps.particles }

/-- A particle as the trail emitter creates it at (100, 100). -/
def exampleParticle : Particle :=
  ParticleSystem.trailParticle 100 100 "#1abc9c" ⟨1 / 2, 1 / 2, 1 / 2, 1 / 2, 1 / 2, 1 / 2⟩

/-- A particle system whose pool is at the cap: 499 copies of the example
particle behind an older particle of another colour. -/
def fullPool : ParticleSystem :=
  { particles :=
      ParticleSystem.trailParticle 0 0 "#e74c3c" ⟨1 / 2, 1 / 2, 1 / 2, 1 / 2, 1 / 2, 1 / 2⟩
        :: List.replicate 499 exampleParticle,
    maxParticles := 500 }

/-! ## The server

The state of `server.js` and its handlers `setUsername`, `joinLobby`,
`readyToggle` and `roundOver`. A JavaScript object used as a table is the list
of its entries in insertion order; names of lobbies and users that every
JavaScript object inherits are not considered. The messages the server emits
are logged in `sent`; `setTimeout` callbacks are data in `timers`. -/

/-- A JavaScript object used as a table from strings. -/
abbrev Table (α : Type) := List (String × α)

/-- The expression `table[key]`, `none` when it is `undefined`. -/
def Table.get? {α : Type} (t : Table α) (key : String) : Option α :=
  (t.find? (fun e => e.1 == key)).map Prod.snd

/-- The assignment `table[key] = value`. -/
def Table.set {α : Type} (t : Table α) (key : String) (value : α) : Table α :=
  if t.any (fun e => e.1 == key) then
    t.map (fun e => if e.1 == key then (key, value) else e)
  else t ++ [(key, value)]

/-- An entry of `lobby.players`; `id` is the identifier of the socket. -/
structure LobbyPlayer where
  id : String
  username : String
  ready : Bool
deriving DecidableEq, Repr

/-- An entry of `lobbies`. A value of `scores` is a number, or `NaN`
(`none`); a value of `inputs` is the pair of `left` and `right`. -/
structure Lobby where
  players : List LobbyPlayer
  inputs : Table (Bool × Bool)
  scores : Table (Option Nat)
deriving DecidableEq, Repr

/-- Messages the server emits. -/
inductive Message where
  | lobbyState (room : String) (players : List (String × Bool × Bool × List (String × Nat)))
  | lobbyList (status : List (String × List LobbyPlayer))
  | joinedLobby (socket : String) (hostId : Option String)
  | chatMessage (room : String) (username : String) (message : String)
  | startGame (room : String)
deriving DecidableEq, Repr

/-- The state of the server: the tables `lobbies`, `socketToLobby`,
`usernames` and `activePowerUps`, the clock, the pending timers (due time and
the room to which `startGame` will be emitted) and the messages emitted. -/
structure Server where
  lobbies : Table Lobby
  socketToLobby : Table String
  usernames : Table String
  activePowerUps : Table (List (String × Nat))
  now : Nat
  timers : List (Nat × String)
  sent : List Message
deriving DecidableEq, Repr

/-- The state of the server when it starts. -/
def Server.init (now : Nat) : Server :=
  { lobbies := [("Lobby 1", ⟨[], [], []⟩), ("Lobby 2", ⟨[], [], []⟩),
                ("Lobby 3", ⟨[], [], []⟩), ("Lobby 4", ⟨[], [], []⟩)],
    socketToLobby := [], usernames := [], activePowerUps := [], now := now, timers := [],
    sent := [] }

/-- Function `emitLobbyState`. -/
def Server.emitLobbyState (sv : Server) (lobby : String) : Server :=
  match sv.lobbies.get? lobby with
  | none => sv
  | some l =>
    { sv with
      sent := sv.sent ++ [.lobbyState lobby (l.players.map (fun p =>
        (p.username, p.ready, (l.players.head?.map (fun h => h.id)) == some p.id,
          (sv.activePowerUps.get? p.id).getD [])))] }

/-- Function `updateLobbyList`. -/
def Server.updateLobbyList (sv : Server) : Server :=
  { sv with sent := sv.sent ++ [.lobbyList (sv.lobbies.map (fun e => (e.1, e.2.players)))] }

/-- Handler of `setUsername` for the socket `socket`. -/
def Server.setUsername (sv : Server) (socket username : String) : Server :=
  let sv : Server := { sv with usernames := sv.usernames.set socket username }
  sv.updateLobbyList

/-- The expression `usernames[socket.id] || 'Player'`. -/
def Server.usernameOf (sv : Server) (socket : String) : String :=
  match sv.usernames.get? socket with
  | some u => if u = "" then "Player" else u
  | none => "Player"

/-- Handler of `joinLobby` for the socket `socket`. -/
def Server.joinLobby (sv : Server) (socket lobbyName : String) : Server :=
  match sv.lobbies.get? lobbyName with
  | none => sv
  | some lobby =>
    if lobby.players.length ≥ 4 then sv
    else
      let player : LobbyPlayer :=
        { id := socket, username := sv.usernameOf socket, ready := false }
      let lobby : Lobby := { lobby with players := lobby.players ++ [player] }
      let sv : Server := { sv with socketToLobby := sv.socketToLobby.set socket lobbyName }
      let lobby : Lobby := { lobby with inputs := lobby.inputs.set socket (false, false) }
      let lobby : Lobby := { lobby with scores := lobby.scores.set player.username (some 0) }
      let sv : Server := { sv with activePowerUps := sv.activePowerUps.set socket [] }
      let sv : Server := { sv with lobbies := sv.lobbies.set lobbyName lobby }
      let sv : Server := { sv with sent := sv.sent ++
        [.joinedLobby socket (lobby.players.head?.map (fun h => h.id))] }
      let sv : Server := { sv with sent := sv.sent ++
        [.chatMessage lobbyName "System" (player.username ++ " joined the lobby.")] }
      (sv.emitLobbyState lobbyName).updateLobbyList

/-- The statement `player.ready = value` on the first player of the list
whose identifier is `socket`, if there is one. -/
def Lobby.setReady (players : List LobbyPlayer) (socket : String) : List LobbyPlayer :=
  match players with
  | [] => []
  | p :: rest =>
      if p.id = socket then { p with ready := !p.ready } :: rest
      else p :: Lobby.setReady rest socket

/-- Handler of `readyToggle` for the socket `socket`. -/
def Server.readyToggle (sv : Server) (socket : String) : Server :=
  match sv.socketToLobby.get? socket with
  | none => sv
  | some lobbyName =>
    if lobbyName = "" then sv
    else
      match sv.lobbies.get? lobbyName with
      | none => sv
      | some lobby =>
        let lobby : Lobby := { lobby with players := Lobby.setReady lobby.players socket }
        let sv : Server := { sv with lobbies := sv.lobbies.set lobbyName lobby }
        sv.emitLobbyState lobbyName

/-- The player the handler of `roundOver` takes for the winner:
`lobby.players.find(p => p.id !== socket.id)`. -/
def Lobby.winner (lobby : Lobby) (socket : String) : Option LobbyPlayer :=
  lobby.players.find? (fun p => p.id != socket)

/-- The statement `lobby.scores[username]++`. -/
def Lobby.increment (lobby : Lobby) (username : String) : Lobby :=
  { lobby with
    scores := lobby.scores.set username
      (match lobby.scores.get? username with
       | some (some n) => some (n + 1)
       | _ => none) }

/-- The text of a score in a message. -/
def Lobby.scoreText (lobby : Lobby) (username : String) : String :=
  match lobby.scores.get? username with
  | some (some n) => toString n
  | some none => "NaN"
  | none => "undefined"

/-- The test `lobby.scores[username] >= 5`. -/
def Lobby.matchWon (lobby : Lobby) (username : String) : Bool :=
  match lobby.scores.get? username with
  | some (some n) => decide (n ≥ 5)
  | _ => false

/-- Handler of `roundOver` for the socket `socket`. -/
def Server.roundOver (sv : Server) (socket : String) : Server :=
  match sv.socketToLobby.get? socket with
  | none => sv
  | some lobbyName =>
    match sv.lobbies.get? lobbyName with
    | none => sv
    | some lobby =>
      let (sv, lobby) : Server × Lobby :=
        match lobby.winner socket with
        | some winner =>
            let lobby := lobby.increment winner.username
            let sv : Server := { sv with sent := sv.sent ++
              [.chatMessage lobbyName "System" (winner.username ++ " won the round. Total Wins: "
                ++ lobby.scoreText winner.username)] }
            if lobby.matchWon winner.username then
              let sv : Server := { sv with sent := sv.sent ++
                [.chatMessage lobbyName "System" (winner.username ++ " wins the match! 🎉")] }
              (sv, { lobby with players := lobby.players.map (fun p => { p with ready := false }) })
            else
              ({ sv with timers := sv.timers ++ [(sv.now + 1500, lobbyName)] }, lobby)
        | none => (sv, lobby)
      let sv : Server := { sv with lobbies := sv.lobbies.set lobbyName lobby }
      let sv : Server :=
        { sv with
          activePowerUps := lobby.players.foldl (fun t p => t.set p.id []) sv.activePowerUps }
      sv.emitLobbyState lobbyName

/-- The score of a player of a lobby, as the server keeps it:
`lobby.scores[player.username]`. -/
def Lobby.scoreOf (lobby : Lobby) (p : LobbyPlayer) : Option (Option Nat) :=
  lobby.scores.get? p.username

/-- The lobby `name` of the server, an empty lobby if there is none. -/
def Server.lobby (sv : Server) (name : String) : Lobby :=
  (sv.lobbies.get? name).getD ⟨[], [], []⟩

/-- Two sockets that have set no name join the first lobby. -/
def pairServer : Server :=
  ((Server.init 0).joinLobby "socketA" "Lobby 1").joinLobby "socketB" "Lobby 1"

/-- Three sockets set their names and join the first lobby, in the order Ann,
Bob, Cid. -/
def trioServer : Server :=
  ((((((Server.init 0).setUsername "socketA" "Ann").setUsername "socketB" "Bob").setUsername
    "socketC" "Cid").joinLobby "socketA" "Lobby 1").joinLobby "socketB" "Lobby 1").joinLobby
    "socketC" "Lobby 1"

/-- A round of three players in which the first two leave the map at the
lower edge and crash, one after the other; the third is left. -/
def trioRound : Round Unit :=
  Round.run exampleEnv
    (Round.new exampleEnv ⟨800, 600⟩ 0
      [(⟨"Ann", "#1abc9c", false⟩, ⟨100, 560, 0, 300⟩),
       (⟨"Bob", "#2ecc71", false⟩, ⟨300, 560, 0, 300⟩),
       (⟨"Cid", "#3498db", false⟩, ⟨500, 100, 0, 300⟩)])
    [.start, .clock 3000, .fire 1 exampleDraw,
     .draw 0 (1 / 2) 300, .draw 1 (1 / 2) 300, .draw 2 (1 / 2) 300,
     .draw 0 (1 / 60) 300, .draw 1 (1 / 60) 300, .draw 2 (1 / 60) 300]

/-! ## Runs with immunity and reversed controls -/

/-- The pruning of `Round.drawSpecialEffects`, which the border runs at every
frame it is drawn; the drawing itself is left out. -/
def Round.drawSpecialEffects (r : Round G) : Round G :=
  { r with specialEffects := r.specialEffects.filter (fun e => decide (e.endTime > r.now)) }

/-- The users of the runs below: the first gap of A comes after 300, the
first gap of B after 220. -/
def gapUsers : List (User × PlayerInit) :=
  [(⟨"A", "#1abc9c", false⟩, ⟨100, 100, 0, 300⟩),
   (⟨"B", "#2ecc71", false⟩, ⟨400, 100, 0, 220⟩)]

/-- A round of two players up to the tick, at 5900 ms, in which A picks up a
clear-board power-up at (100, 316). -/
def clearRound : Round Unit :=
  Round.run exampleEnv (Round.new exampleEnv ⟨800, 600⟩ 0 gapUsers)
    [.start, .clock 3000, .fire 1 ⟨fun _ => ⟨100, 316⟩, .CLEAR, 3000⟩,
     .clock 2600, .draw 0 (13 / 5) 300, .draw 1 (13 / 5) 300,
     .clock 300, .draw 0 (3 / 10) 300]

/-- What follows in `clearRound`: three more frames of 300 ms. The gap of B
starts in the second of its ticks and ends in the third, at 6500 ms. -/
def clearEvents : List Event :=
  [.draw 1 (3 / 10) 300, .clock 300, .draw 0 (3 / 10) 300, .draw 1 (3 / 10) 300,
   .clock 300, .draw 0 (3 / 10) 300, .draw 1 (3 / 10) 300]

/-- A round of two players up to the tick, at 5900 ms, in which B picks up a
ghost power-up at (400, 316). -/
def ghostRound : Round Unit :=
  Round.run exampleEnv (Round.new exampleEnv ⟨800, 600⟩ 0 gapUsers)
    [.start, .clock 3000, .fire 1 ⟨fun _ => ⟨400, 316⟩, .GHOST, 3000⟩,
     .clock 2600, .draw 0 (13 / 5) 300, .draw 1 (13 / 5) 300,
     .clock 300, .draw 0 (3 / 10) 300, .draw 1 (3 / 10) 300]

/-- What follows in `ghostRound`: two more frames of 300 ms. The gap of B
starts in the first of them and ends in the second, at 6500 ms. -/
def ghostEvents : List Event :=
  [.clock 300, .draw 0 (3 / 10) 300, .draw 1 (3 / 10) 300,
   .clock 300, .draw 0 (3 / 10) 300, .draw 1 (3 / 10) 300]

/-- A round of two players in which B picks up a clear-board power-up at
5900 ms and A a ghost power-up at 6200 ms; at 7400 ms the timer that the
clear-board effect has set for A fires. -/
def ghostClearRound : Round Unit :=
  Round.run exampleEnv
    (Round.new exampleEnv ⟨800, 600⟩ 0
      [(⟨"A", "#1abc9c", false⟩, ⟨100, 100, 0, 400⟩),
       (⟨"B", "#2ecc71", false⟩, ⟨400, 100, 0, 400⟩)])
    [.start, .clock 3000, .fire 1 ⟨fun _ => ⟨400, 316⟩, .CLEAR, 1000⟩,
     .clock 1000, .fire 2 ⟨fun _ => ⟨100, 340⟩, .GHOST, 8000⟩,
     .clock 1600, .draw 0 (13 / 5) 300, .draw 1 (13 / 5) 300,
     .clock 300, .draw 0 (3 / 10) 300, .draw 1 (3 / 10) 300,
     .clock 300, .draw 0 (3 / 10) 300, .draw 1 (3 / 10) 300,
     .clock 1200, .fire 5 exampleDraw]

/-- A round of two players in which A goes straight on to (100, 300), where
a reverse-controls power-up lies, receives the input `right` and picks the
power-up up in its next tick, at 5500 ms. -/
def reverseRound : Round Unit :=
  Round.run exampleEnv (Round.new exampleEnv ⟨800, 600⟩ 0 calmUsers)
    [.start, .clock 3000, .fire 1 ⟨fun _ => ⟨100, 300⟩, .REVERSE, 3000⟩,
     .clock 2400, .draw 0 (12 / 5) 300, .draw 1 (12 / 5) 300,
     .input 0 "right", .clock 100, .draw 0 (1 / 10) 300]

/-! ## The flags `stop` and `crashed` -/

/-- What can happen to the flags `crashed` and `stop` of a player while no
countdown ends: both stay, or the player is stopped, or the player, which was
not stopped, crashes and is stopped. -/
def Player.FlagStep (p q : Player G) : Prop :=
  (q.crashed = p.crashed ∧ (q.stop = p.stop ∨ q.stop = true)) ∨
  (q.crashed = true ∧ q.stop = true ∧ p.stop = false)

/-- Between `r` and `r2` the flag `started` stays, no timer of the countdown
is added and the flags of every player make a `FlagStep`. -/
def Round.Calm (r r2 : Round G) : Prop :=
  r2.started = r.started ∧
  (∀ x ∈ r2.timers, x.action = .startGame → x ∈ r.timers) ∧
  (∀ j, (r.player? j = none ∧ r2.player? j = none) ∨
    ∃ p q, r.player? j = some p ∧ r2.player? j = some q ∧ Player.FlagStep p q)

/-- The invariant of the flags `stop` and `crashed`: a crashed player is
stopped; a round that has not been started has no timer of the countdown; all
pending timers of the countdown have one identifier; and as long as the round
has not been started or the countdown is pending, every player is stopped and
none has crashed. -/
def Round.Halted (r : Round G) : Prop :=
  (∀ j p, r.player? j = some p → p.crashed = true → p.stop = true) ∧
  (r.started = false → ∀ t ∈ r.timers, t.action ≠ .startGame) ∧
  (∀ t ∈ r.timers, ∀ t2 ∈ r.timers,
    t.action = .startGame → t2.action = .startGame → t.id = t2.id) ∧
  ((r.started = false ∨ ∃ t ∈ r.timers, t.action = .startGame) →
    ∀ j p, r.player? j = some p → p.stop = true ∧ p.crashed = false)

/-! ## Steering values -/

/-- The steering values: -1 (left), 0 (straight on) and 1 (right). -/
def Steering (v : ℚ) : Prop :=
  v = -1 ∨ v = 0 ∨ v = 1

/-- Every player steers by -1, 0 or 1, and every pending reversal of reversed
controls restores such a value. -/
def Round.Steers (r : Round G) : Prop :=
  (∀ up ∈ r.players, Steering up.2.vector) ∧
  (∀ t ∈ r.timers, ∀ j v, t.action = .player j (.restoreVector v) → Steering v)

theorem Player.bonusListener_frame (E : Env G) (limit : ℚ) (p : Player G) :
    (p.bonusListener E limit).position = p.position ∧
    (p.bonusListener E limit).angle = p.angle ∧
    (p.bonusListener E limit).agility = p.agility ∧
    (p.bonusListener E limit).speed = p.speed ∧
    (p.bonusListener E limit).vector = p.vector ∧
    (p.bonusListener E limit).distanceTraveled = p.distanceTraveled ∧
    (p.bonusListener E limit).crashed = p.crashed ∧
    (p.bonusListener E limit).stop = p.stop ∧
    (p.bonusListener E limit).listening = p.listening ∧
    (p.bonusListener E limit).emitted = p.emitted := by
  simp only [Player.bonusListener]
  split_ifs <;> simp

theorem Player.updateEffects_frame (now : Nat) (p : Player G) :
    (p.updateEffects now).position = p.position ∧ (p.updateEffects now).angle = p.angle ∧
    (p.updateEffects now).speed = p.speed ∧ (p.updateEffects now).agility = p.agility ∧
    (p.updateEffects now).vector = p.vector ∧
    (p.updateEffects now).distanceTraveled = p.distanceTraveled ∧
    (p.updateEffects now).active = p.active ∧ (p.updateEffects now).curve = p.curve := by
  simp only [Player.updateEffects]
  split_ifs <;> simp

theorem Player.updateBody_motion (E : Env G) (now : Nat) (diff : ℚ) (q : Player G) :
    (Player.updateBody E now diff q).angle
        = (if q.vector ≠ 0 then q.angle - q.vector * 3.6 * q.agility else q.angle) ∧
    (Player.updateBody E now diff q).position
        = ⟨q.position.x + q.speed * diff *
              E.sin ((if q.vector ≠ 0 then q.angle - q.vector * 3.6 * q.agility else q.angle)
                * (E.pi / 180)),
           q.position.y + q.speed * diff *
              E.cos ((if q.vector ≠ 0 then q.angle - q.vector * 3.6 * q.agility else q.angle)
                * (E.pi / 180))⟩ ∧
    (Player.updateBody E now diff q).distanceTraveled = q.distanceTraveled + q.speed * diff := by
  obtain ⟨h1, h2, h3, h4, h5, h6, -, -⟩ := Player.updateEffects_frame now
    ({ q with particleSystem := q.particleSystem ++ [.update diff] } : Player G)
  simp only at h1 h2 h3 h4 h5 h6
  simp only [Player.updateBody, Player.emit, Player.getMovement, Player.addAngle]
  split_ifs <;> simp_all

theorem Player.crash_crashed (p : Player G) (c : Point) (h1 : p.crashed = false)
    (h2 : p.immune = false) : (p.crash c).crashed = true := by
  simp [Player.crash, Player.emit, h1, h2]

/-- C2. `Player.crash(point)` returns the player unchanged (no field written,
nothing emitted) when the player is already crashed or immune. Otherwise it
sets `crashed` and `stop`, records the explosion on the particle system and
emits `crash` once; every other field, in particular position, heading, speed
and score, keeps its value. -/
theorem Player.crash_contract (p : Player G) (c : Point) :
    ((p.crashed = true ∨ p.immune = true) → p.crash c = p) ∧
    (p.crashed = false → p.immune = false →
      p.crash c =
        { p with crashed := true, stop := true,
                 particleSystem := p.particleSystem ++ [.createExplosion c.x c.y 60 p.color 8 200],
                 emitted := p.emitted ++ [.crash] } ∧
      (p.crash c).crashed = true ∧ (p.crash c).stop = true ∧
      (p.crash c).position = p.position ∧ (p.crash c).angle = p.angle ∧
      (p.crash c).speed = p.speed ∧ (p.crash c).score = p.score ∧
      (p.crash c).emitted.count .crash = p.emitted.count .crash + 1) := by
  refine ⟨fun h => ?_, fun h1 h2 => ?_⟩
  · rcases h with h | h <;> simp [Player.crash, h]
  · simp [Player.crash, Player.emit, h1, h2]

/-- Witness of C2: the example player is neither crashed nor immune and
crashes at its own position. -/
theorem Player.crash_contract_witness :
    examplePlayer.crashed = false ∧ examplePlayer.immune = false ∧
    (examplePlayer.crash ⟨100, 108⟩).crashed = true ∧
    (examplePlayer.crash ⟨100, 108⟩).stop = true ∧
    (examplePlayer.crash ⟨100, 108⟩).emitted.count .crash = 1 ∧
    ({ examplePlayer with immune := true } : Player Unit).crash ⟨100, 108⟩
      = { examplePlayer with immune := true } := by
  have h := (Player.crash_contract examplePlayer ⟨100, 108⟩).2 rfl rfl
  exact ⟨rfl, rfl, h.2.1, h.2.2.1, by simpa [examplePlayer, Player.new] using h.2.2.2.2.2.2.2,
    (Player.crash_contract ({ examplePlayer with immune := true } : Player Unit)
      ⟨100, 108⟩).1 (Or.inr rfl)⟩

/-! ## Collision detection -/

theorem Round.player?_setPlayer (r : Round G) (i j : Nat) (p : Player G) :
    (r.setPlayer i p).player? j
      = if i = j then (r.player? j).map (fun _ => p) else r.player? j := by
  simp only [Round.player?, Round.setPlayer, List.getElem?_modify]
  split_ifs <;> cases r.players[j]? <;> simp

theorem Round.prepareToEnd_crashed (r : Round G) (j : Nat) :
    ((r.prepareToEnd).player? j).map (fun p => p.crashed)
      = (r.player? j).map (fun p => p.crashed) := by
  simp only [Round.prepareToEnd, Round.player?]
  split_ifs
  · rfl
  · cases h : r.powerUpTimer <;> simp [Round.emit, Round.clearTimeout] <;>
      cases r.players[j]? <;> simp

theorem Round.any_interfere_iff (E : Env G) (r : Round G) (i : Nat) (p : Player G) :
    r.players.enum.any (fun jp =>
        E.interfere jp.2.2.curve p.position (p.curve.weight / 2) (jp.1 == i)) = true
      ↔ ∃ j q, r.player? j = some q ∧
          E.interfere q.curve p.position (p.curve.weight / 2) (j == i) = true := by
  simp only [List.any_eq_true, Round.player?]
  constructor
  · rintro ⟨⟨j, u, q⟩, hm, hI⟩
    exact ⟨j, q, by simp [List.mem_enum_iff_getElem?.1 hm], hI⟩
  · rintro ⟨j, q, hq, hI⟩
    cases hj : r.players[j]? with
    | none => simp [hj] at hq
    | some uq =>
      obtain ⟨u, q1⟩ := uq
      simp [hj] at hq
      subst hq
      exact ⟨(j, u, q1), List.mem_enum_iff_getElem?.2 hj, hI⟩

theorem Round.prepareToEnd_emitted_mem (r : Round G) (e : RoundEvent) (h : e ∈ r.emitted) :
    e ∈ (r.prepareToEnd).emitted := by
  simp only [Round.prepareToEnd]
  split_ifs
  · exact h
  · cases r.powerUpTimer <;> simp [Round.emit, Round.clearTimeout, h]

theorem Round.crashPlayer_crashed (r : Round G) (i : Nat) (p : Player G)
    (hp : r.player? i = some p) (hc : p.crashed = false) (hi : p.immune = false) :
    ((r.crashPlayer i p).player? i).map (fun q => q.crashed) = some true ∧
    RoundEvent.crash i ∈ (r.crashPlayer i p).emitted := by
  have h1 : (((r.setPlayer i (p.crash ⟨p.position.x, p.position.y⟩)).emit (.crash i)).player? i).map
      (fun q => q.crashed) = some true := by
    have := Round.player?_setPlayer r i i (p.crash ⟨p.position.x, p.position.y⟩)
    simp only [if_true, hp, Option.map_some'] at this
    have hcr := Player.crash_crashed p ⟨p.position.x, p.position.y⟩ hc hi
    simp only [Round.player?, Round.emit] at this ⊢
    rw [this]
    simp [hcr]
  have h2 : RoundEvent.crash i ∈
      ((r.setPlayer i (p.crash ⟨p.position.x, p.position.y⟩)).emit (.crash i)).emitted := by
    simp [Round.emit]
  simp only [Round.crashPlayer]
  split_ifs
  · exact ⟨by rw [Round.prepareToEnd_crashed]; exact h1, Round.prepareToEnd_emitted_mem _ _ h2⟩
  · exact ⟨h1, h2⟩

theorem Round.setTimeouts_frame (r : Round G) (l : List (Nat × TimerAction)) :
    (r.setTimeouts l).players = r.players ∧ (r.setTimeouts l).emitted = r.emitted ∧
    (r.setTimeouts l).powerUps = r.powerUps ∧ (r.setTimeouts l).now = r.now ∧
    (r.setTimeouts l).preparedToEnd = r.preparedToEnd ∧ (r.setTimeouts l).ended = r.ended ∧
    (r.setTimeouts l).started = r.started ∧
    (r.setTimeouts l).powerUpTimer = r.powerUpTimer ∧
    (r.setTimeouts l).maxPowerUps = r.maxPowerUps ∧
    (r.setTimeouts l).renderer = r.renderer ∧
    (r.setTimeouts l).continueArmed = r.continueArmed ∧
    (r.setTimeouts l).mapSize = r.mapSize ∧
    (r.setTimeouts l).specialEffects = r.specialEffects := by
  induction l generalizing r with
  | nil => simp [Round.setTimeouts]
  | cons a l ih =>
    obtain ⟨d, a⟩ := a
    simp only [Round.setTimeouts]
    have := ih (r.setTimeout d a).1
    simpa [Round.setTimeout] using this

theorem Round.handleClearEffect_frame (r : Round G) :
    (r.handleClearEffect).players
      = r.players.map (fun up =>
          if !up.2.crashed then (up.1, { up.2 with immune := true }) else up) ∧
    (r.handleClearEffect).emitted = r.emitted ∧
    (r.handleClearEffect).powerUps = r.powerUps ∧ (r.handleClearEffect).now = r.now ∧
    (r.handleClearEffect).preparedToEnd = r.preparedToEnd ∧
    (r.handleClearEffect).ended = r.ended ∧ (r.handleClearEffect).started = r.started ∧
    (r.handleClearEffect).powerUpTimer = r.powerUpTimer ∧
    (r.handleClearEffect).maxPowerUps = r.maxPowerUps ∧
    (r.handleClearEffect).renderer = r.renderer ∧
    (r.handleClearEffect).continueArmed = r.continueArmed ∧
    (r.handleClearEffect).mapSize = r.mapSize := by
  simp only [Round.handleClearEffect, Round.addSpecialEffect]
  refine ⟨?_, ?_, ?_, ?_, ?_, ?_, ?_, ?_, ?_, ?_, ?_, ?_⟩ <;>
    simp [(Round.setTimeouts_frame _ _).1, (Round.setTimeouts_frame _ _).2]

theorem Player.applyPowerUp_crashed (now : Nat) (pu : PowerUp) (p : Player G) :
    (p.applyPowerUp now pu).player.crashed = p.crashed := by
  simp only [Player.applyPowerUp, Player.emit, PowerUp.applyEffect]
  cases pu.type <;> rfl

theorem Round.isOutOfMap_iff (r : Round G) (p : Player G) :
    r.isOutOfMap p = true ↔ (p.position.x < 10 ∨ p.position.y < 10 ∨
      p.position.x > r.mapSize.x - 10 ∨ p.position.y > r.mapSize.y - 10) := by
  simp [Round.isOutOfMap, or_assoc]

theorem Round.player?_some (r : Round G) (i : Nat) (p : Player G) (hp : r.player? i = some p) :
    ∃ u, r.players[i]? = some (u, p) := by
  simp only [Round.player?] at hp
  cases h : r.players[i]? with
  | none => simp [h] at hp
  | some up =>
    obtain ⟨u, q⟩ := up
    simp [h] at hp
    exact ⟨u, by rw [hp]⟩

/-- What the pickup step of the collision listener leaves of the crash flags
and of the events of the round. -/
theorem Round.collisionListener_pickup (E : Env G) (r : Round G) (i : Nat) (p : Player G)
    (hp : r.player? i = some p) (hc : p.crashed = false)
    (hno : (r.isOutOfMap p && !p.immune) = false)
    (hnt : (!p.immune && r.players.enum.any (fun jp =>
        E.interfere jp.2.2.curve p.position (p.curve.weight / 2) (jp.1 == i))) = false) :
    ((r.collisionListener E i).player? i).map (fun q => q.crashed) = some false ∧
    (r.collisionListener E i).emitted = r.emitted := by
  obtain ⟨u, hu⟩ := Round.player?_some r i p hp
  simp only [Round.collisionListener, hu, hc, hno, hnt, Bool.false_eq_true, if_false]
  cases hk : p.checkPowerUpCollisions E r.powerUps with
  | none => simp [hp, hc]
  | some pu =>
    have hset : ((r.setPlayer i (p.applyPowerUp r.now pu).player).player? i).map
        (fun q => q.crashed) = some false := by
      rw [Round.player?_setPlayer]
      simp [hp, Player.applyPowerUp_crashed, hc]
    simp only
    split_ifs
    · obtain ⟨h1, h2, -⟩ := Round.handleClearEffect_frame
        ((r.setPlayer i (p.applyPowerUp r.now pu).player).setTimeouts
          (List.map (fun da => (da.1, TimerAction.player i da.2))
            (p.applyPowerUp r.now pu).timeouts))
      obtain ⟨g1, g2, -⟩ := Round.setTimeouts_frame
        (r.setPlayer i (p.applyPowerUp r.now pu).player)
          (List.map (fun da => (da.1, TimerAction.player i da.2))
            (p.applyPowerUp r.now pu).timeouts)
      simp only [Round.player?] at hset ⊢
      simp only [h1, h2, g1, g2, List.getElem?_map]
      refine ⟨?_, rfl⟩
      cases hq : (r.setPlayer i (p.applyPowerUp r.now pu).player).players[i]? with
      | none => simp [hq] at hset
      | some uq =>
        simp only [hq, Option.map_some'] at hset ⊢
        split_ifs <;> simpa using hset
    · obtain ⟨g1, g2, -⟩ := Round.setTimeouts_frame
        (r.setPlayer i (p.applyPowerUp r.now pu).player)
          (List.map (fun da => (da.1, TimerAction.player i da.2))
            (p.applyPowerUp r.now pu).timeouts)
      simp only [Round.player?] at hset ⊢
      simp only [g1, g2]
      exact ⟨hset, rfl⟩

/-- C3. In the collision check of the player at position `i`: a crashed
player is skipped (the round is unchanged); for a player that is not crashed,
the boundary rule fires, crashing the player and emitting `crash`, exactly
when the player is not immune and `x < 10`, `y < 10`, `x > mapWidth - 10` or
`y > mapHeight - 10`; an immune player is not crashed and no event is emitted,
whatever its position and the trails; and the player ends up crashed if and
only if it is not immune and is out of the map or touches a trail. -/
theorem Round.collisionListener_boundary (E : Env G) (r : Round G) (i : Nat) (p : Player G)
    (hp : r.player? i = some p) :
    (r.isOutOfMap p = true ↔ (p.position.x < 10 ∨ p.position.y < 10 ∨
        p.position.x > r.mapSize.x - 10 ∨ p.position.y > r.mapSize.y - 10)) ∧
    (p.crashed = true → r.collisionListener E i = r) ∧
    (p.crashed = false → p.immune = false → r.isOutOfMap p = true →
      r.collisionListener E i = r.crashPlayer i p ∧
      ((r.collisionListener E i).player? i).map (fun q => q.crashed) = some true ∧
      RoundEvent.crash i ∈ (r.collisionListener E i).emitted) ∧
    (p.crashed = false → p.immune = true →
      ((r.collisionListener E i).player? i).map (fun q => q.crashed) = some false ∧
      (r.collisionListener E i).emitted = r.emitted) ∧
    (p.crashed = false →
      (((r.collisionListener E i).player? i).map (fun q => q.crashed) = some true ↔
        p.immune = false ∧ (r.isOutOfMap p = true ∨
          ∃ j q, r.player? j = some q ∧
            E.interfere q.curve p.position (p.curve.weight / 2) (j == i) = true))) := by
  obtain ⟨u, hu⟩ := Round.player?_some r i p hp
  refine ⟨Round.isOutOfMap_iff r p, ?_, ?_, ?_, ?_⟩
  · intro hc
    simp [Round.collisionListener, hu, hc]
  · intro hc hi ho
    have e : r.collisionListener E i = r.crashPlayer i p := by
      simp [Round.collisionListener, hu, hc, hi, ho]
    rw [e]
    exact ⟨rfl, Round.crashPlayer_crashed r i p hp hc hi⟩
  · intro hc hi
    exact Round.collisionListener_pickup E r i p hp hc (by simp [hi]) (by simp [hi])
  · intro hc
    rw [← Round.any_interfere_iff]
    cases hi : p.immune with
    | true =>
      have := (Round.collisionListener_pickup E r i p hp hc (by simp [hi]) (by simp [hi])).1
      simp [this]
    | false =>
      by_cases ho : r.isOutOfMap p = true
      · have e : r.collisionListener E i = r.crashPlayer i p := by
          simp [Round.collisionListener, hu, hc, hi, ho]
        rw [e]
        simp [(Round.crashPlayer_crashed r i p hp hc hi).1, ho]
      · by_cases ht : r.players.enum.any (fun jp =>
            E.interfere jp.2.2.curve p.position (p.curve.weight / 2) (jp.1 == i)) = true
        · have e : r.collisionListener E i = r.crashPlayer i p := by
            simp only [Round.collisionListener, hu, hc, hi, ho, ht]
            simp
          rw [e]
          simp [(Round.crashPlayer_crashed r i p hp hc hi).1, ht]
        · have := (Round.collisionListener_pickup E r i p hp hc (by simp [ho])
            (by simp [ht])).1
          simp [this, ho, ht]

/-- Witness of C3: in `edgeRound` the first player is at (100, 608), beyond
`mapHeight - 10 = 590`, neither crashed nor immune; the check crashes it. -/
theorem Round.collisionListener_boundary_witness :
    edgeRound.player? 0 = some edgePlayer ∧ edgePlayer.crashed = false ∧
    edgePlayer.immune = false ∧ edgePlayer.position = ⟨100, 608⟩ ∧
    edgeRound.isOutOfMap edgePlayer = true ∧
    ((edgeRound.collisionListener exampleEnv 0).player? 0).map (fun q => q.crashed)
      = some true :=
  have h1 : edgeRound.player? 0 = some edgePlayer := by decide!
  have h2 : edgePlayer.crashed = false := by decide!
  have h3 : edgePlayer.immune = false := by decide!
  have h4 : edgeRound.isOutOfMap edgePlayer = true := by decide!
  ⟨h1, h2, h3, by decide!, h4,
    ((Round.collisionListener_boundary exampleEnv edgeRound 0 edgePlayer h1).2.2.1
      h2 h3 h4).2.1⟩

/-! ## The pause for continue -/

theorem filter_length_modify_same {α : Type} (P : α → Bool) (f : α → α) (l : List α) (i : Nat)
    (h : ∀ a, l[i]? = some a → P (f a) = P a) :
    ((l.modify f i).filter P).length = (l.filter P).length := by
  induction l generalizing i with
  | nil => simp
  | cons x l ih =>
    cases i with
    | zero =>
      have hx := h x (by simp)
      by_cases hy : P x = true <;> simp [List.filter_cons, hx, hy]
    | succ i =>
      have := ih i (fun a ha => h a (by simpa using ha))
      by_cases hx : P x = true <;> simp [List.filter_cons, this, hx]

theorem filter_length_modify_drop {α : Type} (P : α → Bool) (f : α → α) (l : List α) (i : Nat)
    (a : α) (ha : l[i]? = some a) (hPa : P a = true) (hPf : P (f a) = false) :
    ((l.modify f i).filter P).length + 1 = (l.filter P).length := by
  induction l generalizing i with
  | nil => simp at ha
  | cons x l ih =>
    cases i with
    | zero =>
      simp at ha
      subst ha
      simp [List.filter_cons, hPa, hPf]
    | succ i =>
      have := ih i (by simpa using ha)
      by_cases hx : P x = true <;> simp [List.filter_cons, hx] <;> omega

theorem Round.aliveCount_setPlayer_same (r : Round G) (i : Nat) (q : Player G)
    (h : ∀ p, r.player? i = some p → q.crashed = p.crashed) :
    (r.setPlayer i q).aliveCount = r.aliveCount := by
  simp only [Round.aliveCount, Round.setPlayer]
  apply filter_length_modify_same
  intro a ha
  have := h a.2 (by simp [Round.player?, ha])
  simp [this]

theorem Round.aliveCount_setPlayer_crash (r : Round G) (i : Nat) (p q : Player G)
    (hp : r.player? i = some p) (hc : p.crashed = false) (hq : q.crashed = true) :
    (r.setPlayer i q).aliveCount + 1 = r.aliveCount := by
  obtain ⟨u, hu⟩ := Round.player?_some r i p hp
  simp only [Round.aliveCount, Round.setPlayer]
  exact filter_length_modify_drop _ _ _ i (u, p) hu (by simp [hc]) (by simp [hq])

theorem Round.aliveCount_map (r : Round G) (g : User × Player G → User × Player G)
    (h : ∀ up, (g up).2.crashed = up.2.crashed) :
    (r.players.map g).filter (fun up => !up.2.crashed)
      = (r.players.filter (fun up => !up.2.crashed)).map g := by
  induction r.players with
  | nil => simp
  | cons x l ih =>
    by_cases hx : x.2.crashed = true <;> simp [List.filter_cons, h, hx, ih]

theorem Round.prepareToEnd_aliveCount (r : Round G) :
    (r.prepareToEnd).aliveCount = r.aliveCount := by
  simp only [Round.prepareToEnd, Round.aliveCount]
  split_ifs
  · rfl
  · have := Round.aliveCount_map r (fun up => (up.1, { up.2 with stop := true }))
      (fun _ => rfl)
    cases r.powerUpTimer <;> simp [Round.emit, Round.clearTimeout, this]

theorem Round.prepareToEnd_effect (r : Round G) (h : r.preparedToEnd = false) :
    (r.prepareToEnd).preparedToEnd = true ∧ (r.prepareToEnd).ended = true ∧
    (∀ up ∈ (r.prepareToEnd).players, up.2.stop = true) ∧
    (r.prepareToEnd).powerUpTimer = none ∧
    (∀ id, r.powerUpTimer = some id → ∀ t ∈ (r.prepareToEnd).timers, t.id ≠ id) ∧
    (r.prepareToEnd).continueArmed = true ∧
    (r.prepareToEnd).emitted = r.emitted ++ [.prepareToEnd] := by
  simp only [Round.prepareToEnd, h]
  cases hT : r.powerUpTimer with
  | none =>
    simp only [Round.emit]
    refine ⟨by simp, by simp, ?_, by simp, by simp, by simp, by simp⟩
    intro up hup
    simp only [Bool.false_eq_true, if_false, List.mem_map] at hup
    obtain ⟨a, -, rfl⟩ := hup
    rfl
  | some id =>
    simp only [Round.emit, Round.clearTimeout]
    refine ⟨by simp, by simp, ?_, by simp, ?_, by simp, by simp⟩
    · intro up hup
      simp only [Bool.false_eq_true, if_false, List.mem_map] at hup
      obtain ⟨a, -, rfl⟩ := hup
      rfl
    · intro id2 hid t ht
      simp at hid ht
      subst hid
      exact ht.2

theorem Round.handleClearEffect_aliveCount (r : Round G) :
    (r.handleClearEffect).aliveCount = r.aliveCount := by
  simp only [Round.aliveCount, (Round.handleClearEffect_frame r).1]
  rw [Round.aliveCount_map r _ (fun up => by split_ifs <;> rfl), List.length_map]

theorem Round.setTimeouts_aliveCount (r : Round G) (l : List (Nat × TimerAction)) :
    (r.setTimeouts l).aliveCount = r.aliveCount := by
  simp only [Round.aliveCount, (Round.setTimeouts_frame r l).1]

/-- What the collision listener leaves unchanged when it crashes nobody. -/
theorem Round.collisionListener_quiet (E : Env G) (r : Round G) (i : Nat) (p : Player G)
    (hp : r.player? i = some p) (hc : p.crashed = false)
    (hno : (r.isOutOfMap p && !p.immune) = false)
    (hnt : (!p.immune && r.players.enum.any (fun jp =>
        E.interfere jp.2.2.curve p.position (p.curve.weight / 2) (jp.1 == i))) = false) :
    (r.collisionListener E i).preparedToEnd = r.preparedToEnd ∧
    (r.collisionListener E i).ended = r.ended ∧
    (r.collisionListener E i).started = r.started ∧
    (r.collisionListener E i).aliveCount = r.aliveCount ∧
    (r.collisionListener E i).powerUpTimer = r.powerUpTimer ∧
    (r.collisionListener E i).maxPowerUps = r.maxPowerUps ∧
    (r.collisionListener E i).renderer = r.renderer ∧
    (r.collisionListener E i).continueArmed = r.continueArmed ∧
    (r.collisionListener E i).now = r.now ∧
    (r.collisionListener E i).powerUps.length ≤ r.powerUps.length := by
  obtain ⟨u, hu⟩ := Round.player?_some r i p hp
  simp only [Round.collisionListener, hu, hc, hno, hnt, Bool.false_eq_true, if_false]
  cases hk : p.checkPowerUpCollisions E r.powerUps with
  | none => simp
  | some pu =>
    have hcount : (r.setPlayer i (p.applyPowerUp r.now pu).player).aliveCount = r.aliveCount :=
      Round.aliveCount_setPlayer_same r i _ (fun q hq => by
        rw [hp] at hq
        cases hq
        exact Player.applyPowerUp_crashed _ _ _)
    have g := Round.setTimeouts_frame (r.setPlayer i (p.applyPowerUp r.now pu).player)
      (List.map (fun da => (da.1, TimerAction.player i da.2)) (p.applyPowerUp r.now pu).timeouts)
    have gc := Round.setTimeouts_aliveCount (r.setPlayer i (p.applyPowerUp r.now pu).player)
      (List.map (fun da => (da.1, TimerAction.player i da.2)) (p.applyPowerUp r.now pu).timeouts)
    obtain ⟨g1, g2, g3, g4, g5, g6, g7, g8, g9, g10, g11, g12, g13⟩ := g
    simp only
    split_ifs
    · have h := Round.handleClearEffect_frame
        ((r.setPlayer i (p.applyPowerUp r.now pu).player).setTimeouts
          (List.map (fun da => (da.1, TimerAction.player i da.2))
            (p.applyPowerUp r.now pu).timeouts))
      have hcl := Round.handleClearEffect_aliveCount
        ((r.setPlayer i (p.applyPowerUp r.now pu).player).setTimeouts
          (List.map (fun da => (da.1, TimerAction.player i da.2))
            (p.applyPowerUp r.now pu).timeouts))
      obtain ⟨h1, h2, h3, h4, h5, h6, h7, h8, h9, h10, h11, h12⟩ := h
      refine ⟨by rw [h5, g5]; rfl, by rw [h6, g6]; rfl, by rw [h7, g7]; rfl, ?_,
        by rw [h8, g8]; rfl, by rw [h9, g9]; rfl, by rw [h10, g10]; rfl,
        by rw [h11, g11]; rfl, by rw [h4, g4]; rfl, ?_⟩
      · simp only [Round.aliveCount] at hcl gc hcount ⊢
        rw [hcl, gc, hcount]
      · simp only [h3, g3, List.length_eraseIdx]
        split_ifs <;> simp [Round.setPlayer]
    · refine ⟨by rw [g5]; rfl, by rw [g6]; rfl, by rw [g7]; rfl, ?_,
        by rw [g8]; rfl, by rw [g9]; rfl, by rw [g10]; rfl,
        by rw [g11]; rfl, by rw [g4]; rfl, ?_⟩
      · simp only [Round.aliveCount] at gc hcount ⊢
        rw [gc, hcount]
      · simp only [g3, List.length_eraseIdx]
        split_ifs <;> simp [Round.setPlayer]

theorem Round.prepareToEnd_frame (r : Round G) :
    (r.prepareToEnd).started = r.started ∧
    (r.prepareToEnd).maxPowerUps = r.maxPowerUps ∧
    (r.prepareToEnd).renderer = r.renderer ∧
    (r.prepareToEnd).now = r.now ∧
    (r.prepareToEnd).powerUps = r.powerUps ∧
    (r.prepareToEnd).mapSize = r.mapSize := by
  simp only [Round.prepareToEnd]
  split_ifs
  · simp
  · cases r.powerUpTimer <;> simp [Round.emit, Round.clearTimeout]

theorem Round.crashPlayer_frame (r : Round G) (i : Nat) (p : Player G) :
    (r.crashPlayer i p).started = r.started ∧
    (r.crashPlayer i p).maxPowerUps = r.maxPowerUps ∧
    (r.crashPlayer i p).renderer = r.renderer ∧
    (r.crashPlayer i p).now = r.now ∧
    (r.crashPlayer i p).powerUps = r.powerUps := by
  simp only [Round.crashPlayer]
  split_ifs
  · obtain ⟨h1, h2, h3, h4, h5, -⟩ := Round.prepareToEnd_frame
      ((r.setPlayer i (p.crash ⟨p.position.x, p.position.y⟩)).emit (.crash i))
    exact ⟨h1, h2, h3, h4, h5⟩
  · exact ⟨rfl, rfl, rfl, rfl, rfl⟩

/-- The two outcomes of a crash: either the pause flag keeps its value, and
then two players or more are left or the round had paused before; or the round
pauses now. -/
theorem Round.crashPlayer_pause (r : Round G) (i : Nat) (p : Player G)
    (hp : r.player? i = some p) (hc : p.crashed = false) (hi : p.immune = false) :
    ((r.crashPlayer i p).preparedToEnd = r.preparedToEnd ∧
      (r.crashPlayer i p).aliveCount + 1 = r.aliveCount ∧
      (2 ≤ (r.crashPlayer i p).aliveCount ∨ r.preparedToEnd = true) ∧
      (r.crashPlayer i p).ended = r.ended ∧
      (r.crashPlayer i p).powerUpTimer = r.powerUpTimer) ∨
    (r.preparedToEnd = false ∧ (r.crashPlayer i p).preparedToEnd = true ∧
      (r.crashPlayer i p).aliveCount + 1 = r.aliveCount ∧
      (r.crashPlayer i p).aliveCount < 2 ∧ (r.crashPlayer i p).ended = true ∧
      (∀ up ∈ (r.crashPlayer i p).players, up.2.stop = true) ∧
      (r.crashPlayer i p).powerUpTimer = none ∧
      (∀ id, r.powerUpTimer = some id → ∀ t ∈ (r.crashPlayer i p).timers, t.id ≠ id) ∧
      (r.crashPlayer i p).continueArmed = true) := by
  have hcr := Player.crash_crashed p ⟨p.position.x, p.position.y⟩ hc hi
  have hcount := Round.aliveCount_setPlayer_crash r i p _ hp hc hcr
  have hcount2 : ((r.setPlayer i (p.crash ⟨p.position.x, p.position.y⟩)).emit
      (.crash i)).aliveCount + 1 = r.aliveCount := hcount
  simp only [Round.crashPlayer]
  split_ifs with hlt
  · by_cases hprep : r.preparedToEnd = true
    · left
      have e : ((r.setPlayer i (p.crash ⟨p.position.x, p.position.y⟩)).emit
          (.crash i)).prepareToEnd
          = (r.setPlayer i (p.crash ⟨p.position.x, p.position.y⟩)).emit (.crash i) := by
        simp [Round.prepareToEnd, Round.emit, Round.setPlayer, hprep]
      rw [e]
      exact ⟨rfl, hcount2, Or.inr hprep, rfl, rfl⟩
    · right
      have hprep2 : ((r.setPlayer i (p.crash ⟨p.position.x, p.position.y⟩)).emit
          (.crash i)).preparedToEnd = false := by
        simpa [Round.emit, Round.setPlayer] using hprep
      obtain ⟨e1, e2, e3, e4, e5, e6, -⟩ := Round.prepareToEnd_effect _ hprep2
      refine ⟨by simpa using hprep, e1, ?_, ?_, e2, e3, e4, e5, e6⟩
      · rw [Round.prepareToEnd_aliveCount]; exact hcount2
      · rw [Round.prepareToEnd_aliveCount]; exact hlt
  · left
    exact ⟨rfl, hcount2, Or.inl (by omega), rfl, rfl⟩

theorem Round.keepsPause_refl (r : Round G) : Round.KeepsPause r r :=
  ⟨rfl, Or.inl rfl⟩

theorem Round.keepsPause_of_eq (r1 r2 : Round G) (h1 : r2.preparedToEnd = r1.preparedToEnd)
    (h2 : r2.aliveCount = r1.aliveCount) : Round.KeepsPause r1 r2 :=
  ⟨h1, Or.inl h2⟩

theorem Round.collisionListener_pause (E : Env G) (r : Round G) (i : Nat) :
    Round.KeepsPause r (r.collisionListener E i) ∨
    Round.EntersPause r (r.collisionListener E i) := by
  cases hp : r.player? i with
  | none =>
    have : r.players[i]? = none := by simpa [Round.player?] using hp
    simp [Round.collisionListener, this, Round.keepsPause_refl]
  | some p =>
    obtain ⟨u, hu⟩ := Round.player?_some r i p hp
    by_cases hc : p.crashed = true
    · have : r.collisionListener E i = r := by simp [Round.collisionListener, hu, hc]
      rw [this]; exact Or.inl (Round.keepsPause_refl r)
    · have hc : p.crashed = false := by simpa using hc
      by_cases h1 : (r.isOutOfMap p && !p.immune) = true
      · have e : r.collisionListener E i = r.crashPlayer i p := by
          simp only [Round.collisionListener, hu, hc, h1]; simp
        have hi : p.immune = false := by
          simp only [Bool.and_eq_true, Bool.not_eq_true'] at h1; exact h1.2
        rw [e]
        rcases Round.crashPlayer_pause r i p hp hc hi with
          ⟨a1, a2, a3, -, -⟩ | h
        · exact Or.inl ⟨a1, Or.inr ⟨a2, a3⟩⟩
        · exact Or.inr h
      · have h1 : (r.isOutOfMap p && !p.immune) = false := by simpa using h1
        by_cases h2 : (!p.immune && r.players.enum.any (fun jp =>
            E.interfere jp.2.2.curve p.position (p.curve.weight / 2) (jp.1 == i))) = true
        · have e : r.collisionListener E i = r.crashPlayer i p := by
            simp only [Round.collisionListener, hu, hc, h1, h2]; simp
          have hi : p.immune = false := by
            simp only [Bool.and_eq_true, Bool.not_eq_true'] at h2; exact h2.1
          rw [e]
          rcases Round.crashPlayer_pause r i p hp hc hi with
            ⟨a1, a2, a3, -, -⟩ | h
          · exact Or.inl ⟨a1, Or.inr ⟨a2, a3⟩⟩
          · exact Or.inr h
        · have h2 : (!p.immune && r.players.enum.any (fun jp =>
              E.interfere jp.2.2.curve p.position (p.curve.weight / 2) (jp.1 == i))) = false := by
            simpa using h2
          obtain ⟨q1, -, -, q4, -⟩ := Round.collisionListener_quiet E r i p hp hc h1 h2
          exact Or.inl ⟨q1, Or.inl q4⟩

theorem Player.updateBody_frame (E : Env G) (now : Nat) (diff : ℚ) (q : Player G) :
    (Player.updateBody E now diff q).crashed = q.crashed ∧
    (Player.updateBody E now diff q).stop = q.stop ∧
    (Player.updateBody E now diff q).immune = q.immune ∧
    (Player.updateBody E now diff q).listening = q.listening ∧
    (Player.updateBody E now diff q).speed = q.speed ∧
    (Player.updateBody E now diff q).vector = q.vector ∧
    (Player.updateBody E now diff q).curve.weight
      = (if q.active then (E.curveUpdate q.curve (Player.updateBody E now diff q).position).weight
         else q.curve.weight) := by
  have h : ∀ p : Player G, (p.updateEffects now).crashed = p.crashed ∧
      (p.updateEffects now).stop = p.stop ∧ (p.updateEffects now).immune = p.immune ∧
      (p.updateEffects now).listening = p.listening := by
    intro p
    simp only [Player.updateEffects]
    split_ifs <;> simp
  obtain ⟨h1, h2, h3, h4, h5, h6, h7, h8⟩ := Player.updateEffects_frame now
    ({ q with particleSystem := q.particleSystem ++ [.update diff] } : Player G)
  obtain ⟨k1, k2, k3, k4⟩ := h
    ({ q with particleSystem := q.particleSystem ++ [.update diff] } : Player G)
  simp only at h1 h2 h3 h4 h5 h6 h7 h8 k1 k2 k3 k4
  simp only [Player.updateBody, Player.emit, Player.getMovement, Player.addAngle]
  split_ifs <;> simp_all

theorem mem_modify {α : Type} (f : α → α) (l : List α) (i : Nat) (x : α)
    (h : x ∈ l.modify f i) : x ∈ l ∨ ∃ a, l[i]? = some a ∧ x = f a := by
  obtain ⟨j, hj⟩ := List.mem_iff_getElem?.1 h
  rw [List.getElem?_modify] at hj
  cases ha : l[j]? with
  | none => simp [ha] at hj
  | some a =>
    simp only [ha, Option.map_eq_map, Option.map_some', Option.some.injEq] at hj
    by_cases hij : i = j
    · subst hij
      right
      exact ⟨a, ha, by simpa using hj.symm⟩
    · left
      simp only [hij, if_false] at hj
      subst hj
      exact List.mem_iff_getElem?.2 ⟨j, ha⟩

theorem Round.pause_setPlayer_before (r r1 : Round G) (i : Nat) (p0 : Player G)
    (h0 : ∀ p, r.player? i = some p → p0.crashed = p.crashed)
    (h : Round.KeepsPause (r.setPlayer i p0) r1 ∨ Round.EntersPause (r.setPlayer i p0) r1) :
    Round.KeepsPause r r1 ∨ Round.EntersPause r r1 := by
  have hc := Round.aliveCount_setPlayer_same r i p0 h0
  have hp : (r.setPlayer i p0).preparedToEnd = r.preparedToEnd := rfl
  have ht : (r.setPlayer i p0).powerUpTimer = r.powerUpTimer := rfl
  simp only [Round.KeepsPause, Round.EntersPause, hc, hp, ht] at h
  exact h

theorem Round.pause_setPlayer_after (r r1 : Round G) (i : Nat) (q1 : Player G)
    (h1 : ∀ q, r1.player? i = some q → q1.crashed = q.crashed ∧ q1.stop = q.stop)
    (h : Round.KeepsPause r r1 ∨ Round.EntersPause r r1) :
    Round.KeepsPause r (r1.setPlayer i q1) ∨ Round.EntersPause r (r1.setPlayer i q1) := by
  have hc := Round.aliveCount_setPlayer_same r1 i q1 (fun q hq => (h1 q hq).1)
  rcases h with h | h
  · left
    simp only [Round.KeepsPause, hc]
    exact h
  · right
    obtain ⟨a1, a2, a3, a4, a5, a6, a7, a8, a9⟩ := h
    refine ⟨a1, a2, by rw [hc]; exact a3, by rw [hc]; exact a4, a5, ?_, a7, a8, a9⟩
    intro up hup
    rcases mem_modify _ _ _ _ hup with hm | ⟨a, ha, rfl⟩
    · exact a6 up hm
    · have hq : r1.player? i = some a.2 := by simp [Round.player?, ha]
      have := a6 a (List.mem_iff_getElem?.2 ⟨i, ha⟩)
      simp only
      rw [(h1 a.2 hq).2, this]

theorem Round.updatePlayer_pause (E : Env G) (i : Nat) (diff limit : ℚ) (r : Round G) :
    Round.KeepsPause r (r.updatePlayer E i diff limit) ∨
    Round.EntersPause r (r.updatePlayer E i diff limit) := by
  simp only [Round.updatePlayer]
  cases hu : r.players[i]? with
  | none => exact Or.inl (Round.keepsPause_refl r)
  | some up =>
    obtain ⟨u, p⟩ := up
    have hp : r.player? i = some p := by simp [Round.player?, hu]
    simp only
    split_ifs with hs hl
    · exact Or.inl (Round.keepsPause_refl r)
    · have hmid : Round.KeepsPause r
          ((r.setPlayer i ((p.emit .preUpdate).bonusListener E limit)).collisionListener E i) ∨
          Round.EntersPause r
          ((r.setPlayer i ((p.emit .preUpdate).bonusListener E limit)).collisionListener E i) := by
        apply Round.pause_setPlayer_before r _ i _ _ (Round.collisionListener_pause E _ i)
        intro p2 hp2
        rw [hp] at hp2
        cases hp2
        rw [(Player.bonusListener_frame E limit (p.emit .preUpdate)).2.2.2.2.2.2.1]
        rfl
      cases hq : ((r.setPlayer i ((p.emit .preUpdate).bonusListener E limit)).collisionListener
          E i).players[i]? with
      | none => exact hmid
      | some uq =>
        simp only
        apply Round.pause_setPlayer_after r _ i _ _ hmid
        intro q hq2
        have : q = uq.2 := by
          simp only [Round.player?, hq, Option.map_some', Option.some.injEq] at hq2
          exact hq2.symm
        subst this
        exact ⟨(Player.updateBody_frame E _ diff _).1, (Player.updateBody_frame E _ diff _).2.1⟩
    · have hmid : Round.KeepsPause r (r.setPlayer i (p.emit .preUpdate)) ∨
          Round.EntersPause r (r.setPlayer i (p.emit .preUpdate)) := by
        apply Round.pause_setPlayer_after r r i _ _ (Or.inl (Round.keepsPause_refl r))
        intro q hq
        rw [hp] at hq
        cases hq
        exact ⟨rfl, rfl⟩
      cases hq : (r.setPlayer i (p.emit .preUpdate)).players[i]? with
      | none => exact hmid
      | some uq =>
        simp only
        apply Round.pause_setPlayer_after r _ i _ _ hmid
        intro q hq2
        have : q = uq.2 := by
          simp only [Round.player?, hq, Option.map_some', Option.some.injEq] at hq2
          exact hq2.symm
        subst this
        exact ⟨(Player.updateBody_frame E _ diff _).1, (Player.updateBody_frame E _ diff _).2.1⟩

theorem Round.aliveCount_players_map (r r2 : Round G)
    (g : User × Player G → User × Player G) (h : ∀ up, (g up).2.crashed = up.2.crashed)
    (h2 : r2.players = r.players.map g) : r2.aliveCount = r.aliveCount := by
  simp only [Round.aliveCount, h2]
  rw [Round.aliveCount_map r g h, List.length_map]

theorem Round.spawnPowerUp_frame (E : Env G) (d : SpawnDraw) (r : Round G) :
    (r.spawnPowerUp E d).players = r.players ∧
    (r.spawnPowerUp E d).preparedToEnd = r.preparedToEnd ∧
    (r.spawnPowerUp E d).ended = r.ended ∧
    (r.spawnPowerUp E d).started = r.started ∧
    (r.spawnPowerUp E d).maxPowerUps = r.maxPowerUps ∧
    (r.spawnPowerUp E d).renderer = r.renderer ∧
    (r.spawnPowerUp E d).emitted = r.emitted ∧
    (r.spawnPowerUp E d).continueArmed = r.continueArmed ∧
    (r.spawnPowerUp E d).now = r.now ∧
    (r.spawnPowerUp E d).mapSize = r.mapSize := by
  simp only [Round.spawnPowerUp]
  split_ifs
  · simp
  · cases (Round.placementLoop E r d.candidate 20 0).1 <;> simp [Round.setTimeout]

theorem PlayerTimeout.run_crashed (E : Env G) (a : PlayerTimeout) (p : Player G) :
    (a.run E p).crashed = p.crashed ∧ (a.run E p).stop = p.stop := by
  cases a <;>
    first
      | exact ⟨rfl, rfl⟩
      | (simp only [PlayerTimeout.run]; split_ifs <;> exact ⟨rfl, rfl⟩)

theorem Round.end_frame (r : Round G) :
    (Round.end r).preparedToEnd = r.preparedToEnd ∧
    (Round.end r).aliveCount = r.aliveCount ∧
    (Round.end r).powerUps = r.powerUps ∧
    (Round.end r).maxPowerUps = r.maxPowerUps ∧
    (Round.end r).started = r.started := by
  simp only [Round.end]
  split_ifs
  · simp
  · have hc : ∀ r2 : Round G, r2.players = r.players.map
        (fun up => (({ up.1 with inputOn := false } : User), up.2.destroy)) →
        r2.aliveCount = r.aliveCount :=
      fun r2 h2 => Round.aliveCount_players_map r r2
        (fun up => (({ up.1 with inputOn := false } : User), up.2.destroy)) (fun _ => rfl) h2
    cases r.powerUpTimer with
    | none =>
      refine ⟨rfl, hc _ ?_, rfl, rfl, rfl⟩
      simp [Round.emit, List.map_map, Function.comp_def]
    | some id =>
      refine ⟨rfl, hc _ ?_, rfl, rfl, rfl⟩
      simp [Round.emit, Round.clearTimeout, List.map_map, Function.comp_def]

theorem Round.runTimer_frame (E : Env G) (d : SpawnDraw) (r : Round G) (a : TimerAction) :
    (Round.runTimer E d r a).preparedToEnd = r.preparedToEnd ∧
    (Round.runTimer E d r a).aliveCount = r.aliveCount ∧
    (Round.runTimer E d r a).maxPowerUps = r.maxPowerUps := by
  cases a with
  | startGame =>
    simp only [Round.runTimer, Round.startGame]
    obtain ⟨h1, h2, -, -, h5, -⟩ := Round.spawnPowerUp_frame E d
      ({ r with players := r.players.map (fun up => (up.1, { up.2 with stop := false })) })
    refine ⟨h2, ?_, h5⟩
    exact Round.aliveCount_players_map r _ (fun up => (up.1, { up.2 with stop := false }))
      (fun _ => rfl) (by simp [Round.emit, h1])
  | spawnPowerUp =>
    obtain ⟨h1, h2, -, -, h5, -⟩ := Round.spawnPowerUp_frame E d r
    exact ⟨h2, by simp only [Round.runTimer, Round.aliveCount, h1], h5⟩
  | player i a =>
    simp only [Round.runTimer]
    cases hu : r.players[i]? with
    | none => exact ⟨rfl, rfl, rfl⟩
    | some up =>
      refine ⟨rfl, Round.aliveCount_setPlayer_same r i _ (fun p hp => ?_), rfl⟩
      simp only [Round.player?, hu, Option.map_some', Option.some.injEq] at hp
      subst hp
      exact (PlayerTimeout.run_crashed E a _).1

/-- Events other than the drawing of a player keep the pause flag and the
number of players that are not crashed. -/
theorem Round.step_keeps (E : Env G) (r : Round G) (e : Event)
    (he : ∀ i diff limit, e ≠ .draw i diff limit) :
    (r.step E e).preparedToEnd = r.preparedToEnd ∧ (r.step E e).aliveCount = r.aliveCount := by
  cases e with
  | start =>
    simp only [Round.step, Round.start]
    split_ifs <;> exact ⟨rfl, rfl⟩
  | clock ms => exact ⟨rfl, rfl⟩
  | fire id d =>
    simp only [Round.step, Round.fire]
    cases r.timers.find? (fun t => t.id = id) with
    | none => exact ⟨rfl, rfl⟩
    | some t =>
      simp only
      split_ifs
      · obtain ⟨h1, h2, -⟩ := Round.runTimer_frame E d
          { r with timers := r.timers.filter (fun t => t.id ≠ id) } t.action
        exact ⟨h1, h2⟩
      · exact ⟨rfl, rfl⟩
  | input i dir =>
    simp only [Round.step, Round.input]
    cases hu : r.players[i]? with
    | none => exact ⟨rfl, rfl⟩
    | some up =>
      simp only
      by_cases h1 : (!up.1.inputOn) = true
      · rw [if_pos h1]; exact ⟨rfl, rfl⟩
      · by_cases h2 : (!r.started || r.ended) = true
        · rw [if_neg h1, if_pos h2]; exact ⟨rfl, rfl⟩
        · rw [if_neg h1, if_neg h2]
          refine ⟨rfl, Round.aliveCount_setPlayer_same r i _ (fun p hp => ?_)⟩
          simp only [Round.player?, hu, Option.map_some', Option.some.injEq] at hp
          subst hp
          rfl
  | draw i diff limit => exact absurd rfl (he i diff limit)
  | keydown32 =>
    simp only [Round.step, Round.continue]
    split_ifs
    · obtain ⟨h1, h2, -⟩ := Round.end_frame { r with continueArmed := false }
      exact ⟨h1, h2⟩
    · exact ⟨rfl, rfl⟩
  | endRound =>
    obtain ⟨h1, h2, -⟩ := Round.end_frame r
    exact ⟨h1, h2⟩

theorem Round.step_pause (E : Env G) (r : Round G) (e : Event) :
    Round.KeepsPause r (r.step E e) ∨ Round.EntersPause r (r.step E e) := by
  by_cases he : ∀ i diff limit, e ≠ .draw i diff limit
  · obtain ⟨h1, h2⟩ := Round.step_keeps E r e he
    exact Or.inl ⟨h1, Or.inl h2⟩
  · push_neg at he
    obtain ⟨i, diff, limit, rfl⟩ := he
    simp only [Round.step]
    split_ifs
    · exact Round.updatePlayer_pause E i diff limit r
    · exact Or.inl (Round.keepsPause_refl r)

/-! ## Reachable rounds -/

theorem Round.collisionListener_cases (E : Env G) (r : Round G) (i : Nat) :
    r.collisionListener E i = r ∨
    (∃ p, r.player? i = some p ∧ p.crashed = false ∧ p.immune = false ∧
      r.collisionListener E i = r.crashPlayer i p) ∨
    (∃ p, r.player? i = some p ∧ p.crashed = false ∧
      (r.isOutOfMap p && !p.immune) = false ∧
      (!p.immune && r.players.enum.any (fun jp =>
        E.interfere jp.2.2.curve p.position (p.curve.weight / 2) (jp.1 == i))) = false) := by
  cases hp : r.player? i with
  | none =>
    have : r.players[i]? = none := by simpa [Round.player?] using hp
    simp [Round.collisionListener, this]
  | some p =>
    obtain ⟨u, hu⟩ := Round.player?_some r i p hp
    by_cases hc : p.crashed = true
    · left; simp [Round.collisionListener, hu, hc]
    · have hc : p.crashed = false := by simpa using hc
      by_cases h1 : (r.isOutOfMap p && !p.immune) = true
      · right; left
        have hi : p.immune = false := by
          simp only [Bool.and_eq_true, Bool.not_eq_true'] at h1; exact h1.2
        refine ⟨p, rfl, hc, hi, ?_⟩
        simp only [Round.collisionListener, hu, hc, h1]; simp
      · have h1 : (r.isOutOfMap p && !p.immune) = false := by simpa using h1
        by_cases h2 : (!p.immune && r.players.enum.any (fun jp =>
            E.interfere jp.2.2.curve p.position (p.curve.weight / 2) (jp.1 == i))) = true
        · right; left
          have hi : p.immune = false := by
            simp only [Bool.and_eq_true, Bool.not_eq_true'] at h2; exact h2.1
          refine ⟨p, rfl, hc, hi, ?_⟩
          simp only [Round.collisionListener, hu, hc, h1, h2]; simp
        · right; right
          exact ⟨p, rfl, hc, h1, by simpa using h2⟩

theorem Round.collisionListener_powerUps (E : Env G) (r : Round G) (i : Nat) :
    (r.collisionListener E i).powerUps.length ≤ r.powerUps.length ∧
    (r.collisionListener E i).maxPowerUps = r.maxPowerUps ∧
    (r.collisionListener E i).now = r.now := by
  rcases Round.collisionListener_cases E r i with h | ⟨p, -, -, -, h⟩ | ⟨p, hp, hc, h1, h2⟩
  · rw [h]; exact ⟨le_refl _, rfl, rfl⟩
  · rw [h]
    obtain ⟨-, f2, -, f4, f5⟩ := Round.crashPlayer_frame r i p
    exact ⟨by rw [f5], f2, f4⟩
  · obtain ⟨-, -, -, -, -, q6, -, -, q9, q10⟩ := Round.collisionListener_quiet E r i p hp hc h1 h2
    exact ⟨q10, q6, q9⟩

theorem Round.updatePlayer_powerUps (E : Env G) (i : Nat) (diff limit : ℚ) (r : Round G) :
    (r.updatePlayer E i diff limit).powerUps.length ≤ r.powerUps.length ∧
    (r.updatePlayer E i diff limit).maxPowerUps = r.maxPowerUps := by
  simp only [Round.updatePlayer]
  cases hu : r.players[i]? with
  | none => exact ⟨le_refl _, rfl⟩
  | some up =>
    simp only
    split_ifs
    · exact ⟨le_refl _, rfl⟩
    · obtain ⟨h1, h2, -⟩ := Round.collisionListener_powerUps E
        (r.setPlayer i ((up.2.emit .preUpdate).bonusListener E limit)) i
      cases ((r.setPlayer i ((up.2.emit .preUpdate).bonusListener E limit)).collisionListener
        E i).players[i]? <;> exact ⟨h1, h2⟩
    · cases (r.setPlayer i (up.2.emit .preUpdate)).players[i]? <;> exact ⟨le_refl _, rfl⟩

theorem Round.spawnPowerUp_powerUps (E : Env G) (d : SpawnDraw) (r : Round G)
    (h : r.powerUps.length ≤ r.maxPowerUps) :
    (r.spawnPowerUp E d).powerUps.length ≤ r.maxPowerUps := by
  simp only [Round.spawnPowerUp]
  split_ifs with hg
  · exact h
  · simp only [Bool.or_eq_true, decide_eq_true_eq, not_or, not_le] at hg
    cases (Round.placementLoop E r d.candidate 20 0).1 with
    | none => simpa [Round.setTimeout] using h
    | some c =>
      simp only [Round.setTimeout, List.length_append, List.length_singleton]
      omega

theorem Round.step_powerUps (E : Env G) (r : Round G) (e : Event)
    (h : r.powerUps.length ≤ r.maxPowerUps) :
    (r.step E e).powerUps.length ≤ (r.step E e).maxPowerUps ∧
    (r.step E e).maxPowerUps = r.maxPowerUps := by
  cases e with
  | start =>
    simp only [Round.step, Round.start]
    split_ifs <;> exact ⟨h, rfl⟩
  | clock ms => exact ⟨h, rfl⟩
  | fire id d =>
    simp only [Round.step, Round.fire]
    cases r.timers.find? (fun t => t.id = id) with
    | none => exact ⟨h, rfl⟩
    | some t =>
      simp only
      split_ifs
      · cases t.action with
        | startGame =>
          have := Round.spawnPowerUp_powerUps E d
            ({ r with timers := r.timers.filter (fun t => t.id ≠ id),
                      players := r.players.map (fun up => (up.1, { up.2 with stop := false })) })
            h
          have hm := (Round.spawnPowerUp_frame E d
            ({ r with timers := r.timers.filter (fun t => t.id ≠ id),
                      players := r.players.map
                        (fun up => (up.1, { up.2 with stop := false })) })).2.2.2.2.1
          simp only [Round.runTimer, Round.startGame, Round.emit]
          exact ⟨by rw [hm]; exact this, hm⟩
        | spawnPowerUp =>
          have := Round.spawnPowerUp_powerUps E d
            ({ r with timers := r.timers.filter (fun t => t.id ≠ id) }) h
          have hm := (Round.spawnPowerUp_frame E d
            ({ r with timers := r.timers.filter (fun t => t.id ≠ id) })).2.2.2.2.1
          simp only [Round.runTimer]
          exact ⟨by rw [hm]; exact this, hm⟩
        | player i a =>
          simp only [Round.runTimer]
          cases r.players[i]? <;> exact ⟨h, rfl⟩
      · exact ⟨h, rfl⟩
  | input i dir =>
    simp only [Round.step, Round.input]
    cases hu : r.players[i]? with
    | none => exact ⟨h, rfl⟩
    | some up =>
      simp only
      split_ifs <;> exact ⟨h, rfl⟩
  | draw i diff limit =>
    simp only [Round.step]
    split_ifs
    · obtain ⟨h1, h2⟩ := Round.updatePlayer_powerUps E i diff limit r
      exact ⟨by rw [h2]; exact le_trans h1 h, h2⟩
    · exact ⟨h, rfl⟩
  | keydown32 =>
    simp only [Round.step, Round.continue]
    split_ifs
    · obtain ⟨-, -, h3, h4, -⟩ := Round.end_frame { r with continueArmed := false }
      exact ⟨by rw [h3, h4]; exact h, h4⟩
    · exact ⟨h, rfl⟩
  | endRound =>
    obtain ⟨-, -, h3, h4, -⟩ := Round.end_frame r
    exact ⟨by simp only [Round.step]; rw [h3, h4]; exact h, h4⟩

theorem Round.new_facts (E : Env G) (mapSize : Point) (now : Nat)
    (users : List (User × PlayerInit)) :
    (Round.new E mapSize now users : Round G).preparedToEnd = false ∧
    (Round.new E mapSize now users : Round G).aliveCount = users.length ∧
    (Round.new E mapSize now users : Round G).powerUps = [] ∧
    (Round.new E mapSize now users : Round G).maxPowerUps = 5 := by
  have key : ∀ (us : List (User × PlayerInit)) (r0 : Round G),
      (us.foldl (fun r uo => Round.newPlayer E r uo.1 uo.2) r0).preparedToEnd
        = r0.preparedToEnd ∧
      (us.foldl (fun r uo => Round.newPlayer E r uo.1 uo.2) r0).aliveCount
        = r0.aliveCount + us.length ∧
      (us.foldl (fun r uo => Round.newPlayer E r uo.1 uo.2) r0).powerUps = r0.powerUps ∧
      (us.foldl (fun r uo => Round.newPlayer E r uo.1 uo.2) r0).maxPowerUps
        = r0.maxPowerUps := by
    intro us
    induction us with
    | nil => intro r0; simp
    | cons a us ih =>
      intro r0
      obtain ⟨h1, h2, h3, h4⟩ := ih (Round.newPlayer E r0 a.1 a.2)
      simp only [List.foldl_cons, List.length_cons]
      refine ⟨h1, ?_, h3, h4⟩
      rw [h2]
      simp [Round.newPlayer, Round.aliveCount, Player.new, List.filter_append]
      omega
  obtain ⟨h1, h2, h3, h4⟩ := key users
    { mapSize := mapSize, renderer := [], continueArmed := false, started := false,
      ended := false, paused := false, preparedToEnd := false, powerUps := [],
      maxPowerUps := 5, powerUpTimer := none, specialEffects := [], players := [],
      now := now, timers := [], nextTimerId := 1, emitted := [] }
  simp only [Round.new]
  refine ⟨h1, ?_, h3, h4⟩
  simp only [Round.aliveCount] at h2 ⊢
  simpa using h2

theorem Round.run_induction (E : Env G) (P : Round G → Prop)
    (hstep : ∀ r e, P r → P (r.step E e)) (r : Round G) (es : List Event) (h : P r) :
    P (r.run E es) := by
  induction es generalizing r with
  | nil => exact h
  | cons e es ih => exact ih (r.step E e) (hstep r e h)

/-- C4, as the claim states it, fails: in a round with a single player the
pause for continue is entered at the tick in which that player crashes, while
the number of players that are not crashed goes from 1 to 0 and was never 2. -/
theorem Round.pause_solo_counterexample :
    soloEdgeRound.preparedToEnd = false ∧ soloEdgeRound.aliveCount = 1 ∧
    (soloEdgeRound.step exampleEnv (.draw 0 (1 / 60) 300)).preparedToEnd = true ∧
    (soloEdgeRound.step exampleEnv (.draw 0 (1 / 60) 300)).aliveCount = 0 := by
  decide!

/-- C4, amended. `prepareToEnd` runs for the first time (flags `preparedToEnd`
and `ended` set, every player stopped, the stored spawn timer cleared) only in
the drawing of a player, when a player crashes in that tick and fewer than two
players are left not crashed; it does run in every step in which that number
goes from two or more to fewer than two. A round reachable from its
construction is never paused while two or more players are not crashed, and
one constructed with two players or more has two or more of them not crashed
as long as it has not paused. -/
theorem Round.pause_on_last_crash (E : Env G) (r : Round G) (e : Event)
    (mapSize : Point) (now : Nat) (users : List (User × PlayerInit)) (es : List Event) :
    (r.preparedToEnd = false → (r.step E e).preparedToEnd = true →
      (∃ i diff limit, e = .draw i diff limit) ∧
      (r.step E e).aliveCount + 1 = r.aliveCount ∧ (r.step E e).aliveCount < 2 ∧
      (r.step E e).ended = true ∧ (∀ up ∈ (r.step E e).players, up.2.stop = true) ∧
      (r.step E e).powerUpTimer = none ∧
      (∀ id, r.powerUpTimer = some id → ∀ t ∈ (r.step E e).timers, t.id ≠ id)) ∧
    (r.preparedToEnd = false → 2 ≤ r.aliveCount → (r.step E e).aliveCount < 2 →
      (r.step E e).preparedToEnd = true) ∧
    (((Round.new E mapSize now users).run E es).preparedToEnd = true →
      ((Round.new E mapSize now users).run E es).aliveCount < 2) ∧
    (2 ≤ users.length → ((Round.new E mapSize now users).run E es).preparedToEnd = false →
      2 ≤ ((Round.new E mapSize now users).run E es).aliveCount) := by
  obtain ⟨n1, n2, -, -⟩ := Round.new_facts E mapSize now users
  refine ⟨?_, ?_, ?_, ?_⟩
  · intro h0 h1
    rcases Round.step_pause E r e with ⟨k1, -⟩ | ⟨-, -, a3, a4, a5, a6, a7, a8, -⟩
    · rw [k1, h0] at h1; cases h1
    · refine ⟨?_, a3, a4, a5, a6, a7, a8⟩
      by_contra hne
      have := (Round.step_keeps E r e (fun i diff limit hed => hne ⟨i, diff, limit, hed⟩)).1
      rw [this, h0] at h1; cases h1
  · intro h0 h2 hlt
    rcases Round.step_pause E r e with ⟨-, k2⟩ | ⟨-, a2, -⟩
    · rcases k2 with k2 | ⟨-, k3 | k3⟩
      · omega
      · omega
      · rw [h0] at k3; cases k3
    · exact a2
  · refine Round.run_induction E
      (fun r => r.preparedToEnd = true → r.aliveCount < 2) ?_ _ es ?_
    · intro r e ih h1
      rcases Round.step_pause E r e with ⟨k1, k2⟩ | ⟨-, -, -, a4, -⟩
      · have := ih (by rw [← k1]; exact h1)
        rcases k2 with k2 | ⟨k2, -⟩ <;> omega
      · exact a4
    · intro h1; rw [n1] at h1; cases h1
  · intro hu
    refine Round.run_induction E
      (fun r => r.preparedToEnd = false → 2 ≤ r.aliveCount) ?_ _ es ?_
    · intro r e ih h1
      rcases Round.step_pause E r e with ⟨k1, k2⟩ | ⟨-, a2, -⟩
      · have h0 : r.preparedToEnd = false := by rw [← k1]; exact h1
        have := ih h0
        rcases k2 with k2 | ⟨-, k3 | k3⟩
        · omega
        · exact k3
        · rw [h0] at k3; cases k3
      · rw [a2] at h1; cases h1
    · intro _; rw [n2]; exact hu

/-- Witness of C4: in `edgeRound`, of two players, the first player is beyond
the edge; its next tick crashes it, one player is left and the round pauses. -/
theorem Round.pause_on_last_crash_witness :
    edgeRound.preparedToEnd = false ∧ edgeRound.aliveCount = 2 ∧
    (edgeRound.step exampleEnv (.draw 0 (1 / 60) 300)).preparedToEnd = true ∧
    (edgeRound.step exampleEnv (.draw 0 (1 / 60) 300)).aliveCount + 1 = edgeRound.aliveCount ∧
    (edgeRound.step exampleEnv (.draw 0 (1 / 60) 300)).aliveCount < 2 ∧
    (edgeRound.step exampleEnv (.draw 0 (1 / 60) 300)).ended = true ∧
    (edgeRound.step exampleEnv (.draw 0 (1 / 60) 300)).powerUpTimer = none :=
  have h0 : edgeRound.preparedToEnd = false := by decide!
  have h1 : (edgeRound.step exampleEnv (.draw 0 (1 / 60) 300)).preparedToEnd = true := by
    decide!
  have h := (Round.pause_on_last_crash exampleEnv edgeRound (.draw 0 (1 / 60) 300)
    ⟨800, 600⟩ 0 [] []).1 h0 h1
  ⟨h0, by decide!, h1, h.2.1, h.2.2.1, h.2.2.2.1, h.2.2.2.2.2.1⟩

/-- C8. In every state reachable from the construction of a round, by any
sequence of events (spawn cycles, pickups and all others), the list of live
power-ups has at most `maxPowerUps = 5` elements. -/
theorem Round.powerUps_length_le (E : Env G) (mapSize : Point) (now : Nat)
    (users : List (User × PlayerInit)) (es : List Event) :
    ((Round.new E mapSize now users).run E es).maxPowerUps = 5 ∧
    ((Round.new E mapSize now users).run E es).powerUps.length ≤ 5 := by
  obtain ⟨-, -, n3, n4⟩ := Round.new_facts E mapSize now users
  have := Round.run_induction E
    (fun r => r.maxPowerUps = 5 ∧ r.powerUps.length ≤ r.maxPowerUps)
    (fun r e ih => by
      obtain ⟨h1, h2⟩ := Round.step_powerUps E r e ih.2
      exact ⟨by rw [h2]; exact ih.1, h1⟩)
    (Round.new E mapSize now users) es ⟨n4, by rw [n3, n4]; simp⟩
  exact ⟨this.1, by rw [← this.1]; exact this.2⟩

/-! ## The end of a round -/

theorem Round.end_of_ended (r : Round G) (h : r.ended = true) : Round.end r = r := by
  simp [Round.end, h]

/-- C5, the code at the failing input. `pausedRound` has paused for continue
(`prepareToEnd` ran and installed the listener of the continue key). When the
key is pressed, `Round.end` returns at its guard, because `prepareToEnd` has
set `ended`: only the one-shot listener is consumed; no `end` event is
emitted, border and players stay registered with the renderer, the players
keep their listeners and the users their `input` listeners. -/
theorem Round.continue_after_pause :
    pausedRound.preparedToEnd = true ∧ pausedRound.continueArmed = true ∧
    pausedRound.step exampleEnv .keydown32 = { pausedRound with continueArmed := false } ∧
    RoundEvent.finish ∉ (pausedRound.step exampleEnv .keydown32).emitted ∧
    (pausedRound.step exampleEnv .keydown32).renderer
      = [.player 0, .player 1, .border] ∧
    (pausedRound.step exampleEnv .keydown32).players.map
      (fun up => (up.1.inputOn, up.2.listening)) = [(true, true), (true, true)] := by
  decide!

/-! ## Placement of power-ups -/

theorem Round.placementLoop_spec (E : Env G) (r : Round G) (candidate : Nat → Point)
    (fuel attempts : Nat) :
    (Round.placementLoop E r candidate fuel attempts).2 ≤ attempts + fuel ∧
    (∀ c, (Round.placementLoop E r candidate fuel attempts).1 = some c →
      r.validPosition E c = true ∧ ∃ k, attempts ≤ k ∧ k < attempts + fuel ∧ c = candidate k) ∧
    ((∀ k, attempts ≤ k → k < attempts + fuel → r.validPosition E (candidate k) = false) →
      (Round.placementLoop E r candidate fuel attempts).1 = none) := by
  induction fuel generalizing attempts with
  | zero => simp [Round.placementLoop]
  | succ fuel ih =>
    simp only [Round.placementLoop]
    by_cases hv : r.validPosition E (candidate attempts) = true
    · rw [if_pos hv]
      refine ⟨by simp only; omega, ?_, ?_⟩
      · intro c hc
        cases hc
        exact ⟨hv, attempts, le_refl _, by omega, rfl⟩
      · intro hall
        have := hall attempts (le_refl _) (by omega)
        rw [this] at hv; cases hv
    · rw [if_neg hv]
      obtain ⟨h1, h2, h3⟩ := ih (attempts + 1)
      refine ⟨by omega, ?_, ?_⟩
      · intro c hc
        obtain ⟨hvc, k, hk1, hk2, hk3⟩ := h2 c hc
        exact ⟨hvc, k, by omega, by omega, hk3⟩
      · intro hall
        exact h3 (fun k hk1 hk2 => hall k (by omega) (by omega))

theorem Round.validPosition_iff (E : Env G) (r : Round G) (c : Point) :
    r.validPosition E c = true ↔
      (∀ up ∈ r.players, up.2.crashed = false →
        100 ≤ distance E up.2.position c ∧ E.interfere up.2.curve c 20 false = false) ∧
      (∀ pu ∈ r.powerUps, 80 ≤ distance E pu.position c) := by
  simp only [Round.validPosition, Bool.and_eq_true, List.all_eq_true, Bool.or_eq_true,
    Bool.not_eq_true', decide_eq_false_iff_not, not_lt]
  constructor
  · rintro ⟨h1, h2⟩
    refine ⟨fun up hup hc => ?_, h2⟩
    rcases h1 up hup with h | h
    · rw [hc] at h; cases h
    · exact h
  · rintro ⟨h1, h2⟩
    refine ⟨fun up hup => ?_, h2⟩
    cases hc : up.2.crashed with
    | true => exact Or.inl rfl
    | false => exact Or.inr (h1 up hup hc)

/-- C9. A call of `spawnPowerUp` draws at most 20 candidates. It either leaves
the list of live power-ups as it was, or appends one new power-up, placed at
one of the first 20 candidates, whose distance (as the code computes it) is at
least 100 from the head of every player that is not crashed and at least 80
from every power-up live before the call. When all 20 candidates are rejected
the list is unchanged. -/
theorem Round.spawnPowerUp_placement (E : Env G) (d : SpawnDraw) (r : Round G) :
    (Round.placementLoop E r d.candidate 20 0).2 ≤ 20 ∧
    ((r.spawnPowerUp E d).powerUps = r.powerUps ∨
      ∃ c, (r.spawnPowerUp E d).powerUps = r.powerUps ++ [PowerUp.new c.x c.y d.type] ∧
        (PowerUp.new c.x c.y d.type).position = c ∧
        (∃ k, k < 20 ∧ c = d.candidate k) ∧
        (∀ up ∈ r.players, up.2.crashed = false → 100 ≤ distance E up.2.position c) ∧
        (∀ pu ∈ r.powerUps, 80 ≤ distance E pu.position c)) ∧
    ((∀ k, k < 20 → r.validPosition E (d.candidate k) = false) →
      (r.spawnPowerUp E d).powerUps = r.powerUps) := by
  obtain ⟨h1, h2, h3⟩ := Round.placementLoop_spec E r d.candidate 20 0
  refine ⟨by simpa using h1, ?_, ?_⟩
  · simp only [Round.spawnPowerUp]
    split_ifs
    · exact Or.inl rfl
    · cases hl : (Round.placementLoop E r d.candidate 20 0).1 with
      | none => exact Or.inl rfl
      | some c =>
        right
        obtain ⟨hv, k, -, hk, hc⟩ := h2 c hl
        obtain ⟨v1, v2⟩ := (Round.validPosition_iff E r c).1 hv
        exact ⟨c, rfl, rfl, ⟨k, by simpa using hk, hc⟩, fun up hup hcr => (v1 up hup hcr).1, v2⟩
  · intro hall
    have := h3 (fun k _ hk => hall k (by simpa using hk))
    simp only [Round.spawnPowerUp]
    split_ifs
    · rfl
    · simp [this, Round.setTimeout]

/-- Witness of C9: in the example round, just started, every candidate of a
cycle lies at the head of the first player and is rejected; the list of live
power-ups stays empty. -/
theorem Round.spawnPowerUp_placement_witness :
    (∀ k, k < 20 → exampleRound.validPosition exampleEnv
      ((⟨fun _ => ⟨100, 568⟩, .SPEED, 4000⟩ : SpawnDraw).candidate k) = false) ∧
    (exampleRound.spawnPowerUp exampleEnv ⟨fun _ => ⟨100, 568⟩, .SPEED, 4000⟩).powerUps
      = exampleRound.powerUps :=
  have h : ∀ k, k < 20 → exampleRound.validPosition exampleEnv
      ((⟨fun _ => ⟨100, 568⟩, .SPEED, 4000⟩ : SpawnDraw).candidate k) = false :=
    fun _ _ => by
      show exampleRound.validPosition exampleEnv ⟨100, 568⟩ = false
      decide!
  ⟨h, (Round.spawnPowerUp_placement exampleEnv ⟨fun _ => ⟨100, 568⟩, .SPEED, 4000⟩
    exampleRound).2.2 h⟩

/-- A spawn cycle of a round that has not ended and holds fewer power-ups than
the maximum schedules the next cycle, with the delay drawn, whether or not it
placed a power-up. -/
theorem Round.spawnPowerUp_schedules (E : Env G) (d : SpawnDraw) (r : Round G)
    (he : r.ended = false) (hl : r.powerUps.length < r.maxPowerUps) :
    (r.spawnPowerUp E d).timers
      = r.timers ++ [⟨r.nextTimerId, r.now + d.delay, .spawnPowerUp⟩] ∧
    (r.spawnPowerUp E d).powerUpTimer = some r.nextTimerId := by
  have hg : ¬ ((r.ended || decide (r.powerUps.length ≥ r.maxPowerUps)) = true) := by
    simp [he, hl]
  simp only [Round.spawnPowerUp, hg, if_false]
  cases (Round.placementLoop E r d.candidate 20 0).1 <;> exact ⟨rfl, rfl⟩

/-- C10, the code at the failing input. In `fullRound` the round is active
(started, not ended), five power-ups are live and the spawn timer 6 is due.
When it fires, `spawnPowerUp` returns at its first line: no power-up is added
and no next cycle is scheduled, so that no spawn timer is pending any more. -/
theorem Round.spawn_cycle_dies_at_max :
    fullRound.started = true ∧ fullRound.ended = false ∧ fullRound.powerUps.length = 5 ∧
    fullRound.timers = [⟨6, 23000, .spawnPowerUp⟩] ∧ fullRound.now = 23000 ∧
    (fullRound.step exampleEnv (.fire 6 exampleDraw)).powerUps = fullRound.powerUps ∧
    (fullRound.step exampleEnv (.fire 6 exampleDraw)).timers = [] := by
  decide!

/-! ## Timed reversals -/

/-- C7, as the claim states it, fails. In `overlapRound` the first player
picked up a speed boost (speed 80 to 120, reversal to 80 at 11000 ms) and,
while it ran, a slow-down (speed 120 to 72, reversal to 120 at 12000 ms). Once
both reversals have fired and the effect records are pruned, no effect is
pending (the only timer left is the spawn timer), yet the speed is 120, not
the base value 80. -/
theorem Round.speed_after_overlap :
    (overlapRound.player? 0).map (fun p => (p.speed, p.activeEffects, p.crashed))
      = some (120, [], false) ∧
    overlapRound.timers = [⟨3, 13000, .spawnPowerUp⟩] ∧ overlapRound.now = 12000 := by
  decide!

theorem Round.pending_congr (r r2 : Round G) (T : Timer) (h : r.Pending T)
    (h1 : r2.timers = r.timers) (h2 : r2.nextTimerId = r.nextTimerId)
    (h3 : r2.powerUpTimer = r.powerUpTimer) : r2.Pending T := by
  simp only [Round.Pending, h1, h2, h3]
  exact h

theorem Round.pending_setTimeout (r : Round G) (T : Timer) (h : r.Pending T)
    (delay : Nat) (a : TimerAction) : (r.setTimeout delay a).1.Pending T := by
  obtain ⟨h1, h2, h3, h4⟩ := h
  refine ⟨?_, ?_, ?_, h4⟩
  · simp only [Round.setTimeout, List.map_append, List.map_cons, List.map_nil]
    rw [List.nodup_append]
    refine ⟨h1, by simp, ?_⟩
    intro a ha hb
    simp only [List.mem_map] at ha
    obtain ⟨t, ht, rfl⟩ := ha
    simp only [List.mem_singleton] at hb
    have := h2 t ht
    omega
  · intro t ht
    simp only [Round.setTimeout, List.mem_append, List.mem_singleton] at ht ⊢
    rcases ht with ht | rfl
    · have := h2 t ht; omega
    · simp
  · simp [Round.setTimeout, h3]

theorem Round.pending_setTimeout_stored (r : Round G) (T : Timer) (h : r.Pending T)
    (delay : Nat) (a : TimerAction) :
    Round.Pending { (r.setTimeout delay a).1 with powerUpTimer := some (r.setTimeout delay a).2 }
      T := by
  obtain ⟨g1, g2, g3, -⟩ := Round.pending_setTimeout r T h delay a
  refine ⟨g1, g2, g3, ?_⟩
  have := h.2.1 T h.2.2.1
  simp only [Round.setTimeout, ne_eq, Option.some.injEq]
  omega

theorem Round.pending_setTimeouts (r : Round G) (T : Timer) (h : r.Pending T)
    (l : List (Nat × TimerAction)) : (r.setTimeouts l).Pending T := by
  induction l generalizing r with
  | nil => exact h
  | cons a l ih =>
    obtain ⟨d, a⟩ := a
    exact ih _ (Round.pending_setTimeout r T h d a)

theorem Round.pending_filter (r : Round G) (T : Timer) (h : r.Pending T) (j : Nat)
    (hj : j ≠ T.id) :
    Round.Pending { r with timers := r.timers.filter (fun t => t.id ≠ j) } T := by
  obtain ⟨h1, h2, h3, h4⟩ := h
  refine ⟨?_, ?_, ?_, h4⟩
  · exact List.Nodup.sublist (List.Sublist.map _ (List.filter_sublist _)) h1
  · intro t ht
    exact h2 t (List.mem_of_mem_filter ht)
  · simp only [List.mem_filter, h3, true_and, decide_eq_true_eq]
    exact fun e => hj e.symm

theorem Round.pending_clear (r : Round G) (T : Timer) (h : r.Pending T) :
    Round.Pending (match r.powerUpTimer with
      | some id => { r.clearTimeout id with powerUpTimer := none }
      | none => r) T := by
  cases hT : r.powerUpTimer with
  | none => exact h
  | some id =>
    have hne : id ≠ T.id := by
      intro e
      exact h.2.2.2 (by rw [hT, e])
    obtain ⟨g1, g2, g3, -⟩ := Round.pending_filter r T h id hne
    exact ⟨g1, g2, g3, by simp⟩

theorem Round.pending_prepareToEnd (r : Round G) (T : Timer) (h : r.Pending T) :
    (r.prepareToEnd).Pending T := by
  simp only [Round.prepareToEnd]
  split_ifs
  · exact h
  · have h1 : Round.Pending ({ r with preparedToEnd := true } : Round G) T := h
    have h2 := Round.pending_clear _ T h1
    refine Round.pending_congr _ _ T h2 ?_ ?_ ?_ <;> cases r.powerUpTimer <;> rfl

theorem Round.pending_crashPlayer (r : Round G) (T : Timer) (h : r.Pending T) (i : Nat)
    (p : Player G) : (r.crashPlayer i p).Pending T := by
  have h1 : Round.Pending
      ((r.setPlayer i (p.crash ⟨p.position.x, p.position.y⟩)).emit (.crash i)) T := h
  simp only [Round.crashPlayer]
  split_ifs
  · exact Round.pending_prepareToEnd _ T h1
  · exact h1

theorem Round.pending_handleClearEffect (r : Round G) (T : Timer) (h : r.Pending T) :
    (r.handleClearEffect).Pending T := by
  simp only [Round.handleClearEffect]
  refine Round.pending_congr _ _ T (Round.pending_setTimeouts _ T ?_ _) rfl rfl rfl
  exact h

theorem Round.pending_collisionListener (E : Env G) (r : Round G) (T : Timer)
    (h : r.Pending T) (i : Nat) : (r.collisionListener E i).Pending T := by
  rcases Round.collisionListener_cases E r i with e | ⟨p, -, -, -, e⟩ | ⟨p, hp, hc, h1, h2⟩
  · rw [e]; exact h
  · rw [e]; exact Round.pending_crashPlayer r T h i p
  · obtain ⟨u, hu⟩ := Round.player?_some r i p hp
    simp only [Round.collisionListener, hu, hc, h1, h2, Bool.false_eq_true, if_false]
    cases hk : p.checkPowerUpCollisions E r.powerUps with
    | none => exact h
    | some pu =>
      simp only
      have g : Round.Pending ((r.setPlayer i (p.applyPowerUp r.now pu).player).setTimeouts
          (List.map (fun da => (da.1, TimerAction.player i da.2))
            (p.applyPowerUp r.now pu).timeouts)) T :=
        Round.pending_setTimeouts (r.setPlayer i (p.applyPowerUp r.now pu).player) T h _
      split_ifs
      · exact Round.pending_handleClearEffect _ T g
      · exact g

theorem Round.pending_updatePlayer (E : Env G) (r : Round G) (T : Timer) (h : r.Pending T)
    (i : Nat) (diff limit : ℚ) : (r.updatePlayer E i diff limit).Pending T := by
  simp only [Round.updatePlayer]
  cases hu : r.players[i]? with
  | none => exact h
  | some up =>
    simp only
    split_ifs
    · exact h
    · have g := Round.pending_collisionListener E
        (r.setPlayer i ((up.2.emit .preUpdate).bonusListener E limit)) T h i
      cases ((r.setPlayer i ((up.2.emit .preUpdate).bonusListener E limit)).collisionListener
        E i).players[i]? <;> exact g
    · cases (r.setPlayer i (up.2.emit .preUpdate)).players[i]? <;> exact h

theorem Round.pending_spawnPowerUp (E : Env G) (d : SpawnDraw) (r : Round G) (T : Timer)
    (h : r.Pending T) : (r.spawnPowerUp E d).Pending T := by
  simp only [Round.spawnPowerUp]
  split_ifs
  · exact h
  · cases (Round.placementLoop E r d.candidate 20 0).1 with
    | none => exact Round.pending_setTimeout_stored r T h d.delay .spawnPowerUp
    | some c =>
      exact Round.pending_setTimeout_stored
        ({ r with powerUps := r.powerUps ++ [PowerUp.new c.x c.y d.type] }) T h
        d.delay .spawnPowerUp

theorem Round.pending_end (r : Round G) (T : Timer) (h : r.Pending T) :
    (Round.end r).Pending T := by
  simp only [Round.end]
  split_ifs
  · exact h
  · have h2 := Round.pending_clear r T h
    refine Round.pending_congr _ _ T h2 ?_ ?_ ?_ <;> cases r.powerUpTimer <;> rfl

theorem Round.pending_runTimer (E : Env G) (d : SpawnDraw) (r : Round G) (T : Timer)
    (h : r.Pending T) (a : TimerAction) : (Round.runTimer E d r a).Pending T := by
  cases a with
  | startGame =>
    simp only [Round.runTimer, Round.startGame]
    exact Round.pending_spawnPowerUp E d
      ({ r with players := r.players.map (fun up => (up.1, { up.2 with stop := false })) }) T h
  | spawnPowerUp => exact Round.pending_spawnPowerUp E d r T h
  | player i a =>
    simp only [Round.runTimer]
    cases r.players[i]? <;> exact h

/-- A pending timer stays pending through every event other than its firing. -/
theorem Round.pending_step (E : Env G) (r : Round G) (T : Timer) (h : r.Pending T)
    (e : Event) (he : e.fires T.id = false) : (r.step E e).Pending T := by
  cases e with
  | start =>
    simp only [Round.step, Round.start]
    split_ifs
    · exact h
    · exact Round.pending_setTimeout
        ({ r with started := true, renderer := r.renderer ++ [.msgBox] }) T h 3000 .startGame
  | clock ms => exact h
  | fire id d =>
    have hid : id ≠ T.id := by simpa [Event.fires] using he
    simp only [Round.step, Round.fire]
    cases r.timers.find? (fun t => t.id = id) with
    | none => exact h
    | some t =>
      simp only
      split_ifs
      · exact Round.pending_runTimer E d _ T (Round.pending_filter r T h id hid) t.action
      · exact h
  | input i dir =>
    simp only [Round.step, Round.input]
    cases hu : r.players[i]? with
    | none => exact h
    | some up =>
      simp only
      split_ifs <;> exact h
  | draw i diff limit =>
    simp only [Round.step]
    split_ifs
    · exact Round.pending_updatePlayer E r T h i diff limit
    · exact h
  | keydown32 =>
    simp only [Round.step, Round.continue]
    split_ifs
    · exact Round.pending_end { r with continueArmed := false } T h
    · exact h
  | endRound => exact Round.pending_end r T h

theorem Round.pending_run (E : Env G) (T : Timer) (es : List Event)
    (hes : ∀ e ∈ es, e.fires T.id = false) (r : Round G) (h : r.Pending T) :
    (r.run E es).Pending T := by
  induction es generalizing r with
  | nil => exact h
  | cons e es ih =>
    exact ih (fun e2 he2 => hes e2 (List.mem_cons_of_mem _ he2)) (r.step E e)
      (Round.pending_step E r T h e (hes e (List.mem_cons_self _ _)))

theorem Round.prepareToEnd_players_length (r : Round G) :
    (r.prepareToEnd).players.length = r.players.length := by
  simp only [Round.prepareToEnd]
  split_ifs
  · rfl
  · cases r.powerUpTimer <;> simp [Round.emit, Round.clearTimeout]

theorem Round.collisionListener_players_length (E : Env G) (r : Round G) (i : Nat) :
    (r.collisionListener E i).players.length = r.players.length := by
  rcases Round.collisionListener_cases E r i with e | ⟨p, -, -, -, e⟩ | ⟨p, hp, hc, h1, h2⟩
  · rw [e]
  · rw [e]
    simp only [Round.crashPlayer]
    split_ifs
    · rw [Round.prepareToEnd_players_length]; simp [Round.emit, Round.setPlayer]
    · simp [Round.emit, Round.setPlayer]
  · obtain ⟨u, hu⟩ := Round.player?_some r i p hp
    simp only [Round.collisionListener, hu, hc, h1, h2, Bool.false_eq_true, if_false]
    cases hk : p.checkPowerUpCollisions E r.powerUps with
    | none => rfl
    | some pu =>
      simp only
      have g := (Round.setTimeouts_frame (r.setPlayer i (p.applyPowerUp r.now pu).player)
        (List.map (fun da => (da.1, TimerAction.player i da.2))
          (p.applyPowerUp r.now pu).timeouts)).1
      split_ifs
      · rw [(Round.handleClearEffect_frame _).1, List.length_map, g]
        simp [Round.setPlayer]
      · rw [g]; simp [Round.setPlayer]

theorem Round.updatePlayer_players_length (E : Env G) (i : Nat) (diff limit : ℚ)
    (r : Round G) : (r.updatePlayer E i diff limit).players.length = r.players.length := by
  simp only [Round.updatePlayer]
  cases hu : r.players[i]? with
  | none => rfl
  | some up =>
    simp only
    split_ifs
    · rfl
    · have g := Round.collisionListener_players_length E
        (r.setPlayer i ((up.2.emit .preUpdate).bonusListener E limit)) i
      have g2 : (r.setPlayer i ((up.2.emit .preUpdate).bonusListener E limit)).players.length
          = r.players.length := by simp [Round.setPlayer]
      cases ((r.setPlayer i ((up.2.emit .preUpdate).bonusListener E limit)).collisionListener
          E i).players[i]? with
      | none => exact g.trans g2
      | some uq =>
        show (List.modify _ i _).length = _
        rw [List.length_modify]
        exact g.trans g2
    · cases (r.setPlayer i (up.2.emit .preUpdate)).players[i]? <;> simp [Round.setPlayer]

theorem Round.end_players_length (r : Round G) :
    (Round.end r).players.length = r.players.length := by
  simp only [Round.end]
  split_ifs
  · rfl
  · cases r.powerUpTimer <;> simp [Round.emit, Round.clearTimeout]

theorem Round.step_players_length (E : Env G) (r : Round G) (e : Event) :
    (r.step E e).players.length = r.players.length := by
  cases e with
  | start =>
    simp only [Round.step, Round.start]
    split_ifs <;> rfl
  | clock ms => rfl
  | fire id d =>
    simp only [Round.step, Round.fire]
    cases r.timers.find? (fun t => t.id = id) with
    | none => rfl
    | some t =>
      simp only
      split_ifs
      · cases t.action with
        | startGame =>
          simp only [Round.runTimer, Round.startGame, Round.emit]
          rw [(Round.spawnPowerUp_frame E d _).1]
          simp
        | spawnPowerUp =>
          simp only [Round.runTimer]
          rw [(Round.spawnPowerUp_frame E d _).1]
        | player i a =>
          simp only [Round.runTimer]
          cases r.players[i]? <;> simp [Round.setPlayer]
      · rfl
  | input i dir =>
    simp only [Round.step, Round.input]
    cases hu : r.players[i]? with
    | none => rfl
    | some up =>
      simp only
      split_ifs <;> simp [Round.setPlayer]
  | draw i diff limit =>
    simp only [Round.step]
    split_ifs
    · exact Round.updatePlayer_players_length E i diff limit r
    · rfl
  | keydown32 =>
    simp only [Round.step, Round.continue]
    split_ifs
    · exact Round.end_players_length { r with continueArmed := false }
    · rfl
  | endRound => exact Round.end_players_length r

theorem Round.run_players_length (E : Env G) (r : Round G) (es : List Event) :
    (r.run E es).players.length = r.players.length :=
  Round.run_induction E (fun r2 => r2.players.length = r.players.length)
    (fun r2 e ih => (Round.step_players_length E r2 e).trans ih) r es rfl

theorem find?_of_nodup (l : List Timer) (T : Timer) (hn : (l.map Timer.id).Nodup)
    (hT : T ∈ l) : l.find? (fun t => t.id = T.id) = some T := by
  induction l with
  | nil => simp at hT
  | cons a l ih =>
    simp only [List.map_cons, List.nodup_cons] at hn
    rcases List.mem_cons.1 hT with rfl | hm
    · simp
    · have hne : a.id ≠ T.id := by
        intro e
        exact hn.1 (by rw [e]; exact List.mem_map_of_mem _ hm)
      simp only [List.find?_cons, hne, decide_False]
      exact ih hn.2 hm

/-- Firing a pending reversal of the speed: nothing happens before it is due;
from then on the player gets the stored speed. -/
theorem Round.pending_fire_restoreSpeed (E : Env G) (r : Round G) (k due i : Nat) (v : ℚ)
    (d : SpawnDraw) (h : r.Pending ⟨k, due, .player i (.restoreSpeed v)⟩)
    (hi : i < r.players.length) :
    (r.now < due → r.step E (.fire k d) = r) ∧
    (due ≤ r.now → ((r.step E (.fire k d)).player? i).map (fun q => q.speed) = some v) := by
  have hf := find?_of_nodup r.timers ⟨k, due, .player i (.restoreSpeed v)⟩ h.1 h.2.2.1
  simp only at hf
  simp only [Round.step, Round.fire, hf]
  refine ⟨fun hlt => ?_, fun hle => ?_⟩
  · rw [if_neg (by omega)]
  · rw [if_pos hle]
    simp only [Round.runTimer]
    cases hu : r.players[i]? with
    | none =>
      have := List.getElem?_eq_none_iff.1 hu
      omega
    | some up =>
      simp only
      rw [Round.player?_setPlayer]
      simp [Round.player?, hu, PlayerTimeout.run]

theorem Round.timersOk_pending_new (r : Round G) (h : r.TimersOk) (delay : Nat)
    (a : TimerAction) :
    (r.setTimeout delay a).1.Pending ⟨r.nextTimerId, r.now + delay, a⟩ := by
  obtain ⟨h1, h2, h3⟩ := h
  refine ⟨?_, ?_, ?_, ?_⟩
  · simp only [Round.setTimeout, List.map_append, List.map_cons, List.map_nil]
    rw [List.nodup_append]
    refine ⟨h1, by simp, ?_⟩
    intro a ha hb
    simp only [List.mem_map] at ha
    obtain ⟨t, ht, rfl⟩ := ha
    simp only [List.mem_singleton] at hb
    have := h2 t ht
    omega
  · intro t ht
    simp only [Round.setTimeout, List.mem_append, List.mem_singleton] at ht ⊢
    rcases ht with ht | rfl
    · have := h2 t ht; omega
    · simp
  · simp [Round.setTimeout]
  · intro e
    have := h3 r.nextTimerId (by simpa [Round.setTimeout] using e)
    omega

/-- C6. When the collision check of a player that is not crashed reaches the
pickup step and finds a speed boost, the speed of the player becomes 1.5 times
its value `s`, and a reversal to `s` is pending, due `duration` (5000 ms for a
power-up the engine created) after the pickup. Through every sequence of
other events (pickups, expiries of other effects, ticks, the end of the
round) the reversal stays pending; firing it does nothing before it is due
and sets the speed to exactly `s` from then on. -/
theorem Round.speed_boost_restored (E : Env G) (r : Round G) (i : Nat) (p : Player G)
    (pu : PowerUp) (es : List Event) (d : SpawnDraw)
    (hok : r.TimersOk) (hp : r.player? i = some p) (hc : p.crashed = false)
    (hno : (r.isOutOfMap p && !p.immune) = false)
    (hnt : (!p.immune && r.players.enum.any (fun jp =>
        E.interfere jp.2.2.curve p.position (p.curve.weight / 2) (jp.1 == i))) = false)
    (hpu : p.checkPowerUpCollisions E r.powerUps = some pu) (ht : pu.type = .SPEED)
    (hes : ∀ e ∈ es, e.fires r.nextTimerId = false) :
    ((r.collisionListener E i).player? i).map (fun q => q.speed) = some (p.speed * 1.5) ∧
    (∀ x y, (PowerUp.new x y .SPEED).duration = 5000) ∧
    (⟨r.nextTimerId, r.now + pu.duration, .player i (.restoreSpeed p.speed)⟩ : Timer)
      ∈ (r.collisionListener E i).timers ∧
    (⟨r.nextTimerId, r.now + pu.duration, .player i (.restoreSpeed p.speed)⟩ : Timer)
      ∈ ((r.collisionListener E i).run E es).timers ∧
    (((r.collisionListener E i).run E es).now < r.now + pu.duration →
      ((r.collisionListener E i).run E es).step E (.fire r.nextTimerId d)
        = (r.collisionListener E i).run E es) ∧
    (r.now + pu.duration ≤ ((r.collisionListener E i).run E es).now →
      ((((r.collisionListener E i).run E es).step E (.fire r.nextTimerId d)).player? i).map
        (fun q => q.speed) = some p.speed) := by
  obtain ⟨u, hu⟩ := Round.player?_some r i p hp
  have hto : (p.applyPowerUp r.now pu).timeouts
      = [(pu.duration, .restoreSpeed p.speed), (1000, .glowOff)] := by
    simp [Player.applyPowerUp, PowerUp.applyEffect, ht]
  have hsp : (p.applyPowerUp r.now pu).player.speed = p.speed * 1.5 := by
    simp [Player.applyPowerUp, PowerUp.applyEffect, ht, Player.emit]
  have hne : ¬ pu.type = .CLEAR := by rw [ht]; decide
  have e1 : r.collisionListener E i =
      { (r.setPlayer i (p.applyPowerUp r.now pu).player).setTimeouts
          [(pu.duration, .player i (.restoreSpeed p.speed)), (1000, .player i .glowOff)] with
        powerUps := r.powerUps.eraseIdx (r.powerUps.findIdx (p.touches E)) } := by
    simp only [Round.collisionListener, hu, hc, hno, hnt, hpu, Bool.false_eq_true, if_false,
      hne, hto, List.map_cons, List.map_nil]
    have g := (Round.setTimeouts_frame (r.setPlayer i (p.applyPowerUp r.now pu).player)
      [(pu.duration, .player i (.restoreSpeed p.speed)), (1000, .player i .glowOff)]).2.2.1
    rw [g]
    rfl
  have hpend : (r.collisionListener E i).Pending
      ⟨r.nextTimerId, r.now + pu.duration, .player i (.restoreSpeed p.speed)⟩ := by
    rw [e1]
    have hok2 : (r.setPlayer i (p.applyPowerUp r.now pu).player).TimersOk := hok
    have q1 := Round.timersOk_pending_new _ hok2 pu.duration (.player i (.restoreSpeed p.speed))
    exact Round.pending_setTimeout _ _ q1 1000 (.player i .glowOff)
  have hlen : i < r.players.length := by
    rcases Nat.lt_or_ge i r.players.length with h | h
    · exact h
    · rw [List.getElem?_eq_none_iff.2 h] at hu; cases hu
  have hrun := Round.pending_run E _ es hes _ hpend
  have hlen2 : i < ((r.collisionListener E i).run E es).players.length := by
    rw [Round.run_players_length, Round.collisionListener_players_length]; exact hlen
  have hfire := Round.pending_fire_restoreSpeed E _ r.nextTimerId (r.now + pu.duration) i
    p.speed d hrun hlen2
  refine ⟨?_, fun _ _ => rfl, hpend.2.2.1, hrun.2.2.1, hfire.1, hfire.2⟩
  rw [e1]
  have g := (Round.setTimeouts_frame (r.setPlayer i (p.applyPowerUp r.now pu).player)
    [(pu.duration, .player i (.restoreSpeed p.speed)), (1000, .player i .glowOff)]).1
  have := Round.player?_setPlayer r i i (p.applyPowerUp r.now pu).player
  simp only [if_true, hp, Option.map_some'] at this
  simp only [Round.player?] at this ⊢
  rw [g, this]
  simp [hsp]

/-- Witness of C6: in `boostRound` the first player, of speed 80, stands on a
speed boost. The pickup makes its speed 120 and schedules the reversal as
timer 4, due at 11000 ms. The player then picks up a slow-down (speed 72) and
other timers fire; when timer 4 fires at 11000 ms the speed is 80 again. -/
theorem Round.speed_boost_restored_witness :
    boostRound.player? 0 = some boostPlayer ∧ boostPlayer.speed = 80 ∧
    boostRound.nextTimerId = 4 ∧ boostRound.now = 6000 ∧
    ((boostRound.collisionListener exampleEnv 0).player? 0).map (fun q => q.speed)
      = some 120 ∧
    (((boostRound.collisionListener exampleEnv 0).run exampleEnv boostInterleaving).player?
      0).map (fun q => q.speed) = some 72 ∧
    ((boostRound.collisionListener exampleEnv 0).run exampleEnv boostInterleaving).now
      = 11000 ∧
    ((((boostRound.collisionListener exampleEnv 0).run exampleEnv boostInterleaving).step
      exampleEnv (.fire 4 exampleDraw)).player? 0).map (fun q => q.speed) = some 80 := by
  have hp : boostRound.player? 0 = some boostPlayer := by decide!
  have hs : boostPlayer.speed = 80 := by decide!
  have hn : boostRound.nextTimerId = 4 := by decide!
  have h := Round.speed_boost_restored exampleEnv boostRound 0 boostPlayer
    (PowerUp.new 100 300 .SPEED) boostInterleaving exampleDraw
    ⟨by decide!, by decide!, by decide!⟩ hp (by decide!) (by decide!) (by decide!)
    (by decide!) rfl (by decide!)
  rw [hn, hs] at h
  refine ⟨hp, hs, hn, by decide!, ?_, by decide!, by decide!, h.2.2.2.2.2 (by decide!)⟩
  rw [h.1]
  norm_num

/-! ## Base values of speed and trail weight -/

theorem Round.timersWf_congr (r r2 : Round G) (h : r.TimersWf)
    (h1 : r2.timers = r.timers) (h2 : r2.nextTimerId = r.nextTimerId)
    (h3 : r2.powerUpTimer = r.powerUpTimer) : r2.TimersWf := by
  simp only [Round.TimersWf, Round.TimersOk, h1, h2, h3]
  exact h

theorem Round.timersWf_setTimeout (r : Round G) (h : r.TimersWf) (delay : Nat)
    (a : TimerAction) : (r.setTimeout delay a).1.TimersWf := by
  obtain ⟨⟨h1, h2, h3⟩, h4⟩ := h
  refine ⟨⟨?_, ?_, ?_⟩, ?_⟩
  · simp only [Round.setTimeout, List.map_append, List.map_cons, List.map_nil]
    rw [List.nodup_append]
    refine ⟨h1, by simp, ?_⟩
    intro a ha hb
    simp only [List.mem_map] at ha
    obtain ⟨t, ht, rfl⟩ := ha
    simp only [List.mem_singleton] at hb
    have := h2 t ht
    omega
  · intro t ht
    simp only [Round.setTimeout, List.mem_append, List.mem_singleton] at ht ⊢
    rcases ht with ht | rfl
    · have := h2 t ht; omega
    · simp
  · intro id hid
    have := h3 id hid
    simp only [Round.setTimeout]
    omega
  · intro t ht hp
    simp only [Round.setTimeout, List.mem_append, List.mem_singleton] at ht hp
    rcases ht with ht | rfl
    · exact h4 t ht hp
    · have := h3 r.nextTimerId hp
      omega

theorem Round.timersWf_setTimeout_stored (r : Round G) (h : r.TimersWf) (delay : Nat) :
    Round.TimersWf
      { (r.setTimeout delay .spawnPowerUp).1 with
        powerUpTimer := some (r.setTimeout delay .spawnPowerUp).2 } := by
  obtain ⟨⟨g1, g2, -⟩, -⟩ := Round.timersWf_setTimeout r h delay .spawnPowerUp
  refine ⟨⟨g1, g2, ?_⟩, ?_⟩
  · intro id hid
    simp only [Round.setTimeout, Option.mem_def, Option.some.injEq] at hid ⊢
    omega
  · intro t ht hp
    simp only [Round.setTimeout, List.mem_append, List.mem_singleton, Option.some.injEq]
      at ht hp
    rcases ht with ht | rfl
    · have := h.1.2.1 t ht
      omega
    · rfl

theorem Round.timersWf_setTimeouts (r : Round G) (h : r.TimersWf)
    (l : List (Nat × TimerAction)) : (r.setTimeouts l).TimersWf := by
  induction l generalizing r with
  | nil => exact h
  | cons a l ih =>
    obtain ⟨d, a⟩ := a
    exact ih _ (Round.timersWf_setTimeout r h d a)

theorem Round.timersWf_filter (r : Round G) (h : r.TimersWf) (j : Nat) :
    Round.TimersWf { r with timers := r.timers.filter (fun t => t.id ≠ j) } := by
  obtain ⟨⟨h1, h2, h3⟩, h4⟩ := h
  refine ⟨⟨?_, ?_, h3⟩, ?_⟩
  · exact List.Nodup.sublist (List.Sublist.map _ (List.filter_sublist _)) h1
  · intro t ht
    exact h2 t (List.mem_of_mem_filter ht)
  · intro t ht hp
    exact h4 t (List.mem_of_mem_filter ht) hp

theorem Round.timersWf_clear (r : Round G) (h : r.TimersWf) :
    Round.TimersWf (match r.powerUpTimer with
      | some id => { r.clearTimeout id with powerUpTimer := none }
      | none => r) := by
  cases hT : r.powerUpTimer with
  | none => exact h
  | some id =>
    obtain ⟨⟨g1, g2, -⟩, -⟩ := Round.timersWf_filter r h id
    exact ⟨⟨g1, g2, by simp⟩, by simp⟩

theorem Round.timersWf_prepareToEnd (r : Round G) (h : r.TimersWf) :
    (r.prepareToEnd).TimersWf := by
  simp only [Round.prepareToEnd]
  split_ifs
  · exact h
  · have h1 : Round.TimersWf ({ r with preparedToEnd := true } : Round G) := h
    have h2 := Round.timersWf_clear _ h1
    refine Round.timersWf_congr _ _ h2 ?_ ?_ ?_ <;> cases r.powerUpTimer <;> rfl

theorem Round.timersWf_crashPlayer (r : Round G) (h : r.TimersWf) (i : Nat)
    (p : Player G) : (r.crashPlayer i p).TimersWf := by
  have h1 : Round.TimersWf
      ((r.setPlayer i (p.crash ⟨p.position.x, p.position.y⟩)).emit (.crash i)) := h
  simp only [Round.crashPlayer]
  split_ifs
  · exact Round.timersWf_prepareToEnd _ h1
  · exact h1

theorem Round.timersWf_handleClearEffect (r : Round G) (h : r.TimersWf) :
    (r.handleClearEffect).TimersWf := by
  simp only [Round.handleClearEffect]
  refine Round.timersWf_congr _ _ (Round.timersWf_setTimeouts _ ?_ _) rfl rfl rfl
  exact h

theorem Round.timersWf_collisionListener (E : Env G) (r : Round G) (h : r.TimersWf)
    (i : Nat) : (r.collisionListener E i).TimersWf := by
  rcases Round.collisionListener_cases E r i with e | ⟨p, -, -, -, e⟩ | ⟨p, hp, hc, h1, h2⟩
  · rw [e]; exact h
  · rw [e]; exact Round.timersWf_crashPlayer r h i p
  · obtain ⟨u, hu⟩ := Round.player?_some r i p hp
    simp only [Round.collisionListener, hu, hc, h1, h2, Bool.false_eq_true, if_false]
    cases hk : p.checkPowerUpCollisions E r.powerUps with
    | none => exact h
    | some pu =>
      simp only
      have g : Round.TimersWf ((r.setPlayer i (p.applyPowerUp r.now pu).player).setTimeouts
          (List.map (fun da => (da.1, TimerAction.player i da.2))
            (p.applyPowerUp r.now pu).timeouts)) :=
        Round.timersWf_setTimeouts (r.setPlayer i (p.applyPowerUp r.now pu).player) h _
      split_ifs
      · exact Round.timersWf_handleClearEffect _ g
      · exact g

theorem Round.timersWf_updatePlayer (E : Env G) (r : Round G) (h : r.TimersWf)
    (i : Nat) (diff limit : ℚ) : (r.updatePlayer E i diff limit).TimersWf := by
  simp only [Round.updatePlayer]
  cases hu : r.players[i]? with
  | none => exact h
  | some up =>
    simp only
    split_ifs
    · exact h
    · have g := Round.timersWf_collisionListener E
        (r.setPlayer i ((up.2.emit .preUpdate).bonusListener E limit)) h i
      cases ((r.setPlayer i ((up.2.emit .preUpdate).bonusListener E limit)).collisionListener
        E i).players[i]? <;> exact g
    · cases (r.setPlayer i (up.2.emit .preUpdate)).players[i]? <;> exact h

theorem Round.timersWf_spawnPowerUp (E : Env G) (d : SpawnDraw) (r : Round G)
    (h : r.TimersWf) : (r.spawnPowerUp E d).TimersWf := by
  simp only [Round.spawnPowerUp]
  split_ifs
  · exact h
  · cases (Round.placementLoop E r d.candidate 20 0).1 with
    | none => exact Round.timersWf_setTimeout_stored r h d.delay
    | some c =>
      exact Round.timersWf_setTimeout_stored
        ({ r with powerUps := r.powerUps ++ [PowerUp.new c.x c.y d.type] }) h d.delay

theorem Round.timersWf_end (r : Round G) (h : r.TimersWf) : (Round.end r).TimersWf := by
  simp only [Round.end]
  split_ifs
  · exact h
  · have h2 := Round.timersWf_clear r h
    refine Round.timersWf_congr _ _ h2 ?_ ?_ ?_ <;> cases r.powerUpTimer <;> rfl

theorem Round.timersWf_runTimer (E : Env G) (d : SpawnDraw) (r : Round G)
    (h : r.TimersWf) (a : TimerAction) : (Round.runTimer E d r a).TimersWf := by
  cases a with
  | startGame =>
    simp only [Round.runTimer, Round.startGame]
    exact Round.timersWf_spawnPowerUp E d
      ({ r with players := r.players.map (fun up => (up.1, { up.2 with stop := false })) }) h
  | spawnPowerUp => exact Round.timersWf_spawnPowerUp E d r h
  | player i a =>
    simp only [Round.runTimer]
    cases r.players[i]? <;> exact h

theorem Round.timersWf_step (E : Env G) (r : Round G) (h : r.TimersWf) (e : Event) :
    (r.step E e).TimersWf := by
  cases e with
  | start =>
    simp only [Round.step, Round.start]
    split_ifs
    · exact h
    · exact Round.timersWf_setTimeout
        ({ r with started := true, renderer := r.renderer ++ [.msgBox] }) h 3000 .startGame
  | clock ms => exact h
  | fire id d =>
    simp only [Round.step, Round.fire]
    cases r.timers.find? (fun t => t.id = id) with
    | none => exact h
    | some t =>
      simp only
      split_ifs
      · exact Round.timersWf_runTimer E d _ (Round.timersWf_filter r h id) t.action
      · exact h
  | input i dir =>
    simp only [Round.step, Round.input]
    cases hu : r.players[i]? with
    | none => exact h
    | some up =>
      simp only
      split_ifs <;> exact h
  | draw i diff limit =>
    simp only [Round.step]
    split_ifs
    · exact Round.timersWf_updatePlayer E r h i diff limit
    · exact h
  | keydown32 =>
    simp only [Round.step, Round.continue]
    split_ifs
    · exact Round.timersWf_end { r with continueArmed := false } h
    · exact h
  | endRound => exact Round.timersWf_end r h

theorem Player.bonusListener_attr (E : Env G) (a : Attribute)
    (hE : a = .weight → E.KeepsWeight) (limit : ℚ) (p : Player G) :
    (p.bonusListener E limit).attr a = p.attr a := by
  cases a with
  | speed => exact (Player.bonusListener_frame E limit p).2.2.2.1
  | weight =>
    have hw := (hE rfl).2.1
    simp only [Player.bonusListener, Player.attr]
    split_ifs <;> simp [hw]

theorem Player.updateBody_attr (E : Env G) (a : Attribute)
    (hE : a = .weight → E.KeepsWeight) (now : Nat) (diff : ℚ) (p : Player G) :
    (Player.updateBody E now diff p).attr a = p.attr a := by
  cases a with
  | speed => exact (Player.updateBody_frame E now diff p).2.2.2.2.1
  | weight =>
    have hw := (hE rfl).1
    have := (Player.updateBody_frame E now diff p).2.2.2.2.2.2
    simp only [Player.attr]
    rw [this]
    split_ifs
    · exact hw _ _
    · rfl

theorem PlayerTimeout.run_attr (E : Env G) (a : Attribute)
    (hE : a = .weight → E.KeepsWeight) (c : PlayerTimeout) (p : Player G) :
    (c.run E p).attr a = (c.restores a).getD (p.attr a) := by
  cases a with
  | speed =>
    cases c <;> simp only [PlayerTimeout.run, PlayerTimeout.restores, Player.attr] <;>
      first
        | rfl
        | (split_ifs <;> rfl)
  | weight =>
    have hw := (hE rfl).2.1
    cases c <;> simp only [PlayerTimeout.run, PlayerTimeout.restores, Player.attr] <;>
      first
        | rfl
        | exact hw _
        | (split_ifs <;> rfl)

theorem Player.applyPowerUp_attr (a : Attribute) (now : Nat) (pu : PowerUp) (p : Player G) :
    ((∀ x ∈ (p.applyPowerUp now pu).timeouts, x.2.restores a = none) ∧
      (p.applyPowerUp now pu).player.attr a = p.attr a) ∨
    (∃ d c rest, (p.applyPowerUp now pu).timeouts = (d, c) :: rest ∧
      c.restores a = some (p.attr a) ∧ ∀ x ∈ rest, x.2.restores a = none) := by
  cases a <;> cases ht : pu.type <;>
    first
      | (left
         simp [Player.applyPowerUp, PowerUp.applyEffect, ht, Player.emit, Player.attr,
           PlayerTimeout.restores]
         done)
      | (right
         refine ⟨pu.duration, .restoreSpeed p.speed, [(1000, .glowOff)], ?_, ?_, ?_⟩ <;>
           simp [Player.applyPowerUp, PowerUp.applyEffect, ht, PlayerTimeout.restores,
             Player.attr]
         done)
      | (right
         refine ⟨pu.duration, .restoreWeight p.curve.weight, [(1000, .glowOff)], ?_, ?_, ?_⟩ <;>
           simp [Player.applyPowerUp, PowerUp.applyEffect, ht, PlayerTimeout.restores,
             Player.attr])

theorem Round.attr?_setPlayer (r : Round G) (a : Attribute) (i j : Nat) (q : Player G) :
    (r.setPlayer j q).attr? a i
      = if j = i then (r.attr? a i).map (fun _ => q.attr a) else r.attr? a i := by
  simp only [Round.attr?, Round.player?_setPlayer]
  split_ifs
  · cases r.player? i <;> rfl
  · rfl

theorem Round.attr?_players_map (r r2 : Round G) (a : Attribute) (i : Nat)
    (g : User × Player G → User × Player G) (hg : ∀ up, (g up).2.attr a = up.2.attr a)
    (h2 : r2.players = r.players.map g) : r2.attr? a i = r.attr? a i := by
  simp only [Round.attr?, Round.player?, h2, List.getElem?_map]
  cases r.players[i]? <;> simp [hg]

theorem Round.reversals_setTimeout (r : Round G) (a : Attribute) (i : Nat) (delay : Nat)
    (act : TimerAction) :
    (r.setTimeout delay act).1.reversals a i
      = r.reversals a i ++
        (if Timer.reverses a i ⟨r.nextTimerId, r.now + delay, act⟩
          then [⟨r.nextTimerId, r.now + delay, act⟩] else []) := by
  simp only [Round.reversals, Round.setTimeout, List.filter_append, List.filter_cons,
    List.filter_nil]

theorem Round.reversals_setTimeout_none (r : Round G) (a : Attribute) (i : Nat) (delay : Nat)
    (act : TimerAction) (h : ∀ id due, Timer.reverses a i ⟨id, due, act⟩ = false) :
    (r.setTimeout delay act).1.reversals a i = r.reversals a i := by
  rw [Round.reversals_setTimeout, h]
  simp

theorem Round.reversals_setTimeouts_none (r : Round G) (a : Attribute) (i : Nat)
    (l : List (Nat × TimerAction))
    (h : ∀ x ∈ l, ∀ id due, Timer.reverses a i ⟨id, due, x.2⟩ = false) :
    (r.setTimeouts l).reversals a i = r.reversals a i := by
  induction l generalizing r with
  | nil => rfl
  | cons x l ih =>
    obtain ⟨d, act⟩ := x
    simp only [Round.setTimeouts]
    rw [ih _ (fun y hy => h y (List.mem_cons_of_mem _ hy)),
      Round.reversals_setTimeout_none r a i d act (h (d, act) (List.mem_cons_self _ _))]

theorem Round.reversals_filter_id (r : Round G) (a : Attribute) (i k : Nat)
    (h : ∀ t ∈ r.timers, t.id = k → Timer.reverses a i t = false) :
    Round.reversals ({ r with timers := r.timers.filter (fun t => t.id ≠ k) } : Round G) a i
      = r.reversals a i := by
  simp only [Round.reversals, List.filter_filter]
  apply List.filter_congr
  intro t ht
  by_cases hk : t.id = k
  · simp [h t ht hk]
  · simp [hk]

theorem Round.reversals_filter_sub (r : Round G) (a : Attribute) (i k : Nat) :
    ∀ x ∈ Round.reversals ({ r with timers := r.timers.filter (fun t => t.id ≠ k) } : Round G)
      a i, x ∈ r.reversals a i := by
  intro x hx
  simp only [Round.reversals, List.mem_filter] at hx ⊢
  exact ⟨hx.1.1, hx.2⟩

theorem Round.attrSame_refl (a : Attribute) (i : Nat) (r : Round G) : Round.AttrSame a i r r :=
  ⟨rfl, rfl⟩

theorem Round.attrSame_trans (a : Attribute) (i : Nat) (r r1 r2 : Round G)
    (h1 : Round.AttrSame a i r r1) (h2 : Round.AttrSame a i r1 r2) : Round.AttrSame a i r r2 :=
  ⟨h2.1.trans h1.1, h2.2.trans h1.2⟩

theorem Round.attrStep_same_left (a : Attribute) (i : Nat) (r r1 r2 : Round G)
    (h1 : Round.AttrSame a i r r1) (h2 : Round.AttrStep a i r1 r2) : Round.AttrStep a i r r2 := by
  simp only [Round.AttrStep, Round.AttrSame] at h1 h2 ⊢
  rw [h1.1, h1.2] at h2
  exact h2

theorem Round.attrStep_same_right (a : Attribute) (i : Nat) (r r1 r2 : Round G)
    (h1 : Round.AttrStep a i r r1) (h2 : Round.AttrSame a i r1 r2) : Round.AttrStep a i r r2 := by
  simp only [Round.AttrStep, Round.AttrSame] at h1 h2 ⊢
  rw [h2.1, h2.2]
  exact h1

theorem Round.attrSame_setPlayer (a : Attribute) (i : Nat) (r : Round G) (j : Nat)
    (q : Player G) (h : j = i → ∀ p, r.player? i = some p → q.attr a = p.attr a) :
    Round.AttrSame a i r (r.setPlayer j q) := by
  refine ⟨rfl, ?_⟩
  rw [Round.attr?_setPlayer]
  split_ifs with hj
  · simp only [Round.attr?]
    cases hp : r.player? i with
    | none => rfl
    | some p => simp [h hj p hp]
  · rfl

theorem Round.attrSame_prepareToEnd (a : Attribute) (i : Nat) (r : Round G) (hw : r.TimersWf) :
    Round.AttrSame a i r r.prepareToEnd := by
  simp only [Round.prepareToEnd]
  split_ifs
  · exact Round.attrSame_refl a i r
  · refine ⟨?_, ?_⟩
    · cases hT : r.powerUpTimer with
      | none => rfl
      | some id =>
        have := Round.reversals_filter_id r a i id (fun t ht hid => by
          have := hw.2 t ht (by rw [hT, hid])
          simp [Timer.reverses, this])
        simpa [Round.reversals, Round.emit, Round.clearTimeout] using this
    · apply Round.attr?_players_map r _ a i (fun up => (up.1, { up.2 with stop := true }))
        (fun up => by cases a <;> rfl)
      cases r.powerUpTimer <;> simp [Round.emit, Round.clearTimeout]

theorem Round.attrSame_crashPlayer (a : Attribute) (i : Nat) (r : Round G) (hw : r.TimersWf)
    (j : Nat) (p : Player G) (hp : r.player? j = some p) :
    Round.AttrSame a i r (r.crashPlayer j p) := by
  have h1 : Round.AttrSame a i r
      ((r.setPlayer j (p.crash ⟨p.position.x, p.position.y⟩)).emit (.crash j)) := by
    have := Round.attrSame_setPlayer a i r j (p.crash ⟨p.position.x, p.position.y⟩)
      (fun hj p2 hp2 => by
        subst hj
        rw [hp] at hp2
        cases hp2
        simp only [Player.crash]
        split_ifs
        · rfl
        · cases a <;> rfl)
    exact this
  simp only [Round.crashPlayer]
  split_ifs
  · exact Round.attrSame_trans a i _ _ _ h1 (Round.attrSame_prepareToEnd a i _ hw)
  · exact h1

theorem Round.attrSame_handleClearEffect (a : Attribute) (i : Nat) (r : Round G) :
    Round.AttrSame a i r r.handleClearEffect := by
  refine ⟨?_, ?_⟩
  · simp only [Round.handleClearEffect]
    have := Round.reversals_setTimeouts_none
      ({ (r.addSpecialEffect "clear" 500) with
          players := (r.addSpecialEffect "clear" 500).players.map (fun up =>
            if !up.2.crashed then (up.1, { up.2 with immune := true }) else up) }) a i
      ((r.addSpecialEffect "clear" 500).players.enum.filterMap (fun ip =>
        if !ip.2.2.crashed then some (1500, .player ip.1 .clearImmunity) else none))
      (fun x hx id due => by
        simp only [List.mem_filterMap] at hx
        obtain ⟨ip, -, hip⟩ := hx
        split_ifs at hip
        cases hip
        simp [Timer.reverses, PlayerTimeout.restores])
    simpa [Round.reversals, Round.addSpecialEffect] using this
  · exact Round.attr?_players_map r _ a i
      (fun up => if !up.2.crashed then (up.1, { up.2 with immune := true }) else up)
      (fun up => by simp only; split_ifs <;> cases a <;> rfl)
      (Round.handleClearEffect_frame r).1

theorem Round.attrStep_collisionListener (E : Env G) (a : Attribute) (i : Nat) (r : Round G)
    (hw : r.TimersWf) (j : Nat) : Round.AttrStep a i r (r.collisionListener E j) := by
  rcases Round.collisionListener_cases E r j with e | ⟨p, hp, -, -, e⟩ | ⟨p, hp, hc, h1, h2⟩
  · rw [e]; exact Or.inl (Round.attrSame_refl a i r)
  · rw [e]; exact Or.inl (Round.attrSame_crashPlayer a i r hw j p hp)
  · obtain ⟨u, hu⟩ := Round.player?_some r j p hp
    simp only [Round.collisionListener, hu, hc, h1, h2, Bool.false_eq_true, if_false]
    cases hk : p.checkPowerUpCollisions E r.powerUps with
    | none => exact Or.inl (Round.attrSame_refl a i r)
    | some pu =>
      simp only
      have hfin : ∀ r2 : Round G, Round.AttrSame a i r2
          ({ (if pu.type = PowerUpType.CLEAR then r2.handleClearEffect else r2) with
            powerUps := (if pu.type = PowerUpType.CLEAR then r2.handleClearEffect
              else r2).powerUps.eraseIdx ((if pu.type = PowerUpType.CLEAR then
                r2.handleClearEffect else r2).powerUps.findIdx (p.touches E)) }) := by
        intro r2
        split_ifs
        · exact Round.attrSame_handleClearEffect a i r2
        · exact Round.attrSame_refl a i r2
      refine Round.attrStep_same_right a i _ _ _ ?_ (hfin _)
      by_cases hji : j = i
      · subst hji
        rcases Player.applyPowerUp_attr a r.now pu p with ⟨hn, hat⟩ | ⟨d, c, rest, hto, hc2, hrest⟩
        · left
          refine ⟨?_, ?_⟩
          · rw [Round.reversals_setTimeouts_none]
            · rfl
            · intro x hx id due
              simp only [List.mem_map] at hx
              obtain ⟨da, hda, rfl⟩ := hx
              simp [Timer.reverses, hn da hda]
          · have := (Round.attrSame_setPlayer a j r j (p.applyPowerUp r.now pu).player
              (fun _ p2 hp2 => by rw [hp] at hp2; cases hp2; exact hat)).2
            simpa [Round.attr?, Round.player?, (Round.setTimeouts_frame _ _).1] using this
        · right; right
          refine ⟨⟨r.nextTimerId, r.now + d, .player j c⟩, p.attr a, ?_, ?_, ?_⟩
          · simp [Round.attr?, hp]
          · rw [hto]
            simp only [List.map_cons, Round.setTimeouts]
            rw [Round.reversals_setTimeouts_none, Round.reversals_setTimeout]
            · simp [Timer.reverses, hc2]
              rfl
            · intro x hx id due
              simp only [List.mem_map] at hx
              obtain ⟨da, hda, rfl⟩ := hx
              simp [Timer.reverses, hrest da hda]
          · simp [Timer.restored, hc2]
      · left
        refine ⟨?_, ?_⟩
        · rw [Round.reversals_setTimeouts_none]
          · rfl
          · intro x hx id due
            simp only [List.mem_map] at hx
            obtain ⟨da, hda, rfl⟩ := hx
            simp [Timer.reverses, hji]
        · have := (Round.attrSame_setPlayer a i r j (p.applyPowerUp r.now pu).player
            (fun h => absurd h hji)).2
          simpa [Round.attr?, Round.player?, (Round.setTimeouts_frame _ _).1] using this

theorem Round.attrStep_updatePlayer (E : Env G) (a : Attribute)
    (hE : a = .weight → E.KeepsWeight) (i : Nat) (r : Round G) (hw : r.TimersWf)
    (j : Nat) (diff limit : ℚ) : Round.AttrStep a i r (r.updatePlayer E j diff limit) := by
  simp only [Round.updatePlayer]
  cases hu : r.players[j]? with
  | none => exact Or.inl (Round.attrSame_refl a i r)
  | some up =>
    have hp : r.player? j = some up.2 := by simp [Round.player?, hu]
    simp only
    have hbody : ∀ r1 : Round G, Round.AttrSame a i r1
        (match r1.players[j]? with
          | none => r1
          | some (_, q) => r1.setPlayer j (Player.updateBody E r1.now diff q)) := by
      intro r1
      cases hq : r1.players[j]? with
      | none => exact Round.attrSame_refl a i r1
      | some uq =>
        exact Round.attrSame_setPlayer a i r1 j _ (fun hj p2 hp2 => by
          subst hj
          simp only [Round.player?, hq, Option.map_some', Option.some.injEq] at hp2
          subst hp2
          exact Player.updateBody_attr E a hE _ diff _)
    split_ifs
    · exact Or.inl (Round.attrSame_refl a i r)
    · refine Round.attrStep_same_right a i _ _ _ ?_ (hbody _)
      refine Round.attrStep_same_left a i r
        (r.setPlayer j ((up.2.emit .preUpdate).bonusListener E limit)) _ ?_
        (Round.attrStep_collisionListener E a i
          (r.setPlayer j ((up.2.emit .preUpdate).bonusListener E limit)) hw j)
      exact Round.attrSame_setPlayer a i r j _ (fun hj p2 hp2 => by
        subst hj
        rw [hp] at hp2
        cases hp2
        rw [Player.bonusListener_attr E a hE]
        cases a <;> rfl)
    · refine Or.inl (Round.attrSame_trans a i r (r.setPlayer j (up.2.emit .preUpdate)) _ ?_
        (hbody _))
      exact Round.attrSame_setPlayer a i r j _ (fun hj p2 hp2 => by
        subst hj
        rw [hp] at hp2
        cases hp2
        cases a <;> rfl)

theorem Round.attrSame_spawnPowerUp (E : Env G) (a : Attribute) (i : Nat) (d : SpawnDraw)
    (r : Round G) : Round.AttrSame a i r (r.spawnPowerUp E d) := by
  refine ⟨?_, ?_⟩
  · simp only [Round.spawnPowerUp]
    split_ifs
    · rfl
    · cases (Round.placementLoop E r d.candidate 20 0).1 with
      | none =>
        exact Round.reversals_setTimeout_none r a i d.delay .spawnPowerUp (fun _ _ => rfl)
      | some c =>
        exact Round.reversals_setTimeout_none
          ({ r with powerUps := r.powerUps ++ [PowerUp.new c.x c.y d.type] }) a i d.delay
          .spawnPowerUp (fun _ _ => rfl)
  · simp only [Round.attr?, Round.player?, (Round.spawnPowerUp_frame E d r).1]

theorem Round.attrSame_end (a : Attribute) (i : Nat) (r : Round G) (hw : r.TimersWf) :
    Round.AttrSame a i r (Round.end r) := by
  simp only [Round.end]
  split_ifs
  · exact Round.attrSame_refl a i r
  · refine ⟨?_, ?_⟩
    · cases hT : r.powerUpTimer with
      | none => rfl
      | some id =>
        have := Round.reversals_filter_id r a i id (fun t ht hid => by
          have := hw.2 t ht (by rw [hT, hid])
          simp [Timer.reverses, this])
        simpa [Round.reversals, Round.emit, Round.clearTimeout] using this
    · apply Round.attr?_players_map r _ a i
        (fun up => (({ up.1 with inputOn := false } : User), up.2.destroy))
        (fun up => by cases a <;> rfl)
      cases r.powerUpTimer <;>
        simp [Round.emit, Round.clearTimeout, List.map_map, Function.comp_def]

theorem timer_eq_of_id (l : List Timer) (hn : (l.map Timer.id).Nodup) (t t0 : Timer)
    (ht : t ∈ l) (ht0 : t0 ∈ l) (h : t.id = t0.id) : t = t0 :=
  List.inj_on_of_nodup_map hn ht ht0 h

theorem Round.attrStep_fire (E : Env G) (a : Attribute) (hE : a = .weight → E.KeepsWeight)
    (i : Nat) (r : Round G) (hw : r.TimersWf) (id : Nat) (d : SpawnDraw) :
    Round.AttrStep a i r (r.fire E id d) := by
  simp only [Round.fire]
  cases hf : r.timers.find? (fun t => t.id = id) with
  | none => exact Or.inl (Round.attrSame_refl a i r)
  | some t0 =>
    have hmem : t0 ∈ r.timers := List.mem_of_find?_eq_some hf
    have hid : t0.id = id := by simpa using List.find?_some hf
    simp only
    split_ifs
    swap
    · exact Or.inl (Round.attrSame_refl a i r)
    have huniq : ∀ t ∈ r.timers, t.id = id → t = t0 := fun t ht h =>
      timer_eq_of_id r.timers hw.1.1 t t0 ht hmem (h.trans hid.symm)
    by_cases hrev : Timer.reverses a i t0 = true
    · -- the timer that fires is a reversal of the attribute
      cases hact : t0.action with
      | startGame => simp [Timer.reverses, hact] at hrev
      | spawnPowerUp => simp [Timer.reverses, hact] at hrev
      | player j c =>
        simp only [Timer.reverses, hact, Bool.and_eq_true, beq_iff_eq] at hrev
        obtain ⟨hj, hsome⟩ := hrev
        subst hj
        obtain ⟨v, hv⟩ := Option.isSome_iff_exists.1 hsome
        right; left
        refine ⟨t0, ?_, v, by simp [Timer.restored, hact, hv], ?_, ?_⟩
        · simp [Round.reversals, hmem, Timer.reverses, hact, hv]
        · simp only [Round.runTimer]
          intro x hx
          cases hq : r.players[j]? with
          | none =>
            simp only [hq] at hx
            exact Round.reversals_filter_sub r a j id x hx
          | some uq =>
            simp only [hq] at hx
            exact Round.reversals_filter_sub r a j id x hx
        · simp only [Round.runTimer]
          intro w hw2
          cases hq : r.players[j]? with
          | none => simp [hq, Round.attr?, Round.player?] at hw2
          | some uq =>
            simp only [hq] at hw2
            rw [Round.attr?_setPlayer] at hw2
            simp only [if_true, Round.attr?, Round.player?, hq, Option.map_some',
              Option.mem_def, Option.some.injEq] at hw2
            rw [← hw2, PlayerTimeout.run_attr E a hE, hv]
            rfl
    · -- the timer that fires is another one
      have hrev : Timer.reverses a i t0 = false := by simpa using hrev
      have hfil : Round.AttrSame a i r
          ({ r with timers := r.timers.filter (fun t => t.id ≠ id) } : Round G) :=
        ⟨Round.reversals_filter_id r a i id (fun t ht h => by rw [huniq t ht h]; exact hrev),
          rfl⟩
      left
      refine Round.attrSame_trans a i r _ _ hfil ?_
      cases hact : t0.action with
      | startGame =>
        simp only [Round.runTimer, Round.startGame]
        have h1 := Round.attrSame_spawnPowerUp E a i d
          ({ r with timers := r.timers.filter (fun t => t.id ≠ id),
                    players := r.players.map (fun up => (up.1, { up.2 with stop := false })) })
        have h0 : Round.AttrSame a i
            ({ r with timers := r.timers.filter (fun t => t.id ≠ id) } : Round G)
            ({ r with timers := r.timers.filter (fun t => t.id ≠ id),
                      players := r.players.map
                        (fun up => (up.1, { up.2 with stop := false })) }) :=
          ⟨rfl, Round.attr?_players_map _ _ a i
            (fun up => (up.1, { up.2 with stop := false })) (fun up => by cases a <;> rfl) rfl⟩
        exact Round.attrSame_trans a i _ _ _ h0 h1
      | spawnPowerUp => exact Round.attrSame_spawnPowerUp E a i d _
      | player j c =>
        simp only [Round.runTimer]
        cases hq : ({ r with timers := r.timers.filter (fun t => t.id ≠ id) } :
            Round G).players[j]? with
        | none => exact Round.attrSame_refl a i _
        | some uq =>
          simp only
          refine Round.attrSame_setPlayer a i _ j _ (fun hj p2 hp2 => ?_)
          subst hj
          have hq2 : r.players[j]? = some uq := hq
          simp only [Round.player?, hq2, Option.map_some', Option.some.injEq] at hp2
          subst hp2
          have hnone : c.restores a = none := by
            simp only [Timer.reverses, hact, beq_self_eq_true, Bool.true_and] at hrev
            cases hc : c.restores a with
            | none => rfl
            | some v => simp [hc] at hrev
          rw [PlayerTimeout.run_attr E a hE, hnone]
          rfl

theorem Round.attrStep_step (E : Env G) (a : Attribute) (hE : a = .weight → E.KeepsWeight)
    (i : Nat) (r : Round G) (hw : r.TimersWf) (e : Event) :
    Round.AttrStep a i r (r.step E e) := by
  cases e with
  | start =>
    simp only [Round.step, Round.start]
    split_ifs
    · exact Or.inl (Round.attrSame_refl a i r)
    · exact Or.inl ⟨Round.reversals_setTimeout_none
        ({ r with started := true, renderer := r.renderer ++ [.msgBox] }) a i 3000 .startGame
        (fun _ _ => rfl), rfl⟩
  | clock ms => exact Or.inl ⟨rfl, rfl⟩
  | fire id d => exact Round.attrStep_fire E a hE i r hw id d
  | input j dir =>
    simp only [Round.step, Round.input]
    cases hu : r.players[j]? with
    | none => exact Or.inl (Round.attrSame_refl a i r)
    | some up =>
      simp only
      by_cases h1 : (!up.1.inputOn) = true
      · rw [if_pos h1]; exact Or.inl (Round.attrSame_refl a i r)
      · by_cases h2 : (!r.started || r.ended) = true
        · rw [if_neg h1, if_pos h2]; exact Or.inl (Round.attrSame_refl a i r)
        · rw [if_neg h1, if_neg h2]
          refine Or.inl (Round.attrSame_setPlayer a i r j _ (fun hj p2 hp2 => ?_))
          subst hj
          simp only [Round.player?, hu, Option.map_some', Option.some.injEq] at hp2
          subst hp2
          cases a <;> rfl
  | draw j diff limit =>
    simp only [Round.step]
    split_ifs
    · exact Round.attrStep_updatePlayer E a hE i r hw j diff limit
    · exact Or.inl (Round.attrSame_refl a i r)
  | keydown32 =>
    simp only [Round.step, Round.continue]
    split_ifs
    · exact Or.inl (Round.attrSame_end a i { r with continueArmed := false } hw)
    · exact Or.inl (Round.attrSame_refl a i r)
  | endRound => exact Or.inl (Round.attrSame_end a i r hw)

theorem Round.new_players (E : Env G) (mapSize : Point) (now : Nat)
    (users : List (User × PlayerInit)) :
    (Round.new E mapSize now users : Round G).timers = [] ∧
    (Round.new E mapSize now users : Round G).powerUpTimer = none ∧
    (∀ up ∈ (Round.new E mapSize now users : Round G).players,
      ∃ name color o, up.2 = Player.new E name color o) := by
  have key : ∀ (us : List (User × PlayerInit)) (r0 : Round G),
      (us.foldl (fun r uo => Round.newPlayer E r uo.1 uo.2) r0).timers = r0.timers ∧
      (us.foldl (fun r uo => Round.newPlayer E r uo.1 uo.2) r0).powerUpTimer
        = r0.powerUpTimer ∧
      (∀ up ∈ (us.foldl (fun r uo => Round.newPlayer E r uo.1 uo.2) r0).players,
        up ∈ r0.players ∨ ∃ name color o, up.2 = Player.new E name color o) := by
    intro us
    induction us with
    | nil => intro r0; exact ⟨rfl, rfl, fun up hup => Or.inl hup⟩
    | cons x us ih =>
      intro r0
      obtain ⟨h1, h2, h3⟩ := ih (Round.newPlayer E r0 x.1 x.2)
      refine ⟨h1, h2, fun up hup => ?_⟩
      rcases h3 up hup with h | h
      · simp only [Round.newPlayer, List.mem_append, List.mem_singleton] at h
        rcases h with h | rfl
        · exact Or.inl h
        · exact Or.inr ⟨_, _, _, rfl⟩
      · exact Or.inr h
  obtain ⟨h1, h2, h3⟩ := key users
    { mapSize := mapSize, renderer := [], continueArmed := false, started := false,
      ended := false, paused := false, preparedToEnd := false, powerUps := [],
      maxPowerUps := 5, powerUpTimer := none, specialEffects := [], players := [],
      now := now, timers := [], nextTimerId := 1, emitted := [] }
  refine ⟨h1, h2, fun up hup => ?_⟩
  rcases h3 up hup with h | h
  · simp at h
  · exact h

theorem Player.new_attr (E : Env G) (a : Attribute) (hE : a = .weight → E.KeepsWeight)
    (name color : String) (o : PlayerInit) : (Player.new E name color o).attr a = a.base := by
  cases a with
  | speed => rfl
  | weight =>
    obtain ⟨h1, -, h3⟩ := hE rfl
    simp [Player.new, Player.attr, Attribute.base, h1, h3]

theorem Round.mem_trace_self (E : Env G) (r : Round G) (es : List Event) :
    r ∈ Round.trace E r es := by
  cases es <;> simp [Round.trace]

/-- The invariant behind the base values: every pending reversal of the
attribute restores the base value, and with no reversal pending the attribute
has the base value. It holds as long as reversals of the attribute do not
overlap. -/
theorem Round.base_invariant_step (E : Env G) (a : Attribute)
    (hE : a = .weight → E.KeepsWeight) (i : Nat) (r : Round G) (e : Event)
    (hw : r.TimersWf) (h2 : ∀ t ∈ r.reversals a i, t.restored a = some a.base)
    (h3 : r.reversals a i = [] → ∀ v ∈ r.attr? a i, v = a.base)
    (hlen : ((r.step E e).reversals a i).length ≤ 1) :
    (∀ t ∈ (r.step E e).reversals a i, t.restored a = some a.base) ∧
    ((r.step E e).reversals a i = [] → ∀ v ∈ (r.step E e).attr? a i, v = a.base) := by
  rcases Round.attrStep_step E a hE i r hw e with ⟨s1, s2⟩ | ⟨t, ht, v, hv, hsub, hat⟩ |
    ⟨t, v, hat, hrev, hv⟩
  · rw [s1, s2]; exact ⟨h2, h3⟩
  · have hb : v = a.base := by
      have := h2 t ht
      rw [hv] at this
      exact Option.some.inj this
    exact ⟨fun x hx => h2 x (hsub x hx), fun _ w hw2 => (hat w hw2).trans hb⟩
  · have hnil : r.reversals a i = [] := by
      rw [hrev, List.length_append, List.length_singleton] at hlen
      exact List.length_eq_zero.1 (by omega)
    have hb : v = a.base := h3 hnil v (by rw [hat]; rfl)
    refine ⟨fun x hx => ?_, fun h0 => ?_⟩
    · rw [hrev, hnil] at hx
      simp only [List.nil_append, List.mem_singleton] at hx
      rw [hx, hv, hb]
    · rw [hrev] at h0
      simp at h0

theorem Round.base_invariant_run (E : Env G) (a : Attribute)
    (hE : a = .weight → E.KeepsWeight) (i : Nat) (es : List Event) (r : Round G)
    (hw : r.TimersWf) (h2 : ∀ t ∈ r.reversals a i, t.restored a = some a.base)
    (h3 : r.reversals a i = [] → ∀ v ∈ r.attr? a i, v = a.base)
    (hlen : ∀ s ∈ Round.trace E r es, (s.reversals a i).length ≤ 1) :
    (r.run E es).reversals a i = [] → ∀ v ∈ (r.run E es).attr? a i, v = a.base := by
  induction es generalizing r with
  | nil => exact h3
  | cons e es ih =>
    have hl : ((r.step E e).reversals a i).length ≤ 1 :=
      hlen _ (by simp only [Round.trace, List.mem_cons]; exact Or.inr (Round.mem_trace_self E _ es))
    obtain ⟨g2, g3⟩ := Round.base_invariant_step E a hE i r e hw h2 h3 hl
    exact ih (r.step E e) (Round.timersWf_step E r hw e) g2 g3
      (fun s hs => hlen s (by simp only [Round.trace, List.mem_cons]; exact Or.inr hs))

theorem Round.base_invariant (E : Env G) (a : Attribute) (hE : a = .weight → E.KeepsWeight)
    (mapSize : Point) (now : Nat) (users : List (User × PlayerInit)) (es : List Event)
    (i : Nat)
    (hlen : ∀ s ∈ Round.trace E (Round.new E mapSize now users) es,
      (s.reversals a i).length ≤ 1)
    (hnone : ((Round.new E mapSize now users).run E es).reversals a i = []) :
    ∀ v ∈ ((Round.new E mapSize now users).run E es).attr? a i, v = a.base := by
  obtain ⟨n1, n2, n3⟩ := Round.new_players E mapSize now users
  refine Round.base_invariant_run E a hE i es _ ?_ ?_ ?_ hlen hnone
  · refine ⟨⟨by simp [n1], by simp [n1], by simp [n2]⟩, by simp [n1]⟩
  · simp [Round.reversals, n1]
  · intro _ v hv
    simp only [Round.attr?, Round.player?, Option.mem_def, Option.map_eq_some'] at hv
    obtain ⟨p, ⟨up, hup, rfl⟩, rfl⟩ := hv
    obtain ⟨name, color, o, hnew⟩ := n3 up (List.mem_iff_getElem?.2 ⟨i, hup⟩)
    rw [hnew]
    exact Player.new_attr E a hE name color o

/-- C7, amended. In every state reachable from the construction of a round,
for every player whose speed effects never overlapped on the way (at most one
reversal of its speed was pending at any time), the speed equals the base
value 80 whenever no reversal of its speed is pending. The same holds for the
trail weight and the base value 5 when its effects never overlapped, given
that the methods of `Curve` leave the weight alone. -/
theorem Round.base_value_without_overlap (E : Env G) (mapSize : Point) (now : Nat)
    (users : List (User × PlayerInit)) (es : List Event) (i : Nat) (p : Player G)
    (hp : ((Round.new E mapSize now users).run E es).player? i = some p) :
    ((∀ s ∈ Round.trace E (Round.new E mapSize now users) es,
        (s.reversals .speed i).length ≤ 1) →
      ((Round.new E mapSize now users).run E es).reversals .speed i = [] → p.speed = 80) ∧
    (E.KeepsWeight →
      (∀ s ∈ Round.trace E (Round.new E mapSize now users) es,
        (s.reversals .weight i).length ≤ 1) →
      ((Round.new E mapSize now users).run E es).reversals .weight i = [] →
      p.curve.weight = 5) := by
  refine ⟨fun hlen hnone => ?_, fun hk hlen hnone => ?_⟩
  · exact Round.base_invariant E .speed (fun h => by cases h) mapSize now users es i hlen hnone
      p.speed (by simp [Round.attr?, hp, Player.attr])
  · exact Round.base_invariant E .weight (fun _ => hk) mapSize now users es i hlen hnone
      p.curve.weight (by simp [Round.attr?, hp, Player.attr])

/-- Witness of C7: through `calmEvents` the first player has at most one
reversal of its speed pending at any time (the speed is 120 in between); at
the end none is pending and the speed is 80. -/
theorem Round.base_value_without_overlap_witness :
    calmRound.player? 0 = some calmPlayer ∧
    (∀ s ∈ Round.trace exampleEnv (Round.new exampleEnv ⟨800, 600⟩ 0 calmUsers) calmEvents,
      (s.reversals .speed 0).length ≤ 1) ∧
    (((Round.new exampleEnv ⟨800, 600⟩ 0 calmUsers).run exampleEnv
      (calmEvents.take 11)).player? 0).map (fun q => q.speed) = some 120 ∧
    calmRound.reversals .speed 0 = [] ∧ calmPlayer.speed = 80 ∧
    exampleEnv.KeepsWeight ∧ calmPlayer.curve.weight = 5 :=
  have hp : calmRound.player? 0 = some calmPlayer := by decide!
  have hlen : ∀ s ∈ Round.trace exampleEnv (Round.new exampleEnv ⟨800, 600⟩ 0 calmUsers)
      calmEvents, (s.reversals .speed 0).length ≤ 1 := by decide!
  have hnone : calmRound.reversals .speed 0 = [] := by decide!
  have hk : exampleEnv.KeepsWeight := ⟨fun _ _ => rfl, fun _ => rfl, fun _ _ => rfl⟩
  ⟨hp, hlen, by decide!, hnone,
    (Round.base_value_without_overlap exampleEnv ⟨800, 600⟩ 0 calmUsers calmEvents 0
      calmPlayer hp).1 hlen hnone, hk,
    (Round.base_value_without_overlap exampleEnv ⟨800, 600⟩ 0 calmUsers calmEvents 0
      calmPlayer hp).2 hk (by decide!) (by decide!)⟩

/-! ## The tick of a player inside a round -/

/-- The tick of the player at position `i` of a round is `Player.update` on
that player, with the listeners installed in the round. -/
theorem Round.updatePlayer_player (E : Env G) (r : Round G) (i : Nat) (diff limit : ℚ)
    (p : Player G) (hp : r.player? i = some p) :
    (r.updatePlayer E i diff limit).player? i
      = some (p.update E r.now (Round.listeners E r i limit) diff) := by
  obtain ⟨u, hu⟩ := Round.player?_some r i p hp
  have hlen : i < r.players.length := by
    rcases Nat.lt_or_ge i r.players.length with h | h
    · exact h
    · rw [List.getElem?_eq_none_iff.2 h] at hu; cases hu
  simp only [Round.updatePlayer, hu, Player.update, Round.listeners]
  by_cases hs : p.stop = true
  · simp only [hs, if_true]; exact hp
  · simp only [hs, if_false, Bool.false_eq_true]
    have hbody : ∀ r1 : Round G, r1.players.length = r.players.length →
        (match r1.players[i]? with
          | none => r1
          | some (_, q) => r1.setPlayer i (Player.updateBody E r1.now diff q)).player? i
        = some (Player.updateBody E r1.now diff ((r1.player? i).getD (p.emit .preUpdate))) := by
      intro r1 h1
      cases hq : r1.players[i]? with
      | none =>
        have := List.getElem?_eq_none_iff.1 hq
        omega
      | some uq =>
        simp only
        rw [Round.player?_setPlayer]
        simp [Round.player?, hq]
    by_cases hl : (p.emit .preUpdate).listening = true
    · simp only [hl, if_true]
      rw [hbody _ (by rw [Round.collisionListener_players_length]; simp [Round.setPlayer])]
      rw [(Round.collisionListener_powerUps E _ i).2.2]
      rfl
    · simp only [hl, if_false, Bool.false_eq_true]
      rw [hbody _ (by simp [Round.setPlayer])]
      rfl

theorem Round.player?_map_setPlayer {α : Type} (f : Player G → α) (r : Round G) (i j : Nat)
    (q : Player G) :
    ((r.setPlayer j q).player? i).map f
      = if j = i then (r.player? i).map (fun _ => f q) else (r.player? i).map f := by
  simp only [Round.player?_setPlayer]
  split_ifs
  · cases r.player? i <;> rfl
  · rfl

theorem Round.player?_map_players_map {α : Type} (f : Player G → α) (r r2 : Round G) (i : Nat)
    (g : User × Player G → User × Player G) (hg : ∀ up, f (g up).2 = f up.2)
    (h2 : r2.players = r.players.map g) : (r2.player? i).map f = (r.player? i).map f := by
  simp only [Round.player?, h2, List.getElem?_map]
  cases r.players[i]? <;> simp [hg]

theorem Player.applyPowerUp_kin (now : Nat) (pu : PowerUp) (p : Player G) :
    (p.applyPowerUp now pu).player.kin = p.kin := by
  simp only [Player.applyPowerUp, Player.emit, PowerUp.applyEffect, Player.kin]
  cases pu.type <;> rfl

theorem Round.prepareToEnd_kin (r : Round G) (i : Nat) :
    ((r.prepareToEnd).player? i).map Player.kin = (r.player? i).map Player.kin := by
  simp only [Round.prepareToEnd]
  split_ifs
  · rfl
  · apply Round.player?_map_players_map Player.kin r _ i
      (fun up => (up.1, { up.2 with stop := true })) (fun _ => rfl)
    cases r.powerUpTimer <;> simp [Round.emit, Round.clearTimeout]

/-- The collision listener of any player leaves position, heading, agility
and distance of every player as they were. -/
theorem Round.collisionListener_kin (E : Env G) (r : Round G) (i j : Nat) :
    ((r.collisionListener E j).player? i).map Player.kin = (r.player? i).map Player.kin := by
  rcases Round.collisionListener_cases E r j with e | ⟨p, hp, -, -, e⟩ | ⟨p, hp, hc, h1, h2⟩
  · rw [e]
  · rw [e]
    have h0 : (((r.setPlayer j (p.crash ⟨p.position.x, p.position.y⟩)).emit
        (.crash j)).player? i).map Player.kin = (r.player? i).map Player.kin := by
      have := Round.player?_map_setPlayer Player.kin r i j (p.crash ⟨p.position.x, p.position.y⟩)
      simp only [Round.player?, Round.emit] at this ⊢
      rw [this]
      split_ifs with hj
      · subst hj
        simp only [Round.player?] at hp
        rw [hp]
        simp only [Option.map_some', Player.crash, Player.kin]
        split_ifs <;> rfl
      · rfl
    simp only [Round.crashPlayer]
    split_ifs
    · rw [Round.prepareToEnd_kin]; exact h0
    · exact h0
  · obtain ⟨u, hu⟩ := Round.player?_some r j p hp
    simp only [Round.collisionListener, hu, hc, h1, h2, Bool.false_eq_true, if_false]
    cases hk : p.checkPowerUpCollisions E r.powerUps with
    | none => rfl
    | some pu =>
      simp only
      have g := (Round.setTimeouts_frame (r.setPlayer j (p.applyPowerUp r.now pu).player)
        (List.map (fun da => (da.1, TimerAction.player j da.2))
          (p.applyPowerUp r.now pu).timeouts)).1
      have h0 : (((r.setPlayer j (p.applyPowerUp r.now pu).player).setTimeouts
          (List.map (fun da => (da.1, TimerAction.player j da.2))
            (p.applyPowerUp r.now pu).timeouts)).player? i).map Player.kin
          = (r.player? i).map Player.kin := by
        have := Round.player?_map_setPlayer Player.kin r i j (p.applyPowerUp r.now pu).player
        simp only [Round.player?, g] at this ⊢
        rw [this]
        split_ifs with hj
        · subst hj
          simp only [Round.player?] at hp
          rw [hp]
          simp [Player.applyPowerUp_kin]
        · rfl
      split_ifs
      · rw [← h0]
        exact Round.player?_map_players_map Player.kin _ _ i
          (fun up => if !up.2.crashed then (up.1, { up.2 with immune := true }) else up)
          (fun up => by simp only; split_ifs <;> rfl) (Round.handleClearEffect_frame _).1
      · exact h0

/-- The listeners of `pre/update` installed in a round leave position,
heading, agility and distance of the player as they were. -/
theorem Round.listeners_kin (E : Env G) (r : Round G) (i : Nat) (limit : ℚ) (q : Player G) :
    (Round.listeners E r i limit q).kin = q.kin := by
  simp only [Round.listeners]
  have hb : (q.bonusListener E limit).kin = q.kin := by
    obtain ⟨h1, h2, h3, -, -, h6, -⟩ := Player.bonusListener_frame E limit q
    simp only [Player.kin, h1, h2, h3, h6]
  split_ifs
  · have h := Round.collisionListener_kin E (r.setPlayer i (q.bonusListener E limit)) i i
    rw [Round.player?_map_setPlayer] at h
    simp only [if_true] at h
    cases hx : ((r.setPlayer i (q.bonusListener E limit)).collisionListener E i).player? i with
    | none => rfl
    | some x =>
      rw [hx] at h
      cases hr : r.player? i with
      | none => rw [hr] at h; cases h
      | some y =>
        rw [hr] at h
        simp only [Option.map_some', Option.some.injEq] at h
        simp only [Option.getD_some]
        exact h.trans hb
  · rw [Round.player?_setPlayer]
    simp only [if_true]
    cases r.player? i <;> rfl

/-- C1. `Player.update(dt)` on a stopped player changes nothing. On a player
that is not stopped it yields heading `h`, position
`old + speed*dt*(sin h°, cos h°)` and distance `old + speed*dt`, where
`h = heading - vector*3.6*agility` when the steering value is nonzero and
`h = heading` when it is 0. The values are those the integration reads, that
is, after the listeners `pre` of `pre/update` have run (second part); when the
listeners leave the six kinematic fields alone they are the values the player
had when `update` was called (third part). With the listeners installed in a
round, position, heading, agility and distance are those of the call, and
speed and steering value are those left by a pickup in the same tick, if
there is one (fourth part). -/
theorem Player.update_motion (E : Env G) (now : Nat) (pre : Player G → Player G)
    (diff : ℚ) (p : Player G) :
    (p.stop = true → p.update E now pre diff = p) ∧
    (p.stop = false →
      ∀ q, q = pre (p.emit .preUpdate) →
      ∀ h, h = (if q.vector ≠ 0 then q.angle - q.vector * 3.6 * q.agility else q.angle) →
        (p.update E now pre diff).angle = h ∧
        (p.update E now pre diff).position
          = ⟨q.position.x + q.speed * diff * E.sin (h * (E.pi / 180)),
             q.position.y + q.speed * diff * E.cos (h * (E.pi / 180))⟩ ∧
        (p.update E now pre diff).distanceTraveled = q.distanceTraveled + q.speed * diff) ∧
    (p.stop = false →
      (pre (p.emit .preUpdate)).position = p.position →
      (pre (p.emit .preUpdate)).angle = p.angle →
      (pre (p.emit .preUpdate)).agility = p.agility →
      (pre (p.emit .preUpdate)).speed = p.speed →
      (pre (p.emit .preUpdate)).vector = p.vector →
      (pre (p.emit .preUpdate)).distanceTraveled = p.distanceTraveled →
      ∀ h, h = (if p.vector ≠ 0 then p.angle - p.vector * 3.6 * p.agility else p.angle) →
        (p.update E now pre diff).angle = h ∧
        (p.update E now pre diff).position
          = ⟨p.position.x + p.speed * diff * E.sin (h * (E.pi / 180)),
             p.position.y + p.speed * diff * E.cos (h * (E.pi / 180))⟩ ∧
        (p.update E now pre diff).distanceTraveled = p.distanceTraveled + p.speed * diff) ∧
    (p.stop = false → ∀ (r : Round G) (i : Nat) (limit : ℚ),
      ∀ q, q = Round.listeners E r i limit (p.emit .preUpdate) →
      ∀ h, h = (if q.vector ≠ 0 then p.angle - q.vector * 3.6 * p.agility else p.angle) →
        (p.update E now (Round.listeners E r i limit) diff).angle = h ∧
        (p.update E now (Round.listeners E r i limit) diff).position
          = ⟨p.position.x + q.speed * diff * E.sin (h * (E.pi / 180)),
             p.position.y + q.speed * diff * E.cos (h * (E.pi / 180))⟩ ∧
        (p.update E now (Round.listeners E r i limit) diff).distanceTraveled
          = p.distanceTraveled + q.speed * diff) := by
  refine ⟨fun hs => by simp [Player.update, hs], ?_, ?_, ?_⟩
  rotate_left 2
  · intro hs r i limit q hq h hh
    have hk := Round.listeners_kin E r i limit (p.emit .preUpdate)
    simp only [Player.kin, Player.emit, Prod.mk.injEq] at hk
    obtain ⟨k1, k2, k3, k4⟩ := hk
    have := Player.updateBody_motion E now diff q
    subst hq
    simp only [Player.emit] at this hh
    rw [k1, k2, k3, k4] at this
    subst hh
    simpa [Player.update, hs, Player.emit] using this
  · intro hs q hq h hh
    have := Player.updateBody_motion E now diff q
    subst hq hh
    simpa [Player.update, hs] using this
  · intro hs e1 e2 e3 e4 e5 e6 h hh
    have := Player.updateBody_motion E now diff (pre (p.emit .preUpdate))
    rw [e1, e2, e3, e4, e5, e6] at this
    subst hh
    simpa [Player.update, hs] using this

/-- Witness of C1: the example player, not stopped and steering, with the
listener of `initBonuses` as the only listener, after a tick of 1/60 s. In
the last part the first player of `boostRound`, of speed 80 at (100, 300),
picks up the speed boost in a tick of 5/6 s with the listeners of the round:
the tick moves it by 120 * 5/6 = 100. -/
theorem Player.update_motion_witness :
    movingPlayer.stop = false ∧
    (movingPlayer.update exampleEnv 0 (Player.bonusListener exampleEnv 300) (1 / 60)).angle
      = -3.6 ∧
    (movingPlayer.update exampleEnv 0 (Player.bonusListener exampleEnv 300) (1 / 60)).position
      = ⟨100, 108 + 4 / 3⟩ ∧
    (movingPlayer.update exampleEnv 0 (Player.bonusListener exampleEnv 300)
      (1 / 60)).distanceTraveled = 4 / 3 ∧
    (boostPlayer.position, boostPlayer.speed, boostPlayer.stop) = (⟨100, 300⟩, 80, false) ∧
    (boostPlayer.update exampleEnv 6000 (Round.listeners exampleEnv boostRound 0 300)
      (5 / 6)).position = ⟨100, 400⟩ := by
  obtain ⟨f1, f2, f3, f4, f5, f6, -⟩ :=
    Player.bonusListener_frame exampleEnv 300 (movingPlayer.emit .preUpdate)
  have h := (Player.update_motion exampleEnv 0 (Player.bonusListener exampleEnv 300)
    (1 / 60) movingPlayer).2.2.1 rfl f1 f2 f3 f4 f5 f6 (-3.6)
    (by norm_num [movingPlayer, examplePlayer, Player.new])
  refine ⟨rfl, h.1, ?_, ?_, by decide!, by decide!⟩
  · rw [h.2.1]
    norm_num [movingPlayer, examplePlayer, Player.new, Player.getMovement, exampleEnv]
  · rw [h.2.2]
    norm_num [movingPlayer, examplePlayer, Player.new]

/-! ## Pickup of power-ups -/

theorem Player.touches_iff (E : Env G) (p : Player G) (pu : PowerUp) :
    p.touches E pu = true
      ↔ pu.active = true ∧ distance E pu.position p.position ≤ pu.radius := by
  simp only [Player.touches, PowerUp.checkCollision]
  cases pu.active <;> simp

theorem findIdx_split {α : Type} (f : α → Bool) (as bs : List α) (b : α)
    (hb : f b = true) (has : ∀ a ∈ as, f a = false) :
    (as ++ b :: bs).findIdx f = as.length ∧
    (as ++ b :: bs).eraseIdx ((as ++ b :: bs).findIdx f) = as ++ bs := by
  have h1 : (as ++ b :: bs).findIdx f = as.length := by
    induction as with
    | nil => simp [List.findIdx_cons, hb]
    | cons a as ih =>
      have ha : f a = false := has a (List.mem_cons_self _ _)
      have := ih (fun x hx => has x (List.mem_cons_of_mem _ hx))
      simp [List.findIdx_cons, ha, this]
  refine ⟨h1, ?_⟩
  rw [h1, List.eraseIdx_append_of_length_le (le_refl _)]
  simp

theorem PowerUp.applyEffect_powerUp (pu : PowerUp) (p : Player G) :
    (pu.applyEffect p).powerUp = { pu with active := false } := by
  simp only [PowerUp.applyEffect]
  cases pu.type <;> rfl

theorem Player.applyPowerUp_powerUp (now : Nat) (pu : PowerUp) (p : Player G) :
    (p.applyPowerUp now pu).powerUp = { pu with active := false } := by
  simp only [Player.applyPowerUp, PowerUp.applyEffect_powerUp]

/-- The round after the pickup step of player `i`, who has reached that step
and touches the power-up `pu` first: the player is replaced, the timeouts of
the effect are set, a clear-board effect is handled, and the power-up at the
position of the first match is removed. -/
theorem Round.collisionListener_found (E : Env G) (r : Round G) (i : Nat) (p : Player G)
    (hp : r.player? i = some p) (hc : p.crashed = false)
    (hno : (r.isOutOfMap p && !p.immune) = false)
    (hnt : (!p.immune && r.players.enum.any (fun jp =>
        E.interfere jp.2.2.curve p.position (p.curve.weight / 2) (jp.1 == i))) = false)
    (pu : PowerUp) (hk : p.checkPowerUpCollisions E r.powerUps = some pu) :
    (r.collisionListener E i).powerUps
      = r.powerUps.eraseIdx (r.powerUps.findIdx (p.touches E)) ∧
    (r.collisionListener E i).players
      = (if pu.type = .CLEAR then
          (r.setPlayer i (p.applyPowerUp r.now pu).player).players.map (fun up =>
            if !up.2.crashed then (up.1, { up.2 with immune := true }) else up)
         else (r.setPlayer i (p.applyPowerUp r.now pu).player).players) := by
  obtain ⟨u, hu⟩ := Round.player?_some r i p hp
  simp only [Round.collisionListener, hu, hc, hno, hnt, Bool.false_eq_true, if_false, hk]
  have g := Round.setTimeouts_frame (r.setPlayer i (p.applyPowerUp r.now pu).player)
    (List.map (fun da => (da.1, TimerAction.player i da.2)) (p.applyPowerUp r.now pu).timeouts)
  obtain ⟨g1, -, g3, -⟩ := g
  split_ifs with ht
  · obtain ⟨h1, -, h3, -⟩ := Round.handleClearEffect_frame
      ((r.setPlayer i (p.applyPowerUp r.now pu).player).setTimeouts
        (List.map (fun da => (da.1, TimerAction.player i da.2))
          (p.applyPowerUp r.now pu).timeouts))
    refine ⟨?_, ?_⟩
    · simp only [h3, g3]; rfl
    · simp only [h1, g1]
  · exact ⟨by simp only [g3]; rfl, by simp only [g1]⟩

theorem Round.collisionListener_powerUps_mem (E : Env G) (r : Round G) (i : Nat) :
    ∀ pu ∈ (r.collisionListener E i).powerUps, pu ∈ r.powerUps := by
  rcases Round.collisionListener_cases E r i with h | ⟨p, -, -, -, h⟩ | ⟨p, hp, hc, h1, h2⟩
  · rw [h]; exact fun _ h => h
  · rw [h, (Round.crashPlayer_frame r i p).2.2.2.2]; exact fun _ h => h
  · obtain ⟨u, hu⟩ := Round.player?_some r i p hp
    simp only [Round.collisionListener, hu, hc, h1, h2, Bool.false_eq_true, if_false]
    cases hk : p.checkPowerUpCollisions E r.powerUps with
    | none => exact fun _ h => h
    | some pu =>
      have g3 := (Round.setTimeouts_frame (r.setPlayer i (p.applyPowerUp r.now pu).player)
        (List.map (fun da => (da.1, TimerAction.player i da.2))
          (p.applyPowerUp r.now pu).timeouts)).2.2.1
      intro x hx
      simp only at hx
      split_ifs at hx
      · rw [(Round.handleClearEffect_frame _).2.2.1, g3] at hx
        exact List.mem_of_mem_eraseIdx hx
      · rw [g3] at hx
        exact List.mem_of_mem_eraseIdx hx

theorem Round.updatePlayer_powerUps_mem (E : Env G) (i : Nat) (diff limit : ℚ) (r : Round G) :
    ∀ pu ∈ (r.updatePlayer E i diff limit).powerUps, pu ∈ r.powerUps := by
  simp only [Round.updatePlayer]
  cases hu : r.players[i]? with
  | none => exact fun _ h => h
  | some up =>
    simp only
    split_ifs
    · exact fun _ h => h
    · have h1 := Round.collisionListener_powerUps_mem E
        (r.setPlayer i ((up.2.emit .preUpdate).bonusListener E limit)) i
      cases ((r.setPlayer i ((up.2.emit .preUpdate).bonusListener E limit)).collisionListener
        E i).players[i]? <;> exact h1
    · cases (r.setPlayer i (up.2.emit .preUpdate)).players[i]? <;> exact fun _ h => h

theorem Round.spawnPowerUp_powerUps_mem (E : Env G) (d : SpawnDraw) (r : Round G) :
    ∀ pu ∈ (r.spawnPowerUp E d).powerUps,
      pu ∈ r.powerUps ∨ ∃ x y, pu = PowerUp.new x y d.type := by
  simp only [Round.spawnPowerUp]
  split_ifs with hg
  · exact fun _ h => Or.inl h
  · cases (Round.placementLoop E r d.candidate 20 0).1 with
    | none => exact fun _ h => Or.inl (by simpa [Round.setTimeout] using h)
    | some c =>
      intro pu h
      simp only [Round.setTimeout, List.mem_append, List.mem_singleton] at h
      rcases h with h | h
      · exact Or.inl h
      · exact Or.inr ⟨c.x, c.y, h⟩

/-- A step removes power-ups from the live list or appends one that the
constructor has just made. -/
theorem Round.step_powerUps_mem (E : Env G) (r : Round G) (e : Event) :
    ∀ pu ∈ (r.step E e).powerUps, pu ∈ r.powerUps ∨ ∃ x y t, pu = PowerUp.new x y t := by
  cases e with
  | start =>
    simp only [Round.step, Round.start]
    split_ifs <;> exact fun _ h => Or.inl h
  | clock ms => exact fun _ h => Or.inl h
  | fire id d =>
    simp only [Round.step, Round.fire]
    cases r.timers.find? (fun t => t.id = id) with
    | none => exact fun _ h => Or.inl h
    | some t =>
      simp only
      split_ifs
      · cases t.action with
        | startGame =>
          intro pu h
          simp only [Round.runTimer, Round.startGame, Round.emit] at h
          rcases Round.spawnPowerUp_powerUps_mem E d _ pu h with h | ⟨x, y, h⟩
          · exact Or.inl h
          · exact Or.inr ⟨x, y, _, h⟩
        | spawnPowerUp =>
          intro pu h
          simp only [Round.runTimer] at h
          rcases Round.spawnPowerUp_powerUps_mem E d _ pu h with h | ⟨x, y, h⟩
          · exact Or.inl h
          · exact Or.inr ⟨x, y, _, h⟩
        | player i a =>
          simp only [Round.runTimer]
          cases r.players[i]? <;> exact fun _ h => Or.inl h
      · exact fun _ h => Or.inl h
  | input i dir =>
    simp only [Round.step, Round.input]
    cases hu : r.players[i]? with
    | none => exact fun _ h => Or.inl h
    | some up =>
      simp only
      split_ifs <;> exact fun _ h => Or.inl h
  | draw i diff limit =>
    simp only [Round.step]
    split_ifs
    · exact fun pu h => Or.inl (Round.updatePlayer_powerUps_mem E i diff limit r pu h)
    · exact fun _ h => Or.inl h
  | keydown32 =>
    simp only [Round.step, Round.continue]
    split_ifs
    · intro pu h
      rw [(Round.end_frame _).2.2.1] at h
      exact Or.inl h
    · exact fun _ h => Or.inl h
  | endRound =>
    intro pu h
    simp only [Round.step] at h
    rw [(Round.end_frame _).2.2.1] at h
    exact Or.inl h

/-- Every live power-up of a round reachable from its construction is as the
constructor of `PowerUp` made it: active, of radius 12 and of duration 5000. -/
theorem Round.powerUps_fresh (E : Env G) (mapSize : Point) (now : Nat)
    (users : List (User × PlayerInit)) (es : List Event) :
    ∀ pu ∈ ((Round.new E mapSize now users).run E es).powerUps,
      pu.active = true ∧ pu.radius = 12 ∧ pu.duration = 5000 := by
  apply Round.run_induction E
    (fun r => ∀ pu ∈ r.powerUps, pu.active = true ∧ pu.radius = 12 ∧ pu.duration = 5000)
  · intro r e h pu hpu
    rcases Round.step_powerUps_mem E r e pu hpu with h1 | ⟨x, y, t, rfl⟩
    · exact h pu h1
    · exact ⟨rfl, rfl, rfl⟩
  · intro pu hpu
    rw [(Round.new_facts E mapSize now users).2.2.1] at hpu
    cases hpu


/-- C12. In the pickup step of the collision listener (the player is not
crashed and neither crash branch fires): when `checkPowerUpCollisions` finds
the power-up `pu`, it is active and within its radius of the player, the live
list is `as ++ pu :: bs` with no element of `as` both active and within its
radius (so `pu` is the first match in list order), the live list after the
step is `as ++ bs`, the instance is left inactive by `applyPowerUp`, and the
player is the one `applyPowerUp` returns (made immune by the round when the
kind is clear-board). If some element matches, one is found. If no element
matches, the round, and with it the live list and the player, is unchanged.
In every round reachable from its construction the radius of a live power-up
is 12 and it is active. -/
theorem Round.pickup_first_match (E : Env G) (r : Round G) (i : Nat) (p : Player G)
    (hp : r.player? i = some p) (hc : p.crashed = false)
    (hno : (r.isOutOfMap p && !p.immune) = false)
    (hnt : (!p.immune && r.players.enum.any (fun jp =>
        E.interfere jp.2.2.curve p.position (p.curve.weight / 2) (jp.1 == i))) = false) :
    (∀ pu, p.checkPowerUpCollisions E r.powerUps = some pu →
      (pu.active = true ∧ distance E pu.position p.position ≤ pu.radius) ∧
      ∃ as bs, r.powerUps = as ++ pu :: bs ∧
        (∀ a ∈ as, ¬ (a.active = true ∧ distance E a.position p.position ≤ a.radius)) ∧
        (r.collisionListener E i).powerUps = as ++ bs ∧
        (p.applyPowerUp r.now pu).powerUp = { pu with active := false } ∧
        (r.collisionListener E i).player? i
          = some (if pu.type = .CLEAR then { (p.applyPowerUp r.now pu).player with immune := true }
                  else (p.applyPowerUp r.now pu).player)) ∧
    ((∃ pu ∈ r.powerUps, pu.active = true ∧ distance E pu.position p.position ≤ pu.radius) →
      ∃ pu, p.checkPowerUpCollisions E r.powerUps = some pu) ∧
    ((∀ pu ∈ r.powerUps, ¬ (pu.active = true ∧ distance E pu.position p.position ≤ pu.radius)) →
      r.collisionListener E i = r) ∧
    (∀ (mapSize : Point) (now : Nat) (users : List (User × PlayerInit)) (es : List Event),
      ∀ pu ∈ ((Round.new E mapSize now users).run E es).powerUps,
        pu.active = true ∧ pu.radius = 12) := by
  obtain ⟨u, hu⟩ := Round.player?_some r i p hp
  refine ⟨?_, ?_, ?_, ?_⟩
  · intro pu hk
    have hf := hk
    simp only [Player.checkPowerUpCollisions, List.find?_eq_some] at hf
    obtain ⟨hb, as, bs, hl, has⟩ := hf
    have has2 : ∀ a ∈ as, p.touches E a = false := fun a ha => by simpa using has a ha
    obtain ⟨f1, f2⟩ := Round.collisionListener_found E r i p hp hc hno hnt pu hk
    refine ⟨(Player.touches_iff E p pu).1 hb, as, bs, hl, ?_, ?_,
      Player.applyPowerUp_powerUp _ _ _, ?_⟩
    · intro a ha h
      have := (Player.touches_iff E p a).2 h
      rw [has2 a ha] at this
      cases this
    · rw [f1, hl]
      exact (findIdx_split (p.touches E) as bs pu hb has2).2
    · have hq : (r.setPlayer i (p.applyPowerUp r.now pu).player).players[i]?
          = some (u, (p.applyPowerUp r.now pu).player) := by
        simp [Round.setPlayer, List.getElem?_modify, hu]
      simp only [Round.player?, f2]
      split_ifs
      · simp [List.getElem?_map, hq, Player.applyPowerUp_crashed, hc]
      · simp [hq]
  · rintro ⟨pu, hm, h⟩
    cases hk : p.checkPowerUpCollisions E r.powerUps with
    | some x => exact ⟨x, rfl⟩
    | none =>
      simp only [Player.checkPowerUpCollisions, List.find?_eq_none] at hk
      exact absurd ((Player.touches_iff E p pu).2 h) (hk pu hm)
  · intro hnone
    have hk : p.checkPowerUpCollisions E r.powerUps = none := by
      simp only [Player.checkPowerUpCollisions, List.find?_eq_none]
      intro x hx h
      exact hnone x hx ((Player.touches_iff E p x).1 h)
    simp [Round.collisionListener, hu, hc, hno, hnt, hk]
  · intro mapSize now users es pu hpu
    obtain ⟨h1, h2, -⟩ := Round.powerUps_fresh E mapSize now users es pu hpu
    exact ⟨h1, h2⟩

/-- Witness of C12: in `boostRound` the live list is the speed boost at
(100, 300) followed by the slow-down at (100, 400), and the first player, at
(100, 300), has reached the pickup step: the speed boost is found. -/
theorem Round.pickup_first_match_witness :
    boostRound.player? 0 = some boostPlayer ∧
    boostRound.powerUps = [PowerUp.new 100 300 .SPEED, PowerUp.new 100 400 .SLOW] ∧
    boostPlayer.checkPowerUpCollisions exampleEnv boostRound.powerUps
      = some (PowerUp.new 100 300 .SPEED) ∧
    ∃ as bs, boostRound.powerUps = as ++ PowerUp.new 100 300 .SPEED :: bs ∧
      (boostRound.collisionListener exampleEnv 0).powerUps = as ++ bs :=
  have h1 : boostRound.player? 0 = some boostPlayer := by decide!
  have h2 : boostPlayer.checkPowerUpCollisions exampleEnv boostRound.powerUps
      = some (PowerUp.new 100 300 .SPEED) := by decide!
  have h := ((Round.pickup_first_match exampleEnv boostRound 0 boostPlayer h1
    (by decide!) (by decide!) (by decide!)).1 _ h2).2
  ⟨h1, by decide!, h2, h.choose, h.choose_spec.choose, h.choose_spec.choose_spec.1,
    h.choose_spec.choose_spec.2.2.1⟩

theorem Round.prepareToEnd_map {α : Type} (f : Player G → α)
    (hf : ∀ p : Player G, f { p with stop := true } = f p) (r : Round G) (j : Nat) :
    ((r.prepareToEnd).player? j).map f = (r.player? j).map f := by
  simp only [Round.prepareToEnd]
  split_ifs
  · rfl
  · apply Round.player?_map_players_map f r _ j
      (fun up => (up.1, { up.2 with stop := true })) (fun up => hf up.2)
    cases r.powerUpTimer <;> simp [Round.emit, Round.clearTimeout]

theorem Round.crashPlayer_map {α : Type} (f : Player G → α)
    (hf : ∀ p : Player G, f { p with stop := true } = f p)
    (hc : ∀ (p : Player G) c, f (p.crash c) = f p) (r : Round G) (i : Nat) (p : Player G)
    (hp : r.player? i = some p) (j : Nat) :
    ((r.crashPlayer i p).player? j).map f = (r.player? j).map f := by
  have h0 : (((r.setPlayer i (p.crash ⟨p.position.x, p.position.y⟩)).emit
      (.crash i)).player? j).map f = (r.player? j).map f := by
    have := Round.player?_map_setPlayer f r j i (p.crash ⟨p.position.x, p.position.y⟩)
    simp only [Round.player?, Round.emit] at this ⊢
    rw [this]
    split_ifs with hj
    · subst hj
      simp only [Round.player?] at hp
      rw [hp]
      simp [hc]
    · rfl
  simp only [Round.crashPlayer]
  split_ifs
  · rw [Round.prepareToEnd_map f hf]; exact h0
  · exact h0

theorem Player.crash_traits (p : Player G) (c : Point) : (p.crash c).traits = p.traits := by
  simp only [Player.crash, Player.traits, Player.emit]
  split_ifs <;> rfl

/-- C13, as the claim states it, fails: `applyEffect` does not test the flag
`active`. A speed boost that has been applied (and is inactive) multiplies the
speed by 1.5 once more when `applyEffect` is called on it again. -/
theorem PowerUp.applyEffect_again_counterexample :
    usedBoost.active = false ∧ boostedPlayer.speed = 120 ∧
    (usedBoost.applyEffect boostedPlayer).player.speed = 180 := by
  decide!

/-- C13, amended. The flag `active` is tested by the collision check, not by
`applyEffect`: `applyEffect` always leaves the instance inactive; no point
collides with an inactive instance, which is never the result of
`checkPowerUpCollisions`; and in a round whose live power-ups are all
inactive the collision check of a player leaves speed, trail weight, immunity,
drawing flag and steering value of every player as they were. -/
theorem PowerUp.inactive_not_picked (E : Env G) (pu : PowerUp) (h : pu.active = false) :
    (∀ (x : PowerUp) (p : Player G), (x.applyEffect p).powerUp.active = false) ∧
    (∀ pt, pu.checkCollision E pt = false) ∧
    (∀ (p : Player G) (l : List PowerUp), p.checkPowerUpCollisions E l ≠ some pu) ∧
    (∀ (r : Round G) (i j : Nat), (∀ x ∈ r.powerUps, x.active = false) →
      ((r.collisionListener E i).player? j).map Player.traits
        = (r.player? j).map Player.traits) := by
  refine ⟨?_, ?_, ?_, ?_⟩
  · intro x p
    simp only [PowerUp.applyEffect]
    cases x.type <;> rfl
  · intro pt
    simp [PowerUp.checkCollision, h]
  · intro p l hk
    simp only [Player.checkPowerUpCollisions, List.find?_eq_some] at hk
    have := (Player.touches_iff E p pu).1 hk.1
    rw [h] at this
    cases this.1
  · intro r i j hall
    rcases Round.collisionListener_cases E r i with e | ⟨p, hp, -, -, e⟩ | ⟨p, hp, hc, h1, h2⟩
    · rw [e]
    · rw [e]
      exact Round.crashPlayer_map Player.traits (fun _ => rfl) Player.crash_traits r i p hp j
    · obtain ⟨u, hu⟩ := Round.player?_some r i p hp
      have hk : p.checkPowerUpCollisions E r.powerUps = none := by
        simp only [Player.checkPowerUpCollisions, List.find?_eq_none]
        intro x hx ht
        have := (Player.touches_iff E p x).1 ht
        rw [hall x hx] at this
        cases this.1
      simp [Round.collisionListener, hu, hc, h1, h2, hk]

/-- Witness of C13, amended: the applied speed boost is inactive; a player
standing on it does not pick it up. -/
theorem PowerUp.inactive_not_picked_witness :
    usedBoost.active = false ∧
    usedBoost.checkCollision exampleEnv ⟨100, 300⟩ = false ∧
    boostPlayer.checkPowerUpCollisions exampleEnv [usedBoost] ≠ some usedBoost :=
  have h := PowerUp.inactive_not_picked exampleEnv usedBoost (by decide!)
  ⟨by decide!, h.2.1 ⟨100, 300⟩, h.2.2.1 boostPlayer [usedBoost]⟩

/-! ## Construction of a round -/

theorem Round.new_roster (E : Env G) (mapSize : Point) (now : Nat)
    (users : List (User × PlayerInit)) :
    (Round.new E mapSize now users : Round G).players.length = users.length ∧
    (Round.new E mapSize now users : Round G).started = false ∧
    (Round.new E mapSize now users : Round G).ended = false ∧
    Drawable.border ∈ (Round.new E mapSize now users : Round G).renderer := by
  have key : ∀ (us : List (User × PlayerInit)) (r0 : Round G),
      (us.foldl (fun r uo => Round.newPlayer E r uo.1 uo.2) r0).players.length
        = r0.players.length + us.length ∧
      (us.foldl (fun r uo => Round.newPlayer E r uo.1 uo.2) r0).started = r0.started ∧
      (us.foldl (fun r uo => Round.newPlayer E r uo.1 uo.2) r0).ended = r0.ended := by
    intro us
    induction us with
    | nil => intro r0; exact ⟨rfl, rfl, rfl⟩
    | cons x us ih =>
      intro r0
      obtain ⟨h1, h2, h3⟩ := ih (Round.newPlayer E r0 x.1 x.2)
      refine ⟨?_, h2, h3⟩
      have hn : (Round.newPlayer E r0 x.1 x.2).players.length = r0.players.length + 1 := by
        simp [Round.newPlayer]
      rw [List.foldl_cons, h1, hn, List.length_cons]
      omega
  obtain ⟨h1, h2, h3⟩ := key users
    { mapSize := mapSize, renderer := [], continueArmed := false, started := false,
      ended := false, paused := false, preparedToEnd := false, powerUps := [],
      maxPowerUps := 5, powerUpTimer := none, specialEffects := [], players := [],
      now := now, timers := [], nextTimerId := 1, emitted := [] }
  simp only [Round.new]
  refine ⟨by simpa using h1, h2, h3, by simp⟩

/-- C18, as the claim states it, fails: the constructor makes no check of the
roster. For a game without participants it returns a round with an empty
table of players, neither started nor ended, with the border registered. -/
theorem Round.new_empty_roster_counterexample :
    (Round.new exampleEnv ⟨800, 600⟩ 0 []).players = [] ∧
    (Round.new exampleEnv ⟨800, 600⟩ 0 []).started = false ∧
    (Round.new exampleEnv ⟨800, 600⟩ 0 []).ended = false ∧
    (Round.new exampleEnv ⟨800, 600⟩ 0 []).renderer = [.border] := by
  decide!

/-- C18, amended. The constructor of `Round` returns a round for every
roster: it has one player for each participant (none for an empty roster), is
neither started nor ended and has registered its border. A round without
players has none after any sequence of events and never pauses for
continue. -/
theorem Round.new_any_roster (E : Env G) (mapSize : Point) (now : Nat)
    (users : List (User × PlayerInit)) :
    (Round.new E mapSize now users : Round G).players.length = users.length ∧
    (Round.new E mapSize now users : Round G).started = false ∧
    (Round.new E mapSize now users : Round G).ended = false ∧
    Drawable.border ∈ (Round.new E mapSize now users : Round G).renderer ∧
    (Round.new E mapSize now [] : Round G).players = [] ∧
    (∀ es : List Event,
      ((Round.new E mapSize now [] : Round G).run E es).players = [] ∧
      ((Round.new E mapSize now [] : Round G).run E es).preparedToEnd = false) := by
  obtain ⟨h1, h2, h3, h4⟩ := Round.new_roster E mapSize now users
  refine ⟨h1, h2, h3, h4, rfl, fun es => ?_⟩
  apply Round.run_induction E (fun r => r.players = [] ∧ r.preparedToEnd = false)
  · intro r e ⟨hp, hq⟩
    have hl := Round.step_players_length E r e
    rw [hp] at hl
    have hp2 : (r.step E e).players = [] := List.eq_nil_of_length_eq_zero hl
    refine ⟨hp2, ?_⟩
    rcases Round.step_pause E r e with h | h
    · rw [h.1, hq]
    · have h0 : r.aliveCount = 0 := by simp [Round.aliveCount, hp]
      have := h.2.2.1
      omega
  · exact ⟨rfl, rfl⟩

/-! ## The pool of particles -/

theorem ParticleSystem.add_spec (ps : ParticleSystem) (q : Particle)
    (hmax : ps.maxParticles = 500) (hlen : ps.particles.length ≤ 500) :
    (ps.shiftIfFull.push q).maxParticles = 500 ∧
    (ps.shiftIfFull.push q).particles.length ≤ 500 ∧
    (ps.shiftIfFull.push q).particles
      = (ps.particles ++ [q]).drop (ps.particles.length + 1 - 500) ∧
    (ps.particles.length = 500 → (ps.shiftIfFull.push q).particles = ps.particles.tail ++ [q]) ∧
    (ps.particles.length < 500 → (ps.shiftIfFull.push q).particles = ps.particles ++ [q]) := by
  by_cases h : ps.particles.length ≥ 500
  · have h5 : ps.particles.length = 500 := le_antisymm hlen h
    have e : (ps.shiftIfFull.push q).particles = ps.particles.tail ++ [q] := by
      simp [ParticleSystem.shiftIfFull, ParticleSystem.push, hmax, h5]
    refine ⟨?_, ?_, ?_, fun _ => e, fun h6 => by omega⟩
    · rw [← hmax]
      simp only [ParticleSystem.shiftIfFull, ParticleSystem.push]
      split_ifs <;> rfl
    · rw [e]; simp; omega
    · rw [e, h5]
      cases hl : ps.particles with
      | nil => simp [hl] at h5
      | cons a l => simp
  · have e : (ps.shiftIfFull.push q).particles = ps.particles ++ [q] := by
      simp only [ParticleSystem.shiftIfFull, ParticleSystem.push, hmax, if_neg h]
    have h0 : ps.particles.length + 1 - 500 = 0 := by omega
    refine ⟨?_, ?_, ?_, fun h6 => by omega, fun _ => e⟩
    · rw [← hmax]
      simp only [ParticleSystem.shiftIfFull, ParticleSystem.push]
      split_ifs <;> rfl
    · rw [e]; simp; omega
    · rw [e, h0]; rfl

/-- An emitter that adds the particles `f 0`, ..., `f (count - 1)` one by one
to a pool of at most 500 particles leaves the last 500 of the old particles
followed by the new ones. -/
theorem ParticleSystem.emit_spec (f : Nat → Particle) (count : Nat) (ps : ParticleSystem)
    (hmax : ps.maxParticles = 500) (hlen : ps.particles.length ≤ 500) :
    ((List.range count).foldl (fun ps i => ps.shiftIfFull.push (f i)) ps).maxParticles = 500 ∧
    ((List.range count).foldl (fun ps i => ps.shiftIfFull.push (f i)) ps).particles.length
      ≤ 500 ∧
    ((List.range count).foldl (fun ps i => ps.shiftIfFull.push (f i)) ps).particles
      = (ps.particles ++ (List.range count).map f).drop (ps.particles.length + count - 500) := by
  induction count with
  | zero =>
    have h0 : ps.particles.length + 0 - 500 = 0 := by omega
    simp [hmax, hlen, h0]
  | succ n ih =>
    obtain ⟨i1, i2, i3⟩ := ih
    rw [List.range_succ, List.foldl_append, List.foldl_cons, List.foldl_nil]
    obtain ⟨a1, a2, a3, -⟩ := ParticleSystem.add_spec _ (f n) i1 i2
    refine ⟨a1, a2, ?_⟩
    have hL : (ps.particles ++ List.map f (List.range n)).length = ps.particles.length + n := by
      simp
    rw [a3, i3, List.map_append, List.map_singleton, ← List.append_assoc, List.length_drop, hL]
    generalize ps.particles ++ List.map f (List.range n) = L at hL
    by_cases hc : ps.particles.length + n < 500
    · have e1 : ps.particles.length + n - 500 = 0 := by omega
      have e2 : ps.particles.length + n - 0 + 1 - 500 = 0 := by omega
      have e3 : ps.particles.length + (n + 1) - 500 = 0 := by omega
      rw [e1, e2, e3]
      rfl
    · have e2 : ps.particles.length + n - (ps.particles.length + n - 500) + 1 - 500 = 1 := by
        omega
      rw [e2, List.drop_append_of_le_length (by rw [List.length_drop, hL]; omega),
        List.drop_drop, List.drop_append_of_le_length (by rw [hL]; omega)]
      have e4 : ∀ k, k = ps.particles.length + (n + 1) - 500 →
          List.drop k L ++ [f n] = List.drop (ps.particles.length + (n + 1) - 500) L ++ [f n] :=
        fun k hk => by rw [hk]
      exact e4 _ (by omega)

theorem ParticleSystem.updateLoop_mid (deltaTime : ℚ) (as bs : List Particle) :
    ParticleSystem.updateLoop deltaTime as.length (as ++ bs)
      = (as.map (fun q => q.update deltaTime)).filter (fun q => !q.dead) ++ bs := by
  induction as using List.reverseRecOn generalizing bs with
  | nil => simp [ParticleSystem.updateLoop]
  | append_singleton as x ih =>
    have hq : (as ++ [x] ++ bs)[as.length]? = some x := by
      rw [List.append_assoc, List.getElem?_append_right (le_refl _)]
      simp
    have hset : ∀ y, (as ++ [x] ++ bs).set as.length y = as ++ y :: bs := by
      intro y
      rw [List.append_assoc, List.set_append_right _ _ (le_refl _)]
      simp
    have her : ∀ y, (as ++ y :: bs).eraseIdx as.length = as ++ bs := by
      intro y
      rw [List.eraseIdx_append_of_length_le (le_refl _)]
      simp
    rw [List.length_append, List.length_singleton]
    simp only [ParticleSystem.updateLoop, hq, hset]
    by_cases hd : (x.update deltaTime).dead = true
    · rw [if_pos hd, her, ih]
      simp [List.filter_append, hd]
    · rw [if_neg hd, ih]
      simp [List.filter_append, hd]

/-- The loop of `update` updates every particle once and removes the dead
ones; the others keep their order. -/
theorem ParticleSystem.update_spec (ps : ParticleSystem) (deltaTime : ℚ) :
    (ps.update deltaTime).particles
      = (ps.particles.map (fun q => q.update deltaTime)).filter (fun q => !q.dead) ∧
    (ps.update deltaTime).maxParticles = ps.maxParticles := by
  have := ParticleSystem.updateLoop_mid deltaTime ps.particles []
  simp only [List.append_nil] at this
  exact ⟨this, rfl⟩

/-- C19. For a particle system with the cap of the constructor (500) that
holds at most 500 particles: after `createExplosion` and after `createTrail`,
for every count, the pool holds at most 500 particles, namely the old ones
followed by the new ones in the order of their creation, less as many from
the front as exceed 500; after `update` it holds the updated particles that
are not dead, in their order, so no more than before. One iteration of an
emitter on a pool at the cap removes the front particle and appends the new
one at the end; below the cap it only appends. -/
theorem ParticleSystem.pool_bounded (E : Env G) (ps : ParticleSystem)
    (hmax : ps.maxParticles = 500) (hlen : ps.particles.length ≤ 500) :
    (∀ (x y : ℚ) (count : Nat) (color : String) (size speed : ℚ) (draw : Nat → ExplosionDraw),
      (ps.createExplosion E x y count color size speed draw).maxParticles = 500 ∧
      (ps.createExplosion E x y count color size speed draw).particles.length ≤ 500 ∧
      (ps.createExplosion E x y count color size speed draw).particles
        = (ps.particles ++ (List.range count).map (fun i =>
            ParticleSystem.explosionParticle E x y color size speed (draw i))).drop
              (ps.particles.length + count - 500)) ∧
    (∀ (x y : ℚ) (color : String) (count : Nat) (draw : Nat → TrailDraw),
      (ps.createTrail x y color count draw).maxParticles = 500 ∧
      (ps.createTrail x y color count draw).particles.length ≤ 500 ∧
      (ps.createTrail x y color count draw).particles
        = (ps.particles ++ (List.range count).map (fun i =>
            ParticleSystem.trailParticle x y color (draw i))).drop
              (ps.particles.length + count - 500)) ∧
    (∀ deltaTime : ℚ,
      (ps.update deltaTime).maxParticles = 500 ∧
      (ps.update deltaTime).particles.length ≤ ps.particles.length ∧
      (ps.update deltaTime).particles.length ≤ 500 ∧
      (ps.update deltaTime).particles
        = (ps.particles.map (fun q => q.update deltaTime)).filter (fun q => !q.dead)) ∧
    (∀ q : Particle, ps.particles.length = 500 →
      (ps.shiftIfFull.push q).particles = ps.particles.tail ++ [q]) ∧
    (∀ q : Particle, ps.particles.length < 500 →
      (ps.shiftIfFull.push q).particles = ps.particles ++ [q]) := by
  refine ⟨?_, ?_, ?_, ?_, ?_⟩
  · intro x y count color size speed draw
    exact ParticleSystem.emit_spec
      (fun i => ParticleSystem.explosionParticle E x y color size speed (draw i)) count ps
      hmax hlen
  · intro x y color count draw
    exact ParticleSystem.emit_spec
      (fun i => ParticleSystem.trailParticle x y color (draw i)) count ps hmax hlen
  · intro deltaTime
    obtain ⟨h1, h2⟩ := ParticleSystem.update_spec ps deltaTime
    have h3 : (ps.update deltaTime).particles.length ≤ ps.particles.length := by
      rw [h1]
      exact (List.length_filter_le _ _).trans (by simp)
    exact ⟨by rw [h2, hmax], h3, h3.trans hlen, h1⟩
  · exact fun q => (ParticleSystem.add_spec ps q hmax hlen).2.2.2.1
  · exact fun q => (ParticleSystem.add_spec ps q hmax hlen).2.2.2.2

/-- Witness of C19: the pool `fullPool` is at the cap. A trail of three
particles leaves it at the cap, and one iteration of an emitter removes its
front particle (the one of the other colour) and appends the new particle. -/
theorem ParticleSystem.pool_bounded_witness :
    fullPool.maxParticles = 500 ∧ fullPool.particles.length = 500 ∧
    (fullPool.createTrail 100 100 "#1abc9c" 3
      (fun _ => ⟨1 / 2, 1 / 2, 1 / 2, 1 / 2, 1 / 2, 1 / 2⟩)).particles.length ≤ 500 ∧
    (fullPool.shiftIfFull.push exampleParticle).particles
      = List.replicate 499 exampleParticle ++ [exampleParticle] :=
  have h1 : fullPool.particles.length = 500 := by
    simp only [fullPool, List.length_cons, List.length_replicate]
  have h := ParticleSystem.pool_bounded exampleEnv fullPool rfl (le_of_eq h1)
  ⟨rfl, h1, (h.2.1 100 100 "#1abc9c" 3 (fun _ => ⟨1 / 2, 1 / 2, 1 / 2, 1 / 2, 1 / 2, 1 / 2⟩)).2.1,
    h.2.2.2.1 exampleParticle h1⟩

/-! ## Scores on the server -/

theorem Table.get?_map {α : Type} (t : Table α) (k k2 : String) (v : α) :
    ((t.map (fun e => if e.1 == k then (k, v) else e)).find? (fun e => e.1 == k2)).map Prod.snd
      = if k2 = k then (t.find? (fun e => e.1 == k)).map (fun _ => v)
        else (t.find? (fun e => e.1 == k2)).map Prod.snd := by
  induction t with
  | nil => simp
  | cons e t ih =>
    by_cases he : e.1 = k
    · have b1 : (e.1 == k) = true := by simp [he]
      by_cases h2 : k2 = k
      · subst h2
        have b2 : (k2 == k2) = true := by simp
        simp only [List.map_cons, List.find?_cons, b1, if_true, b2, Option.map_some']
      · have b2 : (k == k2) = false := by simpa using fun h => h2 h.symm
        have b3 : (e.1 == k2) = false := by rw [he]; exact b2
        rw [if_neg h2] at ih ⊢
        simp only [List.map_cons, List.find?_cons, b1, if_true, b2, b3]
        exact ih
    · have b1 : (e.1 == k) = false := by simpa using he
      by_cases h2 : k2 = k
      · have b3 : (e.1 == k2) = false := by rw [h2]; exact b1
        rw [if_pos h2] at ih ⊢
        simp only [List.map_cons, List.find?_cons, b1, b3, Bool.false_eq_true, if_false]
        exact ih
      · rw [if_neg h2] at ih ⊢
        simp only [List.map_cons, List.find?_cons, b1, Bool.false_eq_true, if_false]
        cases hb : (e.1 == k2) with
        | true => rfl
        | false => exact ih

theorem Table.get?_set {α : Type} (t : Table α) (k k2 : String) (v : α) :
    (t.set k v).get? k2 = if k2 = k then some v else t.get? k2 := by
  simp only [Table.set, Table.get?]
  by_cases ha : t.any (fun e => e.1 == k) = true
  · rw [if_pos ha, Table.get?_map]
    by_cases h2 : k2 = k
    · simp only [h2, if_true]
      obtain ⟨x, hx, hk⟩ := List.any_eq_true.1 ha
      cases hf : t.find? (fun e => e.1 == k) with
      | none =>
        rw [List.find?_eq_none] at hf
        exact absurd hk (hf x hx)
      | some y => rfl
    · simp only [h2, if_false]
  · rw [if_neg ha]
    have hn : ∀ x ∈ t, ¬ (x.1 == k) = true := by
      intro x hx hk
      exact ha (List.any_eq_true.2 ⟨x, hx, hk⟩)
    rw [List.find?_append]
    by_cases h2 : k2 = k
    · subst h2
      have h0 : t.find? (fun e => e.1 == k2) = none := by
        rw [List.find?_eq_none]
        exact hn
      have b2 : (k2 == k2) = true := by simp
      simp only [h0, List.find?_cons, b2, if_true]
      rfl
    · have b2 : (k == k2) = false := by simpa using fun h => h2 h.symm
      simp only [List.find?_cons, b2, List.find?_nil, if_neg h2]
      cases t.find? (fun e => e.1 == k2) <;> rfl

theorem Server.emitLobbyState_frame (sv : Server) (lobby : String) :
    (sv.emitLobbyState lobby).lobbies = sv.lobbies ∧
    (sv.emitLobbyState lobby).timers = sv.timers := by
  simp only [Server.emitLobbyState]
  cases sv.lobbies.get? lobby <;> exact ⟨rfl, rfl⟩

/-- What the handler of `roundOver` does to the lobby of the sender when it
finds a winner whose entry of `scores` holds `n`: the entry becomes `n + 1`
and the entries of all other names stay; when `n + 1` is 5 or more every ready
flag is reset and no timer is set, otherwise players and flags stay and
`startGame` is scheduled in 1500 ms. -/
theorem Server.roundOver_spec (sv : Server) (socket name : String) (lobby : Lobby)
    (w : LobbyPlayer) (n : Nat)
    (h1 : sv.socketToLobby.get? socket = some name) (h2 : sv.lobbies.get? name = some lobby)
    (h3 : lobby.winner socket = some w) (h4 : lobby.scores.get? w.username = some (some n)) :
    ((sv.roundOver socket).lobby name).scores.get? w.username = some (some (n + 1)) ∧
    (∀ u, u ≠ w.username →
      ((sv.roundOver socket).lobby name).scores.get? u = lobby.scores.get? u) ∧
    (5 ≤ n + 1 →
      ((sv.roundOver socket).lobby name).players
        = lobby.players.map (fun p => { p with ready := false }) ∧
      (sv.roundOver socket).timers = sv.timers) ∧
    (n + 1 < 5 →
      ((sv.roundOver socket).lobby name).players = lobby.players ∧
      (sv.roundOver socket).timers = sv.timers ++ [(sv.now + 1500, name)]) := by
  have hs : (lobby.increment w.username).scores.get? w.username = some (some (n + 1)) := by
    simp [Lobby.increment, Table.get?_set, h4]
  have ho : ∀ u, u ≠ w.username →
      (lobby.increment w.username).scores.get? u = lobby.scores.get? u := by
    intro u hu
    simp [Lobby.increment, Table.get?_set, hu]
  have hw : (lobby.increment w.username).matchWon w.username = decide (5 ≤ n + 1) := by
    simp [Lobby.matchWon, hs]
  simp only [Server.roundOver, Server.lobby, h1, h2, h3]
  by_cases h5 : 5 ≤ n + 1
  · rw [hw, decide_eq_true h5]
    simp only [if_true, (Server.emitLobbyState_frame _ _).1, (Server.emitLobbyState_frame _ _).2,
      Table.get?_set, Option.getD_some]
    exact ⟨hs, ho, fun _ => ⟨rfl, trivial⟩, fun h => absurd h5 (by omega)⟩
  · rw [hw, decide_eq_false h5]
    simp only [Bool.false_eq_true, if_false, (Server.emitLobbyState_frame _ _).1,
      (Server.emitLobbyState_frame _ _).2, Table.get?_set, Option.getD_some, if_true]
    exact ⟨hs, ho, fun h => absurd h h5, fun _ => ⟨rfl, trivial⟩⟩

/-- The player that `roundOver` credits is the first of the lobby, or the
second when the first is the sender: never a third or fourth player. -/
theorem Lobby.winner_among_first_two (lobby : Lobby) (socket : String) (p0 p1 : LobbyPlayer)
    (rest : List LobbyPlayer) (hl : lobby.players = p0 :: p1 :: rest) (hd : p0.id ≠ p1.id) :
    lobby.winner socket = (if p0.id = socket then some p1 else some p0) := by
  simp only [Lobby.winner, hl, List.find?_cons]
  by_cases h : p0.id = socket
  · have h1 : p1.id ≠ socket := fun h1 => hd (h.trans h1.symm)
    have b0 : (p0.id != socket) = false := by simp [h]
    have b1 : (p1.id != socket) = true := by simpa using h1
    simp only [b0, b1, if_pos h]
  · have b0 : (p0.id != socket) = true := by simpa using h
    simp only [b0, if_neg h]

/-- C15 at the failing input: two players who have set no name are both
called `Player` and share one entry of `scores`. When the first reports the end
of a round the second is the winner, the shared entry goes from 0 to 1, and
with it the score of the first player, who is not the winner. -/
theorem Server.roundOver_shared_name :
    (pairServer.lobby "Lobby 1").players
      = [⟨"socketA", "Player", false⟩, ⟨"socketB", "Player", false⟩] ∧
    (pairServer.lobby "Lobby 1").winner "socketA" = some ⟨"socketB", "Player", false⟩ ∧
    (pairServer.lobby "Lobby 1").scoreOf ⟨"socketA", "Player", false⟩ = some (some 0) ∧
    (pairServer.lobby "Lobby 1").scoreOf ⟨"socketB", "Player", false⟩ = some (some 0) ∧
    ((pairServer.roundOver "socketA").lobby "Lobby 1").scoreOf ⟨"socketB", "Player", false⟩
      = some (some 1) ∧
    ((pairServer.roundOver "socketA").lobby "Lobby 1").scoreOf ⟨"socketA", "Player", false⟩
      = some (some 1) := by
  decide!

/-- C16 at the failing input: in `trioRound` Ann and Bob have crashed and Cid
is the one player left. In the lobby of Ann, Bob and Cid, whichever of the
three sockets reports the end of the round, the entry of Cid stays 0 and the
entry of Ann or of Bob, who have crashed, becomes 1. -/
theorem Server.roundOver_credits_crashed :
    trioRound.players.map (fun up => (up.1.name, up.2.crashed))
      = [("Ann", true), ("Bob", true), ("Cid", false)] ∧
    trioRound.aliveCount = 1 ∧ trioRound.preparedToEnd = true ∧
    (trioServer.lobby "Lobby 1").players
      = [⟨"socketA", "Ann", false⟩, ⟨"socketB", "Bob", false⟩, ⟨"socketC", "Cid", false⟩] ∧
    ((trioServer.roundOver "socketA").lobby "Lobby 1").scores
      = [("Ann", some 0), ("Bob", some 1), ("Cid", some 0)] ∧
    ((trioServer.roundOver "socketB").lobby "Lobby 1").scores
      = [("Ann", some 1), ("Bob", some 0), ("Cid", some 0)] ∧
    ((trioServer.roundOver "socketC").lobby "Lobby 1").scores
      = [("Ann", some 1), ("Bob", some 0), ("Cid", some 0)] := by
  decide!

/-! ## Immunity: clear-board, ghost and the gap -/

theorem Round.setTimeouts_timers (r : Round G) (l : List (Nat × TimerAction)) :
    (r.setTimeouts l).timers
      = r.timers ++ l.enum.map (fun ka => ⟨r.nextTimerId + ka.1, r.now + ka.2.1, ka.2.2⟩) ∧
    (r.setTimeouts l).nextTimerId = r.nextTimerId + l.length := by
  induction l generalizing r with
  | nil => simp [Round.setTimeouts]
  | cons a l ih =>
    obtain ⟨d, a⟩ := a
    obtain ⟨h1, h2⟩ := ih (r.setTimeout d a).1
    simp only [Round.setTimeouts]
    rw [h1, h2]
    refine ⟨?_, by simp [Round.setTimeout]; omega⟩
    simp only [Round.setTimeout, List.append_assoc, List.enum_cons, List.map_cons,
      List.singleton_append, Nat.add_zero]
    congr 2
    rw [← List.map_fst_add_enum_eq_enumFrom, List.map_map]
    apply List.map_congr_left
    intro ka _
    simp only [Function.comp, Prod.map, id]
    congr 1
    omega

/-- What `handleClearEffect` does at time `now`: every player that is not
crashed is made immune and the others are left as they are; the records of a
flash (500 ms) and of a lightning (800 ms) are appended; and for every player
that is not crashed a timer is set that is due 1500 ms later and clears the
immunity of that player unless it has crashed. -/
theorem Round.handleClearEffect_spec (r : Round G) :
    (r.handleClearEffect).players
      = r.players.map (fun up =>
          if !up.2.crashed then (up.1, { up.2 with immune := true }) else up) ∧
    (r.handleClearEffect).specialEffects
      = r.specialEffects ++ [⟨"clear", 500, r.now + 500⟩, ⟨"lightning", 800, r.now + 800⟩] ∧
    (∀ j q, r.player? j = some q → q.crashed = false →
      ∃ t ∈ (r.handleClearEffect).timers,
        t.due = r.now + 1500 ∧ t.action = .player j .clearImmunity) := by
  refine ⟨(Round.handleClearEffect_frame r).1, ?_, ?_⟩
  · simp only [Round.handleClearEffect, Round.addSpecialEffect]
    simp [(Round.setTimeouts_frame _ _).2.2.2.1, (Round.setTimeouts_frame _ _).2.2.2.2]
  · intro j q hq hc
    obtain ⟨u, hu⟩ := Round.player?_some r j q hq
    simp only [Round.handleClearEffect, Round.addSpecialEffect]
    rw [(Round.setTimeouts_timers _ _).1]
    have hm : ((1500 : Nat), TimerAction.player j .clearImmunity) ∈
        r.players.enum.filterMap (fun ip =>
          if !ip.2.2.crashed then some (1500, TimerAction.player ip.1 .clearImmunity)
          else none) := by
      rw [List.mem_filterMap]
      exact ⟨(j, u, q), List.mem_enum_iff_getElem?.2 hu, by simp [hc]⟩
    obtain ⟨k, hk, hget⟩ := List.getElem_of_mem hm
    refine ⟨⟨r.nextTimerId + k, r.now + 1500, .player j .clearImmunity⟩, ?_, rfl, rfl⟩
    simp only [List.mem_append, List.mem_map]
    right
    refine ⟨(k, (1500, .player j .clearImmunity)), ?_, rfl⟩
    rw [List.mem_enum_iff_getElem?]
    simp only
    rw [List.getElem?_eq_getElem hk, hget]

/-- The pruning of the round-wide effects keeps exactly the records whose
expiry is later than the clock, in their order. -/
theorem Round.drawSpecialEffects_mem (r : Round G) (x : SpecialEffect) :
    x ∈ (r.drawSpecialEffects).specialEffects ↔ x ∈ r.specialEffects ∧ r.now < x.endTime := by
  simp [Round.drawSpecialEffects]

/-- C11 at the failing input. At 5900 ms the first player picks up the
clear-board power-up: both players, neither crashed, are immune, the records
of the flash (expiry 6400) and of the lightning (expiry 6700) are appended and
the reversal for the second player is due at 7400. The gap of the second
player starts in its tick at 6200 ms and ends in its tick at 6500 ms, which
writes `immune = false`: at 6500 ms, 900 ms before the 1500 ms are over, the
second player is not crashed and not immune. -/
theorem Round.clear_immunity_cut_short :
    clearRound.now = 5900 ∧
    clearRound.players.map (fun up => (up.2.crashed, up.2.immune))
      = [(false, true), (false, true)] ∧
    clearRound.specialEffects = [⟨"clear", 500, 6400⟩, ⟨"lightning", 800, 6700⟩] ∧
    (⟨5, 7400, .player 1 .clearImmunity⟩ : Timer) ∈ clearRound.timers ∧
    (clearRound.run exampleEnv clearEvents).now = 6500 ∧
    (clearRound.run exampleEnv clearEvents).players.map (fun up => (up.2.crashed, up.2.immune))
      = [(false, true), (false, false)] := by
  decide!

/-- The ghost effect by itself: `applyEffect` makes the player immune and
suspends its drawing and sets one timer of the duration of the power-up; the
callback of that timer ends the immunity, resumes the drawing, restores the
colour and calls `curve.updatePosition()`. -/
theorem PowerUp.ghost_spec (E : Env G) (pu : PowerUp) (p : Player G) (h : pu.type = .GHOST) :
    (pu.applyEffect p).player.immune = true ∧ (pu.applyEffect p).player.active = false ∧
    (pu.applyEffect p).timeouts = [(pu.duration, .ghostOff p.color)] ∧
    (∀ q : Player G, (PlayerTimeout.ghostOff p.color).run E q
      = { q with immune := false, active := true, color := p.color,
                 curve := E.curveUpdatePosition q.curve }) := by
  refine ⟨?_, ?_, ?_, fun _ => rfl⟩ <;> simp [PowerUp.applyEffect, h]

/-- C14 at the failing inputs. In `ghostRound` the second player picks up the
ghost power-up at 5900 ms and is immune and not drawing, the reversal being
due at 10900 ms; its gap starts in its tick at 6200 ms and ends in its tick at
6500 ms, after which it is not immune and draws again. In `ghostClearRound`
the first player picks up the ghost power-up at 6200 ms (reversal due at
11200 ms), and at 7400 ms the reversal of a clear-board effect picked up at
5900 ms ends its immunity while its drawing is still suspended. -/
theorem Round.ghost_cut_short :
    ghostRound.now = 5900 ∧
    (ghostRound.player? 1).map (fun p => (p.immune, p.active, p.crashed))
      = some (true, false, false) ∧
    (⟨3, 10900, .player 1 (.ghostOff "#2ecc71")⟩ : Timer) ∈ ghostRound.timers ∧
    (ghostRound.run exampleEnv ghostEvents).now = 6500 ∧
    ((ghostRound.run exampleEnv ghostEvents).player? 1).map
      (fun p => (p.immune, p.active, p.crashed)) = some (false, true, false) ∧
    (⟨3, 10900, .player 1 (.ghostOff "#2ecc71")⟩ : Timer)
      ∈ (ghostRound.run exampleEnv ghostEvents).timers ∧
    ghostClearRound.now = 7400 ∧
    (⟨7, 11200, .player 0 (.ghostOff "#1abc9c")⟩ : Timer) ∈ ghostClearRound.timers ∧
    (ghostClearRound.player? 0).map (fun p => (p.immune, p.active, p.crashed))
      = some (false, false, false) := by
  decide!

/-! ## Steering -/

/-- The listener of `input`: before the start of the round and after its end
it changes nothing; otherwise it leaves a steering value of -1, 0 or 1 in the
player of the user, namely -1 for `left`, 1 for `right` and 0 for the rest. -/
theorem Round.input_spec (r : Round G) (i : Nat) (dir : String) :
    ((r.started = false ∨ r.ended = true) → r.input i dir = r) ∧
    (∀ u p, r.players[i]? = some (u, p) → u.inputOn = true → r.started = true →
      r.ended = false →
      (r.input i dir).player? i
        = some { p with vector := if dir = "left" then -1 else if dir = "right" then 1 else 0 }) := by
  refine ⟨fun h => ?_, fun u p hu hon hs he => ?_⟩
  · simp only [Round.input]
    cases hu : r.players[i]? with
    | none => rfl
    | some up =>
      rcases h with h | h <;> simp [h]
  · simp only [Round.input, hu, hon, hs, he, Bool.not_true, Bool.or_false, Bool.false_eq_true,
      if_false]
    rw [Round.player?_setPlayer]
    simp [Round.player?, hu]

theorem Steering.neg (v : ℚ) (h : Steering v) : Steering (v * (-1)) := by
  rcases h with h | h | h <;> subst h
  · exact Or.inr (Or.inr (by norm_num))
  · exact Or.inr (Or.inl (by norm_num))
  · exact Or.inl (by norm_num)

theorem Round.steers_of_map (r r2 : Round G) (g : User × Player G → User × Player G)
    (hg : ∀ up, (g up).2.vector = up.2.vector) (hp : r2.players = r.players.map g)
    (ht : ∀ t ∈ r2.timers, t ∈ r.timers ∨ ∀ j v, t.action ≠ .player j (.restoreVector v))
    (h : r.Steers) : r2.Steers := by
  refine ⟨fun up hup => ?_, fun t ht2 j v ha => ?_⟩
  · rw [hp] at hup
    obtain ⟨x, hx, rfl⟩ := List.mem_map.1 hup
    rw [hg]
    exact h.1 x hx
  · rcases ht t ht2 with h1 | h1
    · exact h.2 t h1 j v ha
    · exact absurd ha (h1 j v)

theorem Round.steers_of_eq (r r2 : Round G) (hp : r2.players = r.players)
    (ht : ∀ t ∈ r2.timers, t ∈ r.timers ∨ ∀ j v, t.action ≠ .player j (.restoreVector v))
    (h : r.Steers) : r2.Steers :=
  Round.steers_of_map r r2 id (fun _ => rfl) (by simpa using hp) ht h

theorem Round.steers_setPlayer (r : Round G) (i : Nat) (q : Player G) (hq : Steering q.vector)
    (h : r.Steers) : (r.setPlayer i q).Steers := by
  refine ⟨fun up hup => ?_, h.2⟩
  rcases mem_modify _ _ _ _ hup with hm | ⟨a, -, rfl⟩
  · exact h.1 up hm
  · exact hq

theorem Round.steers_prepareToEnd (r : Round G) (h : r.Steers) : r.prepareToEnd.Steers := by
  simp only [Round.prepareToEnd]
  split_ifs
  · exact h
  · apply Round.steers_of_map r _ (fun up => (up.1, { up.2 with stop := true }))
      (fun _ => rfl) _ _ h
    · cases r.powerUpTimer <;> simp [Round.emit, Round.clearTimeout]
    · intro x hx
      left
      cases hq : r.powerUpTimer with
      | none => simpa [hq, Round.emit] using hx
      | some id =>
        simp only [hq, Round.emit, Round.clearTimeout] at hx
        exact (List.mem_filter.1 hx).1

theorem Round.steers_crashPlayer (r : Round G) (i : Nat) (p : Player G)
    (hp : Steering p.vector) (h : r.Steers) : (r.crashPlayer i p).Steers := by
  have hv : (p.crash ⟨p.position.x, p.position.y⟩).vector = p.vector := by
    simp only [Player.crash, Player.emit]
    split_ifs <;> rfl
  have h0 : ((r.setPlayer i (p.crash ⟨p.position.x, p.position.y⟩)).emit (.crash i)).Steers :=
    Round.steers_setPlayer r i _ (hv ▸ hp) h
  simp only [Round.crashPlayer]
  split_ifs
  · exact Round.steers_prepareToEnd _ h0
  · exact h0

theorem Round.steers_setTimeouts (r : Round G) (l : List (Nat × TimerAction))
    (hl : ∀ da ∈ l, ∀ j v, da.2 = .player j (.restoreVector v) → Steering v) (h : r.Steers) :
    (r.setTimeouts l).Steers := by
  refine ⟨fun up hup => h.1 up ((Round.setTimeouts_frame r l).1 ▸ hup), fun t ht j v ha => ?_⟩
  rw [(Round.setTimeouts_timers r l).1, List.mem_append] at ht
  rcases ht with ht | ht
  · exact h.2 t ht j v ha
  · obtain ⟨ka, hka, rfl⟩ := List.mem_map.1 ht
    obtain ⟨k, da⟩ := ka
    exact hl da (List.mem_iff_getElem?.2 ⟨k, List.mk_mem_enum_iff_getElem?.1 hka⟩) j v ha

theorem Round.steers_handleClearEffect (r : Round G) (h : r.Steers) :
    r.handleClearEffect.Steers := by
  apply Round.steers_of_map r _ _ (fun up => ?_) (Round.handleClearEffect_frame r).1 _ h
  · intro x hx
    simp only [Round.handleClearEffect, Round.addSpecialEffect] at hx
    rw [(Round.setTimeouts_timers _ _).1] at hx
    rcases List.mem_append.1 hx with hx | hx
    · exact Or.inl hx
    · right
      obtain ⟨ka, hka, rfl⟩ := List.mem_map.1 hx
      obtain ⟨k, da⟩ := ka
      have hm := List.mem_iff_getElem?.2 ⟨k, List.mk_mem_enum_iff_getElem?.1 hka⟩
      obtain ⟨ip, -, hip⟩ := List.mem_filterMap.1 hm
      intro j v hs
      simp only at hs hip
      split_ifs at hip
      cases hip
      cases hs
  · simp only
    split_ifs <;> rfl

theorem Player.applyPowerUp_steering (now : Nat) (pu : PowerUp) (p : Player G)
    (h : Steering p.vector) :
    Steering (p.applyPowerUp now pu).player.vector ∧
    (∀ da ∈ (p.applyPowerUp now pu).timeouts, ∀ v, da.2 = .restoreVector v → Steering v) := by
  simp only [Player.applyPowerUp, Player.emit, PowerUp.applyEffect]
  cases pu.type <;> simp only [List.nil_append, List.singleton_append, List.mem_cons,
    List.mem_singleton, List.not_mem_nil, or_false]
  all_goals
    refine ⟨?_, ?_⟩
    · first | exact h | exact Steering.neg _ h
    · rintro da (rfl | rfl) v hv <;> first | (cases hv; exact h) | cases hv

theorem Round.steers_collisionListener (E : Env G) (r : Round G) (i : Nat) (h : r.Steers) :
    (r.collisionListener E i).Steers := by
  rcases Round.collisionListener_cases E r i with e | ⟨p, hp, -, -, e⟩ | ⟨p, hp, hc, h1, h2⟩
  · rw [e]; exact h
  · obtain ⟨u, hu⟩ := Round.player?_some r i p hp
    rw [e]
    exact Round.steers_crashPlayer r i p (h.1 (u, p) (List.mem_iff_getElem?.2 ⟨i, hu⟩)) h
  · obtain ⟨u, hu⟩ := Round.player?_some r i p hp
    have hpv : Steering p.vector := h.1 (u, p) (List.mem_iff_getElem?.2 ⟨i, hu⟩)
    simp only [Round.collisionListener, hu, hc, h1, h2, Bool.false_eq_true, if_false]
    cases hk : p.checkPowerUpCollisions E r.powerUps with
    | none => exact h
    | some pu =>
      simp only
      obtain ⟨a1, a2⟩ := Player.applyPowerUp_steering r.now pu p hpv
      have g : ((r.setPlayer i (p.applyPowerUp r.now pu).player).setTimeouts
          (List.map (fun da => (da.1, TimerAction.player i da.2))
            (p.applyPowerUp r.now pu).timeouts)).Steers := by
        apply Round.steers_setTimeouts _ _ _ (Round.steers_setPlayer r i _ a1 h)
        intro da hda j v hv
        obtain ⟨x, hx, rfl⟩ := List.mem_map.1 hda
        simp only [TimerAction.player.injEq] at hv
        exact a2 x hx v hv.2
      have key : ∀ r1 r2 : Round G, r1.Steers → r2.players = r1.players →
          r2.timers = r1.timers → r2.Steers :=
        fun r1 r2 c1 e1 e3 => Round.steers_of_eq r1 r2 e1 (fun x hx => Or.inl (e3 ▸ hx)) c1
      split_ifs
      · exact key _ _ (Round.steers_handleClearEffect _ g) rfl rfl
      · exact key _ _ g rfl rfl

theorem Round.steers_updatePlayer (E : Env G) (i : Nat) (diff limit : ℚ) (r : Round G)
    (h : r.Steers) : (r.updatePlayer E i diff limit).Steers := by
  simp only [Round.updatePlayer]
  cases hu : r.players[i]? with
  | none => exact h
  | some up =>
    obtain ⟨u, p⟩ := up
    have hpv : Steering p.vector := h.1 (u, p) (List.mem_iff_getElem?.2 ⟨i, hu⟩)
    have hbody : ∀ r1 : Round G, r1.Steers →
        (match r1.players[i]? with
          | none => r1
          | some (_, q) => r1.setPlayer i (Player.updateBody E r1.now diff q)).Steers := by
      intro r1 c1
      cases hq : r1.players[i]? with
      | none => exact c1
      | some uq =>
        refine Round.steers_setPlayer r1 i _ ?_ c1
        rw [(Player.updateBody_frame E _ diff _).2.2.2.2.2.1]
        exact c1.1 uq (List.mem_iff_getElem?.2 ⟨i, hq⟩)
    simp only
    split_ifs
    · exact h
    · apply hbody
      apply Round.steers_collisionListener
      apply Round.steers_setPlayer r i _ _ h
      rw [(Player.bonusListener_frame E limit (p.emit .preUpdate)).2.2.2.2.1]
      exact hpv
    · apply hbody
      exact Round.steers_setPlayer r i _ hpv h

theorem Round.steers_spawnPowerUp (E : Env G) (d : SpawnDraw) (r : Round G) (h : r.Steers) :
    (r.spawnPowerUp E d).Steers := by
  apply Round.steers_of_eq r _ (Round.spawnPowerUp_frame E d r).1 _ h
  intro x hx
  simp only [Round.spawnPowerUp] at hx
  split_ifs at hx
  · exact Or.inl hx
  · cases hc : (Round.placementLoop E r d.candidate 20 0).1 <;>
      simp only [hc, Round.setTimeout, List.mem_append, List.mem_singleton] at hx <;>
      rcases hx with hx | rfl <;> first | exact Or.inl hx | exact Or.inr (fun j v hv => by cases hv)

theorem Round.steers_end (r : Round G) (h : r.Steers) : (Round.end r).Steers := by
  simp only [Round.end]
  split_ifs
  · exact h
  · apply Round.steers_of_map r _
      (fun up => (({ up.1 with inputOn := false } : User), up.2.destroy)) (fun _ => rfl) _ _ h
    · cases r.powerUpTimer <;>
        simp [Round.emit, Round.clearTimeout, List.map_map, Function.comp_def]
    · intro x hx
      left
      cases hq : r.powerUpTimer with
      | none => simpa [hq, Round.emit] using hx
      | some id =>
        simp only [hq, Round.emit, Round.clearTimeout] at hx
        exact (List.mem_filter.1 hx).1

theorem PlayerTimeout.run_steering (E : Env G) (a : PlayerTimeout) (p : Player G)
    (hp : Steering p.vector) (ha : ∀ v, a = .restoreVector v → Steering v) :
    Steering (a.run E p).vector := by
  cases a with
  | restoreVector v => exact ha v rfl
  | clearImmunity =>
    simp only [PlayerTimeout.run]
    split_ifs <;> exact hp
  | _ => exact hp

theorem Round.steers_step (E : Env G) (r : Round G) (e : Event) (h : r.Steers) :
    (r.step E e).Steers := by
  cases e with
  | start =>
    simp only [Round.step, Round.start]
    split_ifs
    · exact h
    · refine Round.steers_of_eq r _ rfl (fun x hx => ?_) h
      simp only [Round.setTimeout, List.mem_append, List.mem_singleton] at hx
      rcases hx with hx | rfl
      · exact Or.inl hx
      · exact Or.inr (fun j v hv => by cases hv)
  | clock ms => exact Round.steers_of_eq r _ rfl (fun x hx => Or.inl hx) h
  | fire id d =>
    simp only [Round.step, Round.fire]
    cases hf : r.timers.find? (fun t => t.id = id) with
    | none => exact h
    | some t =>
      simp only
      split_ifs
      · have c0 : Round.Steers { r with timers := r.timers.filter (fun t => t.id ≠ id) } :=
          Round.steers_of_eq r _ rfl (fun x hx => Or.inl (List.mem_filter.1 hx).1) h
        cases ha : t.action with
        | startGame =>
          simp only [Round.runTimer, Round.startGame]
          refine Round.steers_of_eq _ _ rfl (fun x hx => Or.inl hx)
            (Round.steers_spawnPowerUp E d _ ?_)
          exact Round.steers_of_map { r with timers := r.timers.filter (fun t => t.id ≠ id) } _
            (fun up => (up.1, { up.2 with stop := false })) (fun _ => rfl) rfl
            (fun x hx => Or.inl hx) c0
        | spawnPowerUp => exact Round.steers_spawnPowerUp E d _ c0
        | player k a =>
          simp only [Round.runTimer]
          cases hu : r.players[k]? with
          | none => exact c0
          | some up =>
            refine Round.steers_setPlayer _ k _ ?_ c0
            apply PlayerTimeout.run_steering E a up.2
              (h.1 up (List.mem_iff_getElem?.2 ⟨k, hu⟩))
            intro v hv
            exact h.2 t (List.mem_of_find?_eq_some hf) k v (by rw [ha, hv])
      · exact h
  | input i dir =>
    simp only [Round.step, Round.input]
    cases hu : r.players[i]? with
    | none => exact h
    | some up =>
      simp only
      split_ifs <;>
        first
          | exact h
          | exact Round.steers_setPlayer r i _ (Or.inl rfl) h
          | exact Round.steers_setPlayer r i _ (Or.inr (Or.inr rfl)) h
          | exact Round.steers_setPlayer r i _ (Or.inr (Or.inl rfl)) h
  | draw i diff limit =>
    simp only [Round.step]
    split_ifs
    · exact Round.steers_updatePlayer E i diff limit r h
    · exact h
  | keydown32 =>
    simp only [Round.step, Round.continue]
    split_ifs
    · exact Round.steers_end _
        (Round.steers_of_eq r { r with continueArmed := false } rfl (fun x hx => Or.inl hx) h)
    · exact h
  | endRound => exact Round.steers_end r h

/-- In every round reachable from its construction the steering value of
every player is -1, 0 or 1. -/
theorem Round.steering_values (E : Env G) (mapSize : Point) (now : Nat)
    (users : List (User × PlayerInit)) (es : List Event) :
    ∀ up ∈ ((Round.new E mapSize now users : Round G).run E es).players,
      up.2.vector = -1 ∨ up.2.vector = 0 ∨ up.2.vector = 1 := by
  have h0 : (Round.new E mapSize now users : Round G).Steers := by
    obtain ⟨h1, -, h3⟩ := Round.new_players E mapSize now users
    refine ⟨fun up hup => ?_, fun t ht => ?_⟩
    · obtain ⟨name, color, o, ho⟩ := h3 up hup
      rw [ho]
      exact Or.inr (Or.inl rfl)
    · rw [h1] at ht; cases ht
  exact (Round.run_induction E Round.Steers (fun r e h => Round.steers_step E r e h) _ es h0).1

/-- C17 at the failing input. In `reverseRound` the first player, whose last
input is `right` (1), has just picked up the reverse-controls power-up: its
steering value is -1 and the reversal to 1 is due at 10500 ms. An input `left` that
arrives while the effect is active leaves -1 and an input `right` leaves 1,
the values of a player without the effect. When the reversal fires after the
input `left`, the steering value becomes 1 although the last input is
`left`. -/
theorem Round.reverse_controls_overwritten :
    reverseRound.now = 5500 ∧
    (reverseRound.player? 0).map (fun p => p.vector) = some (-1) ∧
    (⟨3, 10500, .player 0 (.restoreVector 1)⟩ : Timer) ∈ reverseRound.timers ∧
    ((reverseRound.step exampleEnv (.input 0 "left")).player? 0).map (fun p => p.vector)
      = some (-1) ∧
    ((reverseRound.step exampleEnv (.input 0 "right")).player? 0).map (fun p => p.vector)
      = some 1 ∧
    ((reverseRound.run exampleEnv [.input 0 "left", .clock 5000, .fire 3 exampleDraw]).player? 0).map
      (fun p => p.vector) = some 1 := by
  decide!

/-! ## A crashed player stays where it is -/

theorem Player.flagStep_refl (p : Player G) : Player.FlagStep p p :=
  Or.inl ⟨rfl, Or.inl rfl⟩

theorem Player.flagStep_of_eq (p q : Player G) (h1 : q.crashed = p.crashed)
    (h2 : q.stop = p.stop) : Player.FlagStep p q :=
  Or.inl ⟨h1, Or.inl h2⟩

theorem Player.flagStep_trans (p q s : Player G) (h1 : Player.FlagStep p q)
    (h2 : Player.FlagStep q s) : Player.FlagStep p s := by
  rcases h1 with ⟨a1, a2⟩ | ⟨a1, a2, a3⟩ <;> rcases h2 with ⟨b1, b2⟩ | ⟨b1, b2, b3⟩
  · refine Or.inl ⟨b1.trans a1, ?_⟩
    rcases b2 with b2 | b2
    · rcases a2 with a2 | a2
      · exact Or.inl (b2.trans a2)
      · exact Or.inr (b2.trans a2)
    · exact Or.inr b2
  · refine Or.inr ⟨b1, b2, ?_⟩
    rcases a2 with a2 | a2
    · rw [← a2]; exact b3
    · rw [a2] at b3; cases b3
  · refine Or.inr ⟨b1.trans a1, ?_, a3⟩
    rcases b2 with b2 | b2
    · exact b2.trans a2
    · exact b2
  · rw [a2] at b3; cases b3

theorem Round.calm_refl (r : Round G) : Round.Calm r r := by
  refine ⟨rfl, fun x hx _ => hx, fun j => ?_⟩
  cases h : r.player? j with
  | none => exact Or.inl ⟨rfl, rfl⟩
  | some p => exact Or.inr ⟨p, p, rfl, rfl, Player.flagStep_refl p⟩

theorem Round.calm_trans (r r1 r2 : Round G) (h1 : Round.Calm r r1) (h2 : Round.Calm r1 r2) :
    Round.Calm r r2 := by
  obtain ⟨a1, a2, a3⟩ := h1
  obtain ⟨b1, b2, b3⟩ := h2
  refine ⟨b1.trans a1, fun x hx hs => a2 x (b2 x hx hs) hs, fun j => ?_⟩
  rcases a3 j with ⟨c1, c2⟩ | ⟨p, q, c1, c2, c3⟩
  · rcases b3 j with ⟨d1, d2⟩ | ⟨q, s, d1, d2, d3⟩
    · exact Or.inl ⟨c1, d2⟩
    · rw [c2] at d1; cases d1
  · rcases b3 j with ⟨d1, d2⟩ | ⟨q2, s, d1, d2, d3⟩
    · rw [c2] at d1; cases d1
    · rw [c2] at d1
      cases d1
      exact Or.inr ⟨p, s, c1, d2, Player.flagStep_trans p q s c3 d3⟩

/-- A round that differs from `r` in its players by a map that makes a
`FlagStep`, keeps `started` and adds no timer of the countdown. -/
theorem Round.calm_of_map (r r2 : Round G) (g : User × Player G → User × Player G)
    (hg : ∀ up, Player.FlagStep up.2 (g up).2) (hp : r2.players = r.players.map g)
    (hs : r2.started = r.started)
    (ht : ∀ x ∈ r2.timers, x.action = .startGame → x ∈ r.timers) : Round.Calm r r2 := by
  refine ⟨hs, ht, fun j => ?_⟩
  simp only [Round.player?, hp, List.getElem?_map]
  cases h : r.players[j]? with
  | none => exact Or.inl ⟨rfl, rfl⟩
  | some up => exact Or.inr ⟨up.2, (g up).2, rfl, rfl, hg up⟩

theorem Round.calm_of_eq (r r2 : Round G) (hp : r2.players = r.players)
    (hs : r2.started = r.started)
    (ht : ∀ x ∈ r2.timers, x.action = .startGame → x ∈ r.timers) : Round.Calm r r2 :=
  Round.calm_of_map r r2 id (fun up => Player.flagStep_refl up.2) (by simpa using hp) hs ht

theorem Round.calm_setPlayer (r : Round G) (i : Nat) (q : Player G)
    (h : ∀ p, r.player? i = some p → Player.FlagStep p q) : Round.Calm r (r.setPlayer i q) := by
  refine ⟨rfl, fun x hx _ => hx, fun j => ?_⟩
  rw [Round.player?_setPlayer]
  cases hj : r.player? j with
  | none => left; split_ifs <;> exact ⟨rfl, rfl⟩
  | some p =>
    right
    by_cases hij : i = j
    · subst hij
      exact ⟨p, q, rfl, by simp, h p hj⟩
    · exact ⟨p, p, rfl, by simp [hij], Player.flagStep_refl p⟩

theorem Round.calm_prepareToEnd (r : Round G) : Round.Calm r r.prepareToEnd := by
  simp only [Round.prepareToEnd]
  split_ifs
  · exact Round.calm_refl r
  · apply Round.calm_of_map r _ (fun up => (up.1, { up.2 with stop := true }))
      (fun up => Or.inl ⟨rfl, Or.inr rfl⟩)
    · cases r.powerUpTimer <;> simp [Round.emit, Round.clearTimeout]
    · cases r.powerUpTimer <;> simp [Round.emit, Round.clearTimeout]
    · intro x hx _
      cases hq : r.powerUpTimer with
      | none => simpa [hq, Round.emit] using hx
      | some id =>
        simp only [hq, Round.emit, Round.clearTimeout] at hx
        exact (List.mem_filter.1 hx).1

theorem Player.crash_flagStep (p : Player G) (c : Point) (hs : p.stop = false) :
    Player.FlagStep p (p.crash c) := by
  simp only [Player.crash, Player.emit]
  split_ifs
  · exact Player.flagStep_refl p
  · exact Or.inr ⟨rfl, rfl, hs⟩

theorem Round.calm_crashPlayer (r : Round G) (i : Nat) (p : Player G)
    (hp : r.player? i = some p) (hs : p.stop = false) : Round.Calm r (r.crashPlayer i p) := by
  have h0 : Round.Calm r
      ((r.setPlayer i (p.crash ⟨p.position.x, p.position.y⟩)).emit (.crash i)) :=
    Round.calm_setPlayer r i _ (fun p2 hp2 => by
      rw [hp] at hp2
      cases hp2
      exact Player.crash_flagStep p _ hs)
  simp only [Round.crashPlayer]
  split_ifs
  · exact Round.calm_trans _ _ _ h0 (Round.calm_prepareToEnd _)
  · exact h0

theorem Round.calm_setTimeouts (r : Round G) (l : List (Nat × TimerAction))
    (hl : ∀ da ∈ l, da.2 ≠ .startGame) : Round.Calm r (r.setTimeouts l) := by
  obtain ⟨g1, -, -, -, -, -, g7, -⟩ := Round.setTimeouts_frame r l
  apply Round.calm_of_eq r _ g1 g7
  intro x hx hs
  rw [(Round.setTimeouts_timers r l).1, List.mem_append] at hx
  rcases hx with hx | hx
  · exact hx
  · obtain ⟨ka, hka, rfl⟩ := List.mem_map.1 hx
    have hm : ka.2 ∈ l := by
      obtain ⟨k, da⟩ := ka
      exact List.mem_iff_getElem?.2 ⟨k, List.mk_mem_enum_iff_getElem?.1 hka⟩
    exact absurd hs (hl ka.2 hm)

theorem Round.calm_handleClearEffect (r : Round G) : Round.Calm r r.handleClearEffect := by
  obtain ⟨g1, -, -, -, -, -, g7, -⟩ := Round.handleClearEffect_frame r
  apply Round.calm_of_map r _ _ (fun up => ?_) g1 g7
  · intro x hx hs
    simp only [Round.handleClearEffect, Round.addSpecialEffect] at hx
    rw [(Round.setTimeouts_timers _ _).1] at hx
    rcases List.mem_append.1 hx with hx | hx
    · exact hx
    · obtain ⟨ka, hka, rfl⟩ := List.mem_map.1 hx
      obtain ⟨k, da⟩ := ka
      have hm := List.mem_iff_getElem?.2 ⟨k, List.mk_mem_enum_iff_getElem?.1 hka⟩
      obtain ⟨ip, -, hip⟩ := List.mem_filterMap.1 hm
      simp only at hs hip
      split_ifs at hip
      cases hip
      cases hs
  · simp only
    split_ifs
    · exact Or.inl ⟨rfl, Or.inl rfl⟩
    · exact Player.flagStep_refl up.2

theorem Player.applyPowerUp_flags (now : Nat) (pu : PowerUp) (p : Player G) :
    (p.applyPowerUp now pu).player.crashed = p.crashed ∧
    (p.applyPowerUp now pu).player.stop = p.stop := by
  simp only [Player.applyPowerUp, Player.emit, PowerUp.applyEffect]
  cases pu.type <;> exact ⟨rfl, rfl⟩

/-- The collision listener of a player that is not stopped makes a calm
step. -/
theorem Round.calm_collisionListener (E : Env G) (r : Round G) (i : Nat)
    (hs : ∀ p, r.player? i = some p → p.stop = false) :
    Round.Calm r (r.collisionListener E i) := by
  rcases Round.collisionListener_cases E r i with e | ⟨p, hp, -, -, e⟩ | ⟨p, hp, hc, h1, h2⟩
  · rw [e]; exact Round.calm_refl r
  · rw [e]; exact Round.calm_crashPlayer r i p hp (hs p hp)
  · obtain ⟨u, hu⟩ := Round.player?_some r i p hp
    simp only [Round.collisionListener, hu, hc, h1, h2, Bool.false_eq_true, if_false]
    cases hk : p.checkPowerUpCollisions E r.powerUps with
    | none => exact Round.calm_refl r
    | some pu =>
      simp only
      have g0 : Round.Calm r (r.setPlayer i (p.applyPowerUp r.now pu).player) :=
        Round.calm_setPlayer r i _ (fun p2 hp2 => by
          rw [hp] at hp2
          cases hp2
          exact Player.flagStep_of_eq _ _ (Player.applyPowerUp_flags _ _ _).1
            (Player.applyPowerUp_flags _ _ _).2)
      have g : Round.Calm r ((r.setPlayer i (p.applyPowerUp r.now pu).player).setTimeouts
          (List.map (fun da => (da.1, TimerAction.player i da.2))
            (p.applyPowerUp r.now pu).timeouts)) :=
        Round.calm_trans _ _ _ g0 (Round.calm_setTimeouts _ _ (fun da hda => by
          obtain ⟨x, -, rfl⟩ := List.mem_map.1 hda
          exact fun h => by cases h))
      have key : ∀ r1 r2 : Round G, Round.Calm r r1 → r2.players = r1.players →
          r2.started = r1.started → r2.timers = r1.timers → Round.Calm r r2 := by
        intro r1 r2 c1 e1 e2 e3
        exact Round.calm_trans _ _ _ c1 (Round.calm_of_eq r1 r2 e1 e2 (fun x hx _ => e3 ▸ hx))
      split_ifs
      · exact key _ _ (Round.calm_trans _ _ _ g (Round.calm_handleClearEffect _)) rfl rfl rfl
      · exact key _ _ g rfl rfl rfl

theorem Round.calm_updatePlayer (E : Env G) (i : Nat) (diff limit : ℚ) (r : Round G) :
    Round.Calm r (r.updatePlayer E i diff limit) := by
  simp only [Round.updatePlayer]
  cases hu : r.players[i]? with
  | none => exact Round.calm_refl r
  | some up =>
    obtain ⟨u, p⟩ := up
    have hp : r.player? i = some p := by simp [Round.player?, hu]
    have hbody : ∀ r1 : Round G, Round.Calm r r1 → Round.Calm r
        (match r1.players[i]? with
          | none => r1
          | some (_, q) => r1.setPlayer i (Player.updateBody E r1.now diff q)) := by
      intro r1 c1
      cases hq : r1.players[i]? with
      | none => exact c1
      | some uq =>
        refine Round.calm_trans _ _ _ c1 (Round.calm_setPlayer r1 i _ (fun q hq2 => ?_))
        have : q = uq.2 := by
          simp only [Round.player?, hq, Option.map_some', Option.some.injEq] at hq2
          exact hq2.symm
        subst this
        exact Player.flagStep_of_eq _ _ (Player.updateBody_frame E _ diff _).1
          (Player.updateBody_frame E _ diff _).2.1
    simp only
    split_ifs with hs hl
    · exact Round.calm_refl r
    · apply hbody
      have hb := Player.bonusListener_frame E limit (p.emit .preUpdate)
      have c0 : Round.Calm r (r.setPlayer i ((p.emit .preUpdate).bonusListener E limit)) :=
        Round.calm_setPlayer r i _ (fun p2 hp2 => by
          rw [hp] at hp2
          cases hp2
          exact Player.flagStep_of_eq _ _ hb.2.2.2.2.2.2.1 hb.2.2.2.2.2.2.2.1)
      refine Round.calm_trans _ _ _ c0 (Round.calm_collisionListener E _ i (fun q hq => ?_))
      rw [Round.player?_setPlayer] at hq
      simp only [if_true, hp, Option.map_some', Option.some.injEq] at hq
      subst hq
      rw [hb.2.2.2.2.2.2.2.1]
      simpa using hs
    · apply hbody
      exact Round.calm_setPlayer r i _ (fun p2 hp2 => by
        rw [hp] at hp2
        cases hp2
        exact Player.flagStep_of_eq _ _ rfl rfl)

theorem Round.calm_spawnPowerUp (E : Env G) (d : SpawnDraw) (r : Round G) :
    Round.Calm r (r.spawnPowerUp E d) := by
  obtain ⟨g1, -, -, g4, -⟩ := Round.spawnPowerUp_frame E d r
  apply Round.calm_of_eq r _ g1 g4
  intro x hx hs
  simp only [Round.spawnPowerUp] at hx
  split_ifs at hx
  · exact hx
  · cases hc : (Round.placementLoop E r d.candidate 20 0).1 <;>
      simp only [hc, Round.setTimeout, List.mem_append, List.mem_singleton] at hx <;>
      rcases hx with hx | rfl <;> first | exact hx | cases hs

theorem Round.calm_end (r : Round G) : Round.Calm r (Round.end r) := by
  simp only [Round.end]
  split_ifs
  · exact Round.calm_refl r
  · apply Round.calm_of_map r _
      (fun up => (({ up.1 with inputOn := false } : User), up.2.destroy))
      (fun up => Player.flagStep_of_eq _ _ rfl rfl)
    · cases r.powerUpTimer <;>
        simp [Round.emit, Round.clearTimeout, List.map_map, Function.comp_def]
    · cases r.powerUpTimer <;> simp [Round.emit, Round.clearTimeout]
    · intro x hx _
      cases hq : r.powerUpTimer with
      | none => simpa [hq, Round.emit] using hx
      | some id =>
        simp only [hq, Round.emit, Round.clearTimeout] at hx
        exact (List.mem_filter.1 hx).1

theorem Round.calm_input (r : Round G) (i : Nat) (dir : String) :
    Round.Calm r (r.input i dir) := by
  simp only [Round.input]
  cases hu : r.players[i]? with
  | none => exact Round.calm_refl r
  | some up =>
    simp only
    split_ifs <;>
      first
        | exact Round.calm_refl r
        | exact Round.calm_setPlayer r i _ (fun p hp => by
            simp only [Round.player?, hu, Option.map_some', Option.some.injEq] at hp
            subst hp
            exact Player.flagStep_of_eq _ _ rfl rfl)

theorem Round.calm_start (r : Round G) (h : r.started = true) : Round.Calm r r.start := by
  simp [Round.start, h, Round.calm_refl]

/-- Every step is calm, except the start of a round that was not started and
the firing of a timer of the countdown. -/
theorem Round.step_cases (E : Env G) (r : Round G) (e : Event) :
    Round.Calm r (r.step E e) ∨ (e = .start ∧ r.started = false) ∨
    (∃ id d t, e = .fire id d ∧ r.timers.find? (fun t => t.id = id) = some t ∧
      t.due ≤ r.now ∧ t.action = .startGame) := by
  cases e with
  | start =>
    by_cases h : r.started = true
    · exact Or.inl (Round.calm_start r h)
    · exact Or.inr (Or.inl ⟨rfl, by simpa using h⟩)
  | clock ms => exact Or.inl (Round.calm_of_eq r _ rfl rfl (fun x hx _ => hx))
  | fire id d =>
    simp only [Round.step, Round.fire]
    cases hf : r.timers.find? (fun t => t.id = id) with
    | none => exact Or.inl (Round.calm_refl r)
    | some t =>
      simp only
      by_cases hd : t.due ≤ r.now
      · rw [if_pos hd]
        have c0 : Round.Calm r { r with timers := r.timers.filter (fun t => t.id ≠ id) } :=
          Round.calm_of_eq r _ rfl rfl (fun x hx _ => (List.mem_filter.1 hx).1)
        cases ha : t.action with
        | startGame => exact Or.inr (Or.inr ⟨id, d, t, rfl, hf, hd, ha⟩)
        | spawnPowerUp =>
          exact Or.inl (Round.calm_trans _ _ _ c0 (Round.calm_spawnPowerUp E d _))
        | player k a =>
          left
          refine Round.calm_trans _ _ _ c0 ?_
          simp only [Round.runTimer]
          cases hu : r.players[k]? with
          | none => exact Round.calm_refl _
          | some up =>
            exact Round.calm_setPlayer _ k _ (fun p hp => by
              simp only [Round.player?, hu, Option.map_some', Option.some.injEq] at hp
              subst hp
              exact Player.flagStep_of_eq _ _ (PlayerTimeout.run_crashed E a _).1
                (PlayerTimeout.run_crashed E a _).2)
      · rw [if_neg hd]; exact Or.inl (Round.calm_refl r)
  | input i dir => exact Or.inl (Round.calm_input r i dir)
  | draw i diff limit =>
    simp only [Round.step]
    split_ifs
    · exact Or.inl (Round.calm_updatePlayer E i diff limit r)
    · exact Or.inl (Round.calm_refl r)
  | keydown32 =>
    simp only [Round.step, Round.continue]
    split_ifs
    · left
      exact Round.calm_trans _ _ _
        (Round.calm_of_eq r { r with continueArmed := false } rfl rfl (fun x hx _ => hx))
        (Round.calm_end _)
    · exact Or.inl (Round.calm_refl r)
  | endRound => exact Or.inl (Round.calm_end r)

theorem Round.halted_of_calm (r r2 : Round G) (h : r.Halted) (c : Round.Calm r r2) :
    r2.Halted := by
  obtain ⟨a, b, u, q⟩ := h
  obtain ⟨c1, c2, c3⟩ := c
  have hq : (r2.started = false ∨ ∃ t ∈ r2.timers, t.action = .startGame) →
      (r.started = false ∨ ∃ t ∈ r.timers, t.action = .startGame) := by
    rintro (h | ⟨t, ht, hs⟩)
    · exact Or.inl (c1 ▸ h)
    · exact Or.inr ⟨t, c2 t ht hs, hs⟩
  refine ⟨fun j s hs hc => ?_, fun hs t ht ha => b (c1 ▸ hs) t (c2 t ht ha) ha,
    fun t ht t2 ht2 h1 h2 => u t (c2 t ht h1) t2 (c2 t2 ht2 h2) h1 h2, fun hh j s hs => ?_⟩
  · rcases c3 j with ⟨-, d2⟩ | ⟨p, s2, d1, d2, d3⟩
    · rw [d2] at hs; cases hs
    · rw [d2] at hs
      cases hs
      rcases d3 with ⟨e1, e2⟩ | ⟨-, e2, -⟩
      · rcases e2 with e2 | e2
        · rw [e2]; exact a j p d1 (e1 ▸ hc)
        · exact e2
      · exact e2
  · rcases c3 j with ⟨-, d2⟩ | ⟨p, s2, d1, d2, d3⟩
    · rw [d2] at hs; cases hs
    · rw [d2] at hs
      cases hs
      obtain ⟨f1, f2⟩ := q (hq hh) j p d1
      rcases d3 with ⟨e1, e2⟩ | ⟨-, -, e3⟩
      · refine ⟨?_, e1.trans f2⟩
        rcases e2 with e2 | e2
        · exact e2.trans f1
        · exact e2
      · rw [f1] at e3; cases e3

theorem Round.halted_start (r : Round G) (h : r.Halted) (hs : r.started = false) :
    r.start.Halted := by
  obtain ⟨a, b, u, q⟩ := h
  have hn : ∀ x ∈ r.start.timers, x.action = .startGame → x.id = r.nextTimerId := by
    intro x hx ha
    simp only [Round.start, hs, Bool.false_eq_true, if_false, Round.setTimeout, List.mem_append,
      List.mem_singleton] at hx
    rcases hx with hx | rfl
    · exact absurd ha (b hs x hx)
    · rfl
  have hp : ∀ j, r.start.player? j = r.player? j := by
    intro j
    simp [Round.start, hs, Round.setTimeout, Round.player?]
  refine ⟨fun j p hj => a j p (hp j ▸ hj), fun h0 => ?_,
    fun t ht t2 ht2 h1 h2 => (hn t ht h1).trans (hn t2 ht2 h2).symm,
    fun _ j p hj => q (Or.inl hs) j p (hp j ▸ hj)⟩
  simp [Round.start, hs, Round.setTimeout] at h0

theorem Round.halted_startGame (E : Env G) (d : SpawnDraw) (r : Round G) (h : r.Halted)
    (id : Nat) (t : Timer) (hf : r.timers.find? (fun t => t.id = id) = some t)
    (ha : t.action = .startGame) :
    (Round.startGame E d { r with timers := r.timers.filter (fun t => t.id ≠ id) }).Halted := by
  obtain ⟨a, b, u, q⟩ := h
  have htm : t ∈ r.timers := List.mem_of_find?_eq_some hf
  have hid : t.id = id := by simpa using List.find?_some hf
  have hall := q (Or.inr ⟨t, htm, ha⟩)
  have hst : r.started = true := by
    cases hs : r.started with
    | true => rfl
    | false => exact absurd ha (b hs t htm)
  obtain ⟨g1, -, -, g4, -⟩ := Round.spawnPowerUp_frame E d
    ({ r with timers := r.timers.filter (fun t => t.id ≠ id),
              players := r.players.map (fun up => (up.1, { up.2 with stop := false })) })
  have hsc := Round.calm_spawnPowerUp E d
    ({ r with timers := r.timers.filter (fun t => t.id ≠ id),
              players := r.players.map (fun up => (up.1, { up.2 with stop := false })) })
  have hnone : ∀ x ∈ (Round.startGame E d
      { r with timers := r.timers.filter (fun t => t.id ≠ id) }).timers,
      x.action ≠ .startGame := by
    intro x hx hxa
    have hx2 : x ∈ r.timers.filter (fun t => t.id ≠ id) := hsc.2.1 x hx hxa
    obtain ⟨hx3, hx4⟩ := List.mem_filter.1 hx2
    have := u x hx3 t htm hxa ha
    rw [hid] at this
    simp [this] at hx4
  have hstart : (Round.startGame E d
      { r with timers := r.timers.filter (fun t => t.id ≠ id) }).started = true := by
    simp only [Round.startGame, Round.emit]
    rw [g4]
    exact hst
  have hpl : ∀ j p, (Round.startGame E d
      { r with timers := r.timers.filter (fun t => t.id ≠ id) }).player? j = some p →
      p.crashed = false := by
    intro j p hj
    simp only [Round.startGame, Round.emit, Round.player?] at hj
    rw [g1] at hj
    simp only [List.getElem?_map] at hj
    cases hu : r.players[j]? with
    | none => simp [hu] at hj
    | some up =>
      simp only [hu, Option.map_some', Option.some.injEq] at hj
      subst hj
      exact (hall j up.2 (by simp [Round.player?, hu])).2
  refine ⟨fun j p hj hc => ?_, fun h0 => ?_, fun x hx _ _ h1 _ => absurd h1 (hnone x hx),
    fun hh => ?_⟩
  · rw [hpl j p hj] at hc; cases hc
  · rw [hstart] at h0; cases h0
  · rcases hh with h0 | ⟨x, hx, hxa⟩
    · rw [hstart] at h0; cases h0
    · exact absurd hxa (hnone x hx)

theorem Round.halted_step (E : Env G) (r : Round G) (e : Event) (h : r.Halted) :
    (r.step E e).Halted := by
  rcases Round.step_cases E r e with c | ⟨rfl, hs⟩ | ⟨id, d, t, rfl, hf, hd, ha⟩
  · exact Round.halted_of_calm r _ h c
  · exact Round.halted_start r h hs
  · simp only [Round.step, Round.fire, hf, hd, if_true, ha, Round.runTimer]
    exact Round.halted_startGame E d r h id t hf ha

theorem Round.halted_new (E : Env G) (mapSize : Point) (now : Nat)
    (users : List (User × PlayerInit)) : (Round.new E mapSize now users : Round G).Halted := by
  obtain ⟨h1, -, h3⟩ := Round.new_players E mapSize now users
  obtain ⟨-, hs, -⟩ := Round.new_roster E mapSize now users
  have hp : ∀ j p, (Round.new E mapSize now users : Round G).player? j = some p →
      p.stop = true ∧ p.crashed = false := by
    intro j p hj
    obtain ⟨u, hu⟩ := Round.player?_some _ j p hj
    obtain ⟨name, color, o, ho⟩ := h3 (u, p) (List.mem_iff_getElem?.2 ⟨j, hu⟩)
    simp only at ho
    rw [ho]
    exact ⟨rfl, rfl⟩
  refine ⟨fun j p hj hc => (hp j p hj).1, fun _ t ht => ?_, fun t ht => ?_, fun _ => hp⟩
  · rw [h1] at ht; cases ht
  · rw [h1] at ht; cases ht

/-- In every round reachable from its construction a crashed player is
stopped. -/
theorem Round.halted_run (E : Env G) (mapSize : Point) (now : Nat)
    (users : List (User × PlayerInit)) (es : List Event) :
    ((Round.new E mapSize now users : Round G).run E es).Halted :=
  Round.run_induction E Round.Halted (fun r e h => Round.halted_step E r e h) _ es
    (Round.halted_new E mapSize now users)

/-- A crashed player stays crashed. -/
theorem Round.crashed_step (E : Env G) (r : Round G) (e : Event) (j : Nat)
    (h : (r.player? j).map (fun p => p.crashed) = some true) :
    ((r.step E e).player? j).map (fun p => p.crashed) = some true := by
  rcases Round.step_cases E r e with c | ⟨rfl, hs⟩ | ⟨id, d, t, rfl, hf, hd, ha⟩
  · rcases c.2.2 j with ⟨d1, -⟩ | ⟨p, q, d1, d2, d3⟩
    · rw [d1] at h; cases h
    · rw [d1] at h
      rw [d2]
      simp only [Option.map_some', Option.some.injEq] at h ⊢
      rcases d3 with ⟨e1, -⟩ | ⟨e1, -⟩
      · exact e1.trans h
      · exact e1
  · simpa [Round.step, Round.start, hs, Round.setTimeout, Round.player?] using h
  · simp only [Round.step, Round.fire, hf, hd, if_true, ha, Round.runTimer, Round.startGame,
      Round.emit, Round.player?]
    rw [(Round.spawnPowerUp_frame E d _).1]
    simp only [Round.player?] at h
    simp only [List.getElem?_map]
    cases hu : r.players[j]? with
    | none => simp [hu] at h
    | some up => simpa [hu] using h

theorem Player.updateBody_curve (E : Env G) (now : Nat) (diff : ℚ) (q : Player G) :
    (Player.updateBody E now diff q).curve
      = (if q.active then E.curveUpdate q.curve (Player.updateBody E now diff q).position
         else q.curve) := by
  obtain ⟨h1, h2, h3, h4, h5, h6, h7, h8⟩ := Player.updateEffects_frame now
    ({ q with particleSystem := q.particleSystem ++ [.update diff] } : Player G)
  simp only at h1 h2 h3 h4 h5 h6 h7 h8
  simp only [Player.updateBody, Player.emit, Player.getMovement, Player.addAngle]
  split_ifs <;> simp_all

/-- The player at position `i` after the statements of a crash branch: the
crashed player, stopped. -/
theorem Round.crashPlayer_player (r : Round G) (i : Nat) (p : Player G)
    (hp : r.player? i = some p) (hc : p.crashed = false) (hi : p.immune = false) :
    ∃ q, (r.crashPlayer i p).player? i = some q ∧ q.crashed = true ∧ q.stop = true ∧
      q.speed = p.speed ∧ q.vector = p.vector ∧ q.active = p.active ∧ q.curve = p.curve := by
  have h0 : ((r.setPlayer i (p.crash ⟨p.position.x, p.position.y⟩)).emit (.crash i)).player? i
      = some (p.crash ⟨p.position.x, p.position.y⟩) := by
    have := Round.player?_setPlayer r i i (p.crash ⟨p.position.x, p.position.y⟩)
    simp only [if_true, hp, Option.map_some'] at this
    simpa [Round.player?, Round.emit] using this
  have hcr : (p.crash ⟨p.position.x, p.position.y⟩).crashed = true ∧
      (p.crash ⟨p.position.x, p.position.y⟩).stop = true ∧
      (p.crash ⟨p.position.x, p.position.y⟩).speed = p.speed ∧
      (p.crash ⟨p.position.x, p.position.y⟩).vector = p.vector ∧
      (p.crash ⟨p.position.x, p.position.y⟩).active = p.active ∧
      (p.crash ⟨p.position.x, p.position.y⟩).curve = p.curve := by
    simp [Player.crash, Player.emit, hc, hi]
  simp only [Round.crashPlayer]
  split_ifs
  · rcases (Round.calm_prepareToEnd ((r.setPlayer i (p.crash ⟨p.position.x, p.position.y⟩)).emit
        (.crash i))).2.2 i with ⟨d1, -⟩ | ⟨c, q, d1, d2, d3⟩
    · rw [h0] at d1; cases d1
    · rw [h0] at d1
      cases d1
      have hm := Round.prepareToEnd_map
        (fun s : Player G => (s.crashed, s.speed, s.vector, s.active, s.curve)) (fun _ => rfl)
        ((r.setPlayer i (p.crash ⟨p.position.x, p.position.y⟩)).emit (.crash i)) i
      rw [h0, d2] at hm
      simp only [Option.map_some', Option.some.injEq, Prod.mk.injEq] at hm
      obtain ⟨m1, m2, m3, m4, m5⟩ := hm
      refine ⟨q, d2, m1.trans hcr.1, ?_, m2.trans hcr.2.2.1, m3.trans hcr.2.2.2.1,
        m4.trans hcr.2.2.2.2.1, m5.trans hcr.2.2.2.2.2⟩
      rcases d3 with ⟨-, e2⟩ | ⟨-, e2, -⟩
      · rcases e2 with e2 | e2
        · exact e2.trans hcr.2.1
        · exact e2
      · exact e2
  · exact ⟨_, h0, hcr⟩

/-- When the listeners of `pre/update` crash the player of the tick, they
leave it stopped, with the speed and the steering value it had. -/
theorem Round.listeners_crash (E : Env G) (r : Round G) (i : Nat) (limit : ℚ) (p q : Player G)
    (hp : r.player? i = some p) (hc : p.crashed = false)
    (hq : q = Round.listeners E r i limit p) (hqc : q.crashed = true) :
    q.stop = true ∧ q.speed = p.speed ∧ q.vector = p.vector := by
  have hb := Player.bonusListener_frame E limit p
  simp only [Round.listeners] at hq
  by_cases hl : p.listening = true
  · rw [if_pos hl] at hq
    have hpb : (r.setPlayer i (p.bonusListener E limit)).player? i
        = some (p.bonusListener E limit) := by
      rw [Round.player?_setPlayer]; simp [hp]
    have hcb : (p.bonusListener E limit).crashed = false := by
      rw [hb.2.2.2.2.2.2.1]; exact hc
    rcases Round.collisionListener_cases E (r.setPlayer i (p.bonusListener E limit)) i with
      e | ⟨b, hb1, hb2, hb3, e⟩ | ⟨b, hb1, hb2, h1, h2⟩
    · rw [e, hpb] at hq
      simp only [Option.getD_some] at hq
      rw [hq, hcb] at hqc
      cases hqc
    · rw [hpb] at hb1
      cases hb1
      obtain ⟨s, hs1, -, hs3, hs4, hs5, -⟩ :=
        Round.crashPlayer_player (r.setPlayer i (p.bonusListener E limit)) i _ hpb hb2 hb3
      rw [e, hs1] at hq
      simp only [Option.getD_some] at hq
      subst hq
      exact ⟨hs3, hs4.trans hb.2.2.2.1, hs5.trans hb.2.2.2.2.1⟩
    · have := (Round.collisionListener_pickup E _ i b hb1 hb2 h1 h2).1
      cases hx : ((r.setPlayer i (p.bonusListener E limit)).collisionListener E i).player? i with
      | none => rw [hx] at this; cases this
      | some x =>
        rw [hx] at this hq
        simp only [Option.getD_some] at hq
        simp only [Option.map_some', Option.some.injEq] at this
        rw [hq, this] at hqc
        cases hqc
  · rw [if_neg hl, Round.player?_setPlayer] at hq
    simp only [if_true, hp, Option.map_some', Option.getD_some] at hq
    rw [hq, hc] at hqc
    cases hqc

/-- C20. In a round reachable from its construction, with `p` the player at
position `i`. If `p` is not stopped and the listeners of `pre/update` of its
tick crash it (leaving it in the state `q`), then the same tick still moves
it: it ends crashed and stopped, at heading `h`, at position
`old + speed*dt*(sin h°, cos h°)` and with distance `old + speed*dt`, speed and
steering value being those it had, and its trail is extended by the new
position if it is drawing. If `p` is crashed, then after every further
sequence of events it is still crashed and stopped, and its tick, for every
`dt`, leaves the round unchanged, and with it position, heading, distance and
trail of the player. -/
theorem Round.crashed_tick_motion (E : Env G) (mapSize : Point) (now : Nat)
    (users : List (User × PlayerInit)) (es : List Event) (r : Round G)
    (hr : r = (Round.new E mapSize now users).run E es) (i : Nat) (p : Player G)
    (hp : r.player? i = some p) :
    (p.stop = false → ∀ (diff limit : ℚ) (q : Player G),
      q = Round.listeners E r i limit (p.emit .preUpdate) → q.crashed = true →
      ∀ h, h = (if p.vector ≠ 0 then p.angle - p.vector * 3.6 * p.agility else p.angle) →
      ∃ u, (r.updatePlayer E i diff limit).player? i = some u ∧
        p.crashed = false ∧ u.crashed = true ∧ u.stop = true ∧ u.angle = h ∧
        u.position = ⟨p.position.x + p.speed * diff * E.sin (h * (E.pi / 180)),
                      p.position.y + p.speed * diff * E.cos (h * (E.pi / 180))⟩ ∧
        u.distanceTraveled = p.distanceTraveled + p.speed * diff ∧
        u.curve = (if q.active then E.curveUpdate q.curve u.position else q.curve)) ∧
    (p.crashed = true → ∀ es2 : List Event,
      ∃ u, (r.run E es2).player? i = some u ∧ u.crashed = true ∧ u.stop = true ∧
        ∀ diff limit : ℚ,
          (r.run E es2).updatePlayer E i diff limit = r.run E es2 ∧
          (r.run E es2).step E (.draw i diff limit) = r.run E es2) := by
  have hH : r.Halted := hr ▸ Round.halted_run E mapSize now users es
  refine ⟨fun hs diff limit q hq hqc h hh => ?_, fun hc es2 => ?_⟩
  · have hc : p.crashed = false := by
      cases hcr : p.crashed with
      | false => rfl
      | true => rw [hH.1 i p hp hcr] at hs; cases hs
    have hp1 : (r.setPlayer i (p.emit .preUpdate)).player? i = some (p.emit .preUpdate) := by
      rw [Round.player?_setPlayer]; simp [hp]
    have hl : Round.listeners E r i limit (p.emit .preUpdate)
        = Round.listeners E (r.setPlayer i (p.emit .preUpdate)) i limit (p.emit .preUpdate) := by
      simp only [Round.listeners, Round.setPlayer, List.modify_modify_eq]
      rfl
    obtain ⟨k1, k2, k3⟩ := Round.listeners_crash E _ i limit (p.emit .preUpdate) q hp1 hc
      (hq.trans hl) hqc
    have hk := Round.listeners_kin E r i limit (p.emit .preUpdate)
    rw [← hq] at hk
    simp only [Player.kin, Player.emit, Prod.mk.injEq] at hk
    obtain ⟨m1, m2, m3, m4⟩ := hk
    simp only [Player.emit] at k2 k3
    have hu := Round.updatePlayer_player E r i diff limit p hp
    simp only [Player.update, hs, Bool.false_eq_true, if_false] at hu
    rw [← hq] at hu
    obtain ⟨b1, b2, b3⟩ := Player.updateBody_motion E r.now diff q
    obtain ⟨f1, f2, -⟩ := Player.updateBody_frame E r.now diff q
    simp only [m1, m2, m3, m4, k2, k3, ← hh] at b1 b2 b3
    exact ⟨_, hu, hc, f1.trans hqc, f2.trans k1, b1, b2, b3, Player.updateBody_curve E r.now diff q⟩
  · have hH2 : (r.run E es2).Halted :=
      Round.run_induction E Round.Halted (fun r e h => Round.halted_step E r e h) r es2 hH
    have hc2 : ((r.run E es2).player? i).map (fun p => p.crashed) = some true :=
      Round.run_induction E (fun r2 => (r2.player? i).map (fun p => p.crashed) = some true)
        (fun r2 e h => Round.crashed_step E r2 e i h) r es2 (by simp [hp, hc])
    cases hu : (r.run E es2).player? i with
    | none => rw [hu] at hc2; cases hc2
    | some u =>
      rw [hu] at hc2
      simp only [Option.map_some', Option.some.injEq] at hc2
      have hst := hH2.1 i u hu hc2
      obtain ⟨w, hw⟩ := Round.player?_some _ i u hu
      have e1 : ∀ diff limit : ℚ, (r.run E es2).updatePlayer E i diff limit = r.run E es2 := by
        intro diff limit
        simp [Round.updatePlayer, hw, hst]
      refine ⟨u, rfl, hc2, hst, fun diff limit => ⟨e1 diff limit, ?_⟩⟩
      simp only [Round.step]
      split_ifs
      · exact e1 diff limit
      · rfl

/-- Witness of C20: in `edgeRound` the first player, at (100, 608) beyond the
edge, is not stopped; the collision check of its next tick, of 1/60 s,
crashes it and the tick moves it to (100, 608 + 4/3). In `pausedRound`, the
round after that tick, it is crashed, and after two more frames its tick
changes nothing. -/
theorem Round.crashed_tick_motion_witness :
    edgeRound.player? 0 = some edgePlayer ∧ edgePlayer.stop = false ∧
    edgePlayer.position = ⟨100, 608⟩ ∧
    (Round.listeners exampleEnv edgeRound 0 300 (edgePlayer.emit .preUpdate)).crashed = true ∧
    (∃ u, (edgeRound.updatePlayer exampleEnv 0 (1 / 60) 300).player? 0 = some u ∧
      u.crashed = true ∧ u.position = ⟨100, 608 + 4 / 3⟩ ∧ u.distanceTraveled = 40 + 4 / 3) ∧
    (pausedRound.player? 0).map (fun p => p.crashed) = some true ∧
    (pausedRound.run exampleEnv [.clock 17, .draw 1 (1 / 60) 300, .clock 17]).updatePlayer
        exampleEnv 0 (1 / 60) 300
      = pausedRound.run exampleEnv [.clock 17, .draw 1 (1 / 60) 300, .clock 17] :=
  have h1 : edgeRound.player? 0 = some edgePlayer := by decide!
  have h2 : edgePlayer.stop = false := by decide!
  have h3 : (Round.listeners exampleEnv edgeRound 0 300 (edgePlayer.emit .preUpdate)).crashed
      = true := by decide!
  have hc := (Round.crashed_tick_motion exampleEnv ⟨800, 600⟩ 0
    [(⟨"A", "#1abc9c", false⟩, ⟨100, 560, 0, 300⟩), (⟨"B", "#2ecc71", false⟩, ⟨400, 300, 0, 250⟩)]
    [.start, .clock 3000, .fire 1 exampleDraw, .draw 0 (1 / 2) 300] edgeRound rfl 0 edgePlayer
    h1).1 h2 (1 / 60) 300 _ rfl h3 0 (by decide!)
  have hp := (Round.crashed_tick_motion exampleEnv ⟨800, 600⟩ 0
    [(⟨"A", "#1abc9c", false⟩, ⟨100, 560, 0, 300⟩), (⟨"B", "#2ecc71", false⟩, ⟨400, 300, 0, 250⟩)]
    [.start, .clock 3000, .fire 1 exampleDraw, .draw 0 (1 / 2) 300, .draw 0 (1 / 60) 300]
    pausedRound rfl 0 ((pausedRound.player? 0).getD examplePlayer) (by decide!)).2 (by decide!)
    [.clock 17, .draw 1 (1 / 60) 300, .clock 17]
  ⟨h1, h2, by decide!, h3,
    ⟨hc.choose, hc.choose_spec.1, hc.choose_spec.2.2.1, by
      rw [hc.choose_spec.2.2.2.2.2.1]
      decide!, by
      rw [hc.choose_spec.2.2.2.2.2.2.1]
      decide!⟩,
    by decide!, (hp.choose_spec.2.2.2 (1 / 60) 300).1⟩

end Kurve
